import Mathlib

/-!
# Shared handle tracking of `Tp::Connection`

A shallow embedding of the handle-tracking code of
`TelepathyQt4/connection.cpp` (`Connection::Private::HandleContext`,
`Connection::refHandle`, `unrefHandle`, `doReleaseSweep`,
`handleRequestLanded`, `requestHandles`, `referenceHandles`,
`Connection::Private::init` and `Connection::Private::~Private`).

Further parts embed the status tracking and the bring-up of `FeatureCore`
and `FeatureRoster` of the same file, `MediaStream` of
`Client/streamed-media-channel.cpp`, and the directory search and the
conversion of default values of `manager-file.cpp`; each is introduced where
its definitions start.

Conventions of the embedding:

* `QMap<K, V>` is an association list kept in key order, `QSet<uint>` a
  duplicate-free list (the iteration order of a `QSet` is unspecified, so
  results about released handles are stated up to membership).
* `uint` counters are natural numbers with `++` and `--` taken modulo
  `2 ^ 32`.
* `Q_ASSERT` compiles to nothing in release builds; the function bodies are
  embedded as total functions and each assertion is a separate predicate.
* Remote `ReleaseHandles` calls and `QMetaObject::invokeMethod(this,
  "doReleaseSweep", Qt::QueuedConnection, ...)` postings are returned as
  explicit outputs.
* Mutexes are not modelled: every operation is one atomic step.
-/

namespace Tp

/-! ## Containers -/

/-- Modulus of the C++ `uint` (`unsigned int`) counters. -/
def uintMod : Nat := 4294967296

/-- The increment `++` of a `uint`: addition of 1 modulo `2 ^ 32`. -/
def uintInc (n : Nat) : Nat := (n + 1) % uintMod

/-- The largest `int`. Incrementing it is undefined behaviour in C++. -/
def intMax : Int := 2147483647

/-- The smallest `int`. Decrementing it is undefined behaviour in C++. -/
def intMin : Int := -2147483648

/-- The decrement `--` of a `uint`: subtraction of 1 modulo `2 ^ 32`, so 0
wraps around to `2 ^ 32 - 1`. -/
def uintDec (n : Nat) : Nat := if n = 0 then uintMod - 1 else n - 1

/-- `QMap<K, V>`: an association list; `insert` keeps it in key order. -/
abbrev QMap (κ β : Type) := List (κ × β)

namespace QMap

variable {κ β : Type} [DecidableEq κ]

/-- Lookup of a key: the value stored for it, if any. -/
def value? : QMap κ β → κ → Option β
  | [], _ => none
  | (k', v) :: r, k => if k' = k then some v else value? r k

/-- `QMap::contains`. -/
def contains (m : QMap κ β) (k : κ) : Bool := (value? m k).isSome

/-- `QMap::value`: the stored value, or a default-constructed one. This is
also the value that the non-const `operator[]` yields. -/
def value [Inhabited β] (m : QMap κ β) (k : κ) : β := (value? m k).getD default

/-- `QMap::insert`: replaces the value of an existing key, otherwise adds the
pair at its place in key order. -/
def insert [Ord κ] : QMap κ β → κ → β → QMap κ β
  | [], k, v => [(k, v)]
  | (k', v') :: r, k, v =>
    if k = k' then (k, v) :: r
    else if compare k k' = Ordering.lt then (k, v) :: (k', v') :: r
    else (k', v') :: insert r k v

/-- `QMap::remove`. -/
def remove : QMap κ β → κ → QMap κ β
  | [], _ => []
  | (k', v) :: r, k => if k' = k then remove r k else (k', v) :: remove r k

/-- `QMap::keys`. -/
def keys (m : QMap κ β) : List κ := m.map Prod.fst

end QMap

/-- `QSet<uint>`. -/
abbrev QSet := List Nat

namespace QSet

/-- `QSet::contains`. -/
def contains (s : QSet) (x : Nat) : Bool := decide (x ∈ s)

/-- `QSet::insert`. -/
def insert (s : QSet) (x : Nat) : QSet := if x ∈ s then s else s ++ [x]

/-- `QSet::remove`. -/
def remove (s : QSet) (x : Nat) : QSet := s.filter (fun y => decide (y ≠ x))

/-- `QSet::toList` (some enumeration of the elements). -/
def toList (s : QSet) : List Nat := s

end QSet

/-- Key order of `QPair<QString, QString>`. -/
instance qpairOrd : Ord (String × String) := lexOrd

/-! ## Data model -/

/-- `Connection::Private::HandleContext::Type`: the per-handle-type state. -/
structure HandleContextType where
  refcounts : QMap Nat Nat
  toRelease : QSet
  requestsInFlight : Nat
  releaseScheduled : Bool
deriving DecidableEq, Repr

/-- The constructor `Type()`: empty containers, no request in flight, no
sweep scheduled. -/
instance : Inhabited HandleContextType := ⟨⟨[], [], 0, false⟩⟩

/-- `Connection::Private::HandleContext` (the mutex is not modelled). -/
structure HandleContext where
  refcount : Int
  types : QMap Nat HandleContextType
deriving DecidableEq, Repr

namespace HandleContext

/-- The constructor `HandleContext()`. -/
def new : HandleContext := ⟨0, []⟩

/-- The entry denoted by `handleContext->types[type]`. -/
def typeAt (ctx : HandleContext) (type : Nat) : HandleContextType := ctx.types.value type

/-- Assignment through `handleContext->types[type]`. -/
def setType (ctx : HandleContext) (type : Nat) (T : HandleContextType) : HandleContext :=
  { ctx with types := ctx.types.insert type T }

end HandleContext

/-! ## Operations on one handle context -/

/-- `Connection::refHandle`. -/
def refHandle (ctx : HandleContext) (type handle : Nat) : HandleContext :=
  let T := ctx.typeAt type
  let toRelease :=
    if T.toRelease.contains handle then T.toRelease.remove handle else T.toRelease
  ctx.setType type
    { T with
      toRelease := toRelease
      refcounts := T.refcounts.insert handle (uintInc (T.refcounts.value handle)) }

/-- The two `Q_ASSERT`s of `Connection::unrefHandle`. -/
def unrefHandleAsserts (ctx : HandleContext) (type handle : Nat) : Bool :=
  ctx.types.contains type && (ctx.typeAt type).refcounts.contains handle

/-- `Connection::unrefHandle`. The second component tells whether a
`doReleaseSweep(type)` invocation was posted. -/
def unrefHandle (ctx : HandleContext) (type handle : Nat) : HandleContext × Bool :=
  let T := ctx.typeAt type
  let n := uintDec (T.refcounts.value handle)
  if n = 0 then
    let T1 : HandleContextType :=
      { T with
        refcounts := T.refcounts.remove handle
        toRelease := T.toRelease.insert handle }
    if !T1.releaseScheduled then
      if T1.requestsInFlight = 0 then
        (ctx.setType type { T1 with releaseScheduled := true }, true)
      else (ctx.setType type T1, false)
    else (ctx.setType type T1, false)
  else
    (ctx.setType type { T with refcounts := T.refcounts.insert handle n }, false)

/-- The two `Q_ASSERT`s of `Connection::doReleaseSweep`. -/
def doReleaseSweepAsserts (ctx : HandleContext) (type : Nat) : Bool :=
  ctx.types.contains type && (ctx.typeAt type).releaseScheduled

/-- `Connection::doReleaseSweep`. The second component lists the
`ReleaseHandles(type, handles)` calls issued on the wire. -/
def doReleaseSweep (ctx : HandleContext) (type : Nat) :
    HandleContext × List (Nat × List Nat) :=
  let T := ctx.typeAt type
  let T1 : HandleContextType := { T with releaseScheduled := false }
  if T1.requestsInFlight > 0 then (ctx.setType type T1, [])
  else if T1.toRelease.isEmpty then (ctx.setType type T1, [])
  else (ctx.setType type { T1 with toRelease := [] }, [(type, T1.toRelease.toList)])

/-- The two `Q_ASSERT`s of `Connection::handleRequestLanded`. -/
def handleRequestLandedAsserts (ctx : HandleContext) (type : Nat) : Bool :=
  ctx.types.contains type && decide ((ctx.typeAt type).requestsInFlight > 0)

/-- `Connection::handleRequestLanded`. The second component tells whether a
`doReleaseSweep(type)` invocation was posted. -/
def handleRequestLanded (ctx : HandleContext) (type : Nat) : HandleContext × Bool :=
  let T := ctx.typeAt type
  let n := uintDec T.requestsInFlight
  let T1 : HandleContextType := { T with requestsInFlight := n }
  if n = 0 && !T1.toRelease.isEmpty && !T1.releaseScheduled then
    (ctx.setType type { T1 with releaseScheduled := true }, true)
  else (ctx.setType type T1, false)

/-- The handle-context part of `Connection::requestHandles` (the
`PendingHandles` object it returns is not modelled). -/
def requestHandles (ctx : HandleContext) (handleType : Nat) (_names : List String) :
    HandleContext :=
  let T := ctx.typeAt handleType
  ctx.setType handleType { T with requestsInFlight := uintInc T.requestsInFlight }

/-- The operations of `Connection` that touch the handle context. -/
inductive Op where
  | refHandle (type handle : Nat)
  | unrefHandle (type handle : Nat)
  | requestHandles (type : Nat) (names : List String)
  | handleRequestLanded (type : Nat)
  | doReleaseSweep (type : Nat)
deriving DecidableEq, Repr

/-- The observable result of running operations: the context, the posted
`doReleaseSweep(type)` invocations and the `ReleaseHandles(type, handles)`
calls, both in order of occurrence. -/
structure Outcome where
  ctx : HandleContext
  posted : List Nat
  released : List (Nat × List Nat)
deriving DecidableEq, Repr

/-- One operation, with its outputs. -/
def step (ctx : HandleContext) : Op → Outcome
  | Op.refHandle type handle => ⟨refHandle ctx type handle, [], []⟩
  | Op.unrefHandle type handle =>
    let r := unrefHandle ctx type handle
    ⟨r.1, if r.2 then [type] else [], []⟩
  | Op.requestHandles type names => ⟨requestHandles ctx type names, [], []⟩
  | Op.handleRequestLanded type =>
    let r := handleRequestLanded ctx type
    ⟨r.1, if r.2 then [type] else [], []⟩
  | Op.doReleaseSweep type =>
    let r := doReleaseSweep ctx type
    ⟨r.1, [], r.2⟩

/-- A sequence of operations, with the outputs concatenated. -/
def run (ctx : HandleContext) : List Op → Outcome
  | [] => ⟨ctx, [], []⟩
  | op :: ops =>
    let o := step ctx op
    let o1 := run o.ctx ops
    ⟨o1.ctx, o.posted ++ o1.posted, o.released ++ o1.released⟩

/-- The assertions of an operation (`true` where the source has none). -/
def Op.asserts (ctx : HandleContext) : Op → Bool
  | Op.refHandle _ _ => true
  | Op.unrefHandle type handle => unrefHandleAsserts ctx type handle
  | Op.requestHandles _ _ => true
  | Op.handleRequestLanded type => handleRequestLandedAsserts ctx type
  | Op.doReleaseSweep type => doReleaseSweepAsserts ctx type

/-- The contexts reachable from the empty one by `refHandle`, `unrefHandle`
on a handle present in `refcounts`, `requestHandles`, `handleRequestLanded`
and `doReleaseSweep`. The last two are allowed at any time, also where their
assertions would fail. -/
inductive Reachable : HandleContext → Prop where
  | new : Reachable HandleContext.new
  | refHandle {ctx : HandleContext} (type handle : Nat) :
      Reachable ctx → Reachable (refHandle ctx type handle)
  | unrefHandle {ctx : HandleContext} (type handle : Nat) :
      Reachable ctx → (ctx.typeAt type).refcounts.contains handle = true →
      Reachable (unrefHandle ctx type handle).1
  | requestHandles {ctx : HandleContext} (type : Nat) (names : List String) :
      Reachable ctx → Reachable (requestHandles ctx type names)
  | handleRequestLanded {ctx : HandleContext} (type : Nat) :
      Reachable ctx → Reachable (handleRequestLanded ctx type).1
  | doReleaseSweep {ctx : HandleContext} (type : Nat) :
      Reachable ctx → Reachable (doReleaseSweep ctx type).1

/-! ## The registry of handle contexts and the proxies sharing them -/

/-- The handle-tracking part of one live `Connection` object: the registry
key read from its `baseInterface`, the `HandleContext *` it holds, and the
`doReleaseSweep(type)` invocations posted to it and not yet delivered. -/
structure Proxy where
  busConnectionName : String
  busName : String
  handleContext : Nat
  queued : List Nat
deriving DecidableEq, Repr

/-- The process: the `HandleContext` objects on the heap (by address), the
static `Connection::Private::handleContexts`, the live `Connection` objects
(by identity) and the `ReleaseHandles` calls issued so far, each as
(issuing object, handle type, handles). -/
structure World where
  heap : QMap Nat HandleContext
  nextAddress : Nat
  handleContexts : QMap (String × String) Nat
  proxies : QMap Nat Proxy
  nextProxy : Nat
  released : List (Nat × Nat × List Nat)
deriving DecidableEq, Repr

namespace World

/-- The process at start: nothing allocated, empty registry. -/
def empty : World := ⟨[], 1, [], [], 0, []⟩

/-- Construction of a `Connection` for the given bus connection name and
service name, as far as `Connection::Private::init` goes: look the pair up
in the registry, reuse or create the context, increment its `refcount`.
Has no defined result if the registered pointer is dangling or the `int`
increment overflows. -/
def init (w : World) (busConnectionName busName : String) : Option World :=
  let key := (busConnectionName, busName)
  let w1 : World × Nat :=
    match w.handleContexts.value? key with
    | some p => (w, p)
    | none =>
      ({ w with
          heap := w.heap.insert w.nextAddress HandleContext.new
          nextAddress := w.nextAddress + 1
          handleContexts := w.handleContexts.insert key w.nextAddress },
        w.nextAddress)
  match w1.1.heap.value? w1.2 with
  | none => none
  | some ctx =>
    if ctx.refcount = intMax then none
    else
      some { w1.1 with
        heap := w1.1.heap.insert w1.2 { ctx with refcount := ctx.refcount + 1 }
        proxies := w1.1.proxies.insert w.nextProxy ⟨busConnectionName, busName, w1.2, []⟩
        nextProxy := w.nextProxy + 1 }

/-- The `ReleaseHandles` calls of the `foreach` loop of
`Connection::Private::~Private`. -/
def finalReleases (ctx : HandleContext) : List (Nat × List Nat) :=
  ctx.types.keys.flatMap fun handleType =>
    let type := ctx.typeAt handleType
    (if !type.refcounts.isEmpty then [(handleType, type.refcounts.keys)] else []) ++
    (if !type.toRelease.isEmpty then [(handleType, type.toRelease.toList)] else [])

/-- Destruction of a live `Connection`, as far as
`Connection::Private::~Private` goes. Invocations still queued on the object
are discarded with it. Has no defined result if the object is not live, its
context pointer is dangling or the `int` decrement overflows. -/
def destroy (w : World) (pid : Nat) : Option World :=
  match w.proxies.value? pid with
  | none => none
  | some p =>
    match w.heap.value? p.handleContext with
    | none => none
    | some ctx =>
      if ctx.refcount = intMin then none
      else
      let refcount := ctx.refcount - 1
      if refcount = 0 then
        some { w with
          released := w.released ++ (finalReleases ctx).map fun c => (pid, c.1, c.2)
          handleContexts := w.handleContexts.remove (p.busConnectionName, p.busName)
          heap := w.heap.remove p.handleContext
          proxies := w.proxies.remove pid }
      else
        some { w with
          heap := w.heap.insert p.handleContext { ctx with refcount := refcount }
          proxies := w.proxies.remove pid }

/-- An operation called on the live object `pid`: it runs on the context the
object points to, postings go to the queue of that object, and release calls
to the wire. -/
def call (w : World) (pid : Nat) (op : Op) : Option World :=
  match w.proxies.value? pid with
  | none => none
  | some p =>
    match w.heap.value? p.handleContext with
    | none => none
    | some ctx =>
      let o := step ctx op
      some { w with
        heap := w.heap.insert p.handleContext o.ctx
        proxies := w.proxies.insert pid { p with queued := p.queued ++ o.posted }
        released := w.released ++ o.released.map fun c => (pid, c.1, c.2) }

/-- The event loop delivers the oldest invocation queued on object `pid`. -/
def deliver (w : World) (pid : Nat) : Option World :=
  match w.proxies.value? pid with
  | none => none
  | some p =>
    match p.queued with
    | [] => none
    | type :: rest =>
      call { w with proxies := w.proxies.insert pid { p with queued := rest } } pid
        (Op.doReleaseSweep type)

end World

/-- What can happen in the process. -/
inductive WorldOp where
  | init (busConnectionName busName : String)
  | destroy (pid : Nat)
  | refHandle (pid type handle : Nat)
  | unrefHandle (pid type handle : Nat)
  | requestHandles (pid type : Nat) (names : List String)
  | handleRequestLanded (pid type : Nat)
  | deliver (pid : Nat)
deriving DecidableEq, Repr

namespace World

/-- One event in the process. -/
def step (w : World) : WorldOp → Option World
  | WorldOp.init busConnectionName busName => w.init busConnectionName busName
  | WorldOp.destroy pid => w.destroy pid
  | WorldOp.refHandle pid type handle => w.call pid (Op.refHandle type handle)
  | WorldOp.unrefHandle pid type handle => w.call pid (Op.unrefHandle type handle)
  | WorldOp.requestHandles pid type names => w.call pid (Op.requestHandles type names)
  | WorldOp.handleRequestLanded pid type => w.call pid (Op.handleRequestLanded type)
  | WorldOp.deliver pid => w.deliver pid

/-- A sequence of events; `none` when one of them cannot happen. -/
def run (w : World) : List WorldOp → Option World
  | [] => some w
  | op :: ops =>
    match w.step op with
    | none => none
    | some w1 => run w1 ops

/-- Whether `pid` is a live object constructed for the given pair. -/
def isProxyFor (w : World) (key : String × String) (pid : Nat) : Bool :=
  match w.proxies.value? pid with
  | some p => decide ((p.busConnectionName, p.busName) = key)
  | none => false

/-- Number of live objects constructed for the given pair (object
identities are handed out in sequence, below `nextProxy`). -/
def liveProxies (w : World) (key : String × String) : Nat :=
  (List.range w.nextProxy).countP (w.isProxyFor key)

/-- The worlds the process can be in: those reached from the start by a
sequence of events. -/
def Reachable (w : World) : Prop := ∃ ops : List WorldOp, run empty ops = some w

/-- Consistency of registry, heap and live objects. -/
structure Inv (w : World) : Prop where
  registered : ∀ key a, w.handleContexts.value? key = some a →
    ∃ ctx, w.heap.value? a = some ctx ∧ ctx.refcount = (w.liveProxies key : Int) ∧
      1 ≤ ctx.refcount
  pointers : ∀ pid p, w.proxies.value? pid = some p →
    w.handleContexts.value? (p.busConnectionName, p.busName) = some p.handleContext
  injective : ∀ k1 k2 a, w.handleContexts.value? k1 = some a →
    w.handleContexts.value? k2 = some a → k1 = k2
  owned : ∀ a ctx, w.heap.value? a = some ctx →
    a < w.nextAddress ∧ ∃ key, w.handleContexts.value? key = some a
  fresh : ∀ pid p, w.proxies.value? pid = some p → pid < w.nextProxy

end World

/-! ## Predicates used in the statements -/

/-- No handle of this type is in `refcounts` and in `toRelease` at once. -/
def HandleContextType.Disjoint (T : HandleContextType) : Prop :=
  ∀ handle : Nat, T.refcounts.contains handle = true → handle ∉ T.toRelease

/-- No handle of any type is in `refcounts` and in `toRelease` at once. -/
def HandleContext.Disjoint (ctx : HandleContext) : Prop :=
  ∀ type handle : Nat,
    ¬ ((ctx.typeAt type).refcounts.contains handle = true ∧
       (ctx.typeAt type).toRelease.contains handle = true)

/-- Handle `handle` of type `type` is referenced and not waiting for release. -/
def HandleContext.Held (ctx : HandleContext) (type handle : Nat) : Prop :=
  (ctx.typeAt type).refcounts.contains handle = true ∧ handle ∉ (ctx.typeAt type).toRelease

/-- With `c` requests of the type outstanding, every
`handleRequestLanded(type)` in the sequence is matched by a request that is
still outstanding, and fewer than `2 ^ 32` requests of the type are
outstanding at any time. -/
def matched (type : Nat) : List Op → Nat → Bool
  | [], _ => true
  | Op.requestHandles t _ :: ops, c =>
    if t = type then decide (c + 1 < uintMod) && matched type ops (c + 1)
    else matched type ops c
  | Op.handleRequestLanded t :: ops, c =>
    if t = type then decide (0 < c) && matched type ops (c - 1)
    else matched type ops c
  | Op.refHandle _ _ :: ops, c => matched type ops c
  | Op.unrefHandle _ _ :: ops, c => matched type ops c
  | Op.doReleaseSweep _ :: ops, c => matched type ops c

/-- With `c` references to handle `handle` of type `type` outstanding, every
`unrefHandle(type, handle)` in the sequence is matched by a reference that is
still outstanding, and fewer than `2 ^ 32` references to the handle are
outstanding at any time. -/
def matchedRefs (type handle : Nat) : List Op → Nat → Bool
  | [], _ => true
  | Op.refHandle t h :: ops, c =>
    if t = type ∧ h = handle then
      decide (c + 1 < uintMod) && matchedRefs type handle ops (c + 1)
    else matchedRefs type handle ops c
  | Op.unrefHandle t h :: ops, c =>
    if t = type ∧ h = handle then decide (0 < c) && matchedRefs type handle ops (c - 1)
    else matchedRefs type handle ops c
  | Op.requestHandles _ _ :: ops, c => matchedRefs type handle ops c
  | Op.handleRequestLanded _ :: ops, c => matchedRefs type handle ops c
  | Op.doReleaseSweep _ :: ops, c => matchedRefs type handle ops c

/-- Modelled from the spec: `ConnectionStatusConnected` of the generated
`constants.h`, which is missing from the sources. -/
def ConnectionStatusConnected : Nat := 0

/-- Modelled from the spec: `ConnectionStatusConnecting` of the generated
`constants.h`, which is missing from the sources. -/
def ConnectionStatusConnecting : Nat := 1

/-- Modelled from the spec: `ConnectionStatusDisconnected` of the generated
`constants.h`, which is missing from the sources. -/
def ConnectionStatusDisconnected : Nat := 2

/-- Modelled from the spec: `Connection::StatusConnected` of `connection.h`,
which is missing from the sources (the enum repeats `ConnectionStatus`). -/
def StatusConnected : Nat := ConnectionStatusConnected

/-- Modelled from the spec: `Connection::StatusConnecting` of `connection.h`,
which is missing from the sources. -/
def StatusConnecting : Nat := ConnectionStatusConnecting

/-- Modelled from the spec: `Connection::StatusDisconnected` of
`connection.h`, which is missing from the sources. -/
def StatusDisconnected : Nat := ConnectionStatusDisconnected

/-- Modelled from the spec: `Connection::StatusUnknown` of `connection.h`,
which is missing from the sources (the status before any is known). -/
def StatusUnknown : Nat := 4294967295

/-- Modelled from the spec: the `ConnectionStatusReason` values of the
generated `constants.h`, which is missing from the sources. -/
def ConnectionStatusReasonNoneSpecified : Nat := 0

/-- Modelled from the spec: see `ConnectionStatusReasonNoneSpecified`. -/
def ConnectionStatusReasonRequested : Nat := 1

/-- Modelled from the spec: see `ConnectionStatusReasonNoneSpecified`. -/
def ConnectionStatusReasonNetworkError : Nat := 2

/-- Modelled from the spec: see `ConnectionStatusReasonNoneSpecified`. -/
def ConnectionStatusReasonAuthenticationFailed : Nat := 3

/-- Modelled from the spec: see `ConnectionStatusReasonNoneSpecified`. -/
def ConnectionStatusReasonEncryptionError : Nat := 4

/-- Modelled from the spec: see `ConnectionStatusReasonNoneSpecified`. -/
def ConnectionStatusReasonNameInUse : Nat := 5

/-- Modelled from the spec: see `ConnectionStatusReasonNoneSpecified`. -/
def ConnectionStatusReasonCertNotProvided : Nat := 6

/-- Modelled from the spec: see `ConnectionStatusReasonNoneSpecified`. -/
def ConnectionStatusReasonCertUntrusted : Nat := 7

/-- Modelled from the spec: see `ConnectionStatusReasonNoneSpecified`. -/
def ConnectionStatusReasonCertExpired : Nat := 8

/-- Modelled from the spec: see `ConnectionStatusReasonNoneSpecified`. -/
def ConnectionStatusReasonCertNotActivated : Nat := 9

/-- Modelled from the spec: see `ConnectionStatusReasonNoneSpecified`. -/
def ConnectionStatusReasonCertHostnameMismatch : Nat := 10

/-- Modelled from the spec: see `ConnectionStatusReasonNoneSpecified`. -/
def ConnectionStatusReasonCertFingerprintMismatch : Nat := 11

/-- Modelled from the spec: see `ConnectionStatusReasonNoneSpecified`. -/
def ConnectionStatusReasonCertSelfSigned : Nat := 12

/-- Modelled from the spec: see `ConnectionStatusReasonNoneSpecified`. -/
def ConnectionStatusReasonCertOtherError : Nat := 13

/-- Modelled from the spec: `HandleTypeContact` of the generated
`constants.h`, which is missing from the sources. -/
def HandleTypeContact : Nat := 1

/-- Modelled from the spec: the error-name macros of the generated
`constants.h`, which is missing from the sources. -/
def TELEPATHY_ERROR_DISCONNECTED : String := "org.freedesktop.Telepathy.Error.Disconnected"

/-- Modelled from the spec: see `TELEPATHY_ERROR_DISCONNECTED`. -/
def TELEPATHY_ERROR_CANCELLED : String := "org.freedesktop.Telepathy.Error.Cancelled"

/-- Modelled from the spec: see `TELEPATHY_ERROR_DISCONNECTED`. -/
def TELEPATHY_ERROR_NETWORK_ERROR : String := "org.freedesktop.Telepathy.Error.NetworkError"

/-- Modelled from the spec: see `TELEPATHY_ERROR_DISCONNECTED`. -/
def TELEPATHY_ERROR_AUTHENTICATION_FAILED : String :=
  "org.freedesktop.Telepathy.Error.AuthenticationFailed"

/-- Modelled from the spec: see `TELEPATHY_ERROR_DISCONNECTED`. -/
def TELEPATHY_ERROR_ENCRYPTION_ERROR : String :=
  "org.freedesktop.Telepathy.Error.EncryptionError"

/-- Modelled from the spec: see `TELEPATHY_ERROR_DISCONNECTED`. -/
def TELEPATHY_ERROR_CONNECTION_REPLACED : String :=
  "org.freedesktop.Telepathy.Error.ConnectionReplaced"

/-- Modelled from the spec: see `TELEPATHY_ERROR_DISCONNECTED`. -/
def TELEPATHY_ERROR_ALREADY_CONNECTED : String :=
  "org.freedesktop.Telepathy.Error.AlreadyConnected"

/-- Modelled from the spec: see `TELEPATHY_ERROR_DISCONNECTED`. -/
def TELEPATHY_ERROR_CERT_NOT_PROVIDED : String :=
  "org.freedesktop.Telepathy.Error.Cert.NotProvided"

/-- Modelled from the spec: see `TELEPATHY_ERROR_DISCONNECTED`. -/
def TELEPATHY_ERROR_CERT_UNTRUSTED : String := "org.freedesktop.Telepathy.Error.Cert.Untrusted"

/-- Modelled from the spec: see `TELEPATHY_ERROR_DISCONNECTED`. -/
def TELEPATHY_ERROR_CERT_EXPIRED : String := "org.freedesktop.Telepathy.Error.Cert.Expired"

/-- Modelled from the spec: see `TELEPATHY_ERROR_DISCONNECTED`. -/
def TELEPATHY_ERROR_CERT_NOT_ACTIVATED : String :=
  "org.freedesktop.Telepathy.Error.Cert.NotActivated"

/-- Modelled from the spec: see `TELEPATHY_ERROR_DISCONNECTED`. -/
def TELEPATHY_ERROR_CERT_HOSTNAME_MISMATCH : String :=
  "org.freedesktop.Telepathy.Error.Cert.HostnameMismatch"

/-- Modelled from the spec: see `TELEPATHY_ERROR_DISCONNECTED`. -/
def TELEPATHY_ERROR_CERT_FINGERPRINT_MISMATCH : String :=
  "org.freedesktop.Telepathy.Error.Cert.FingerprintMismatch"

/-- Modelled from the spec: see `TELEPATHY_ERROR_DISCONNECTED`. -/
def TELEPATHY_ERROR_CERT_SELF_SIGNED : String :=
  "org.freedesktop.Telepathy.Error.Cert.SelfSigned"

/-- Modelled from the spec: see `TELEPATHY_ERROR_DISCONNECTED`. -/
def TELEPATHY_ERROR_CERT_INVALID : String := "org.freedesktop.Telepathy.Error.Cert.Invalid"

/-- Modelled from the spec: see `TELEPATHY_ERROR_DISCONNECTED`. -/
def TELEPATHY_ERROR_NOT_AVAILABLE : String := "org.freedesktop.Telepathy.Error.NotAvailable"

/-- Modelled from the spec: see `TELEPATHY_ERROR_DISCONNECTED`. -/
def TELEPATHY_ERROR_NOT_IMPLEMENTED : String :=
  "org.freedesktop.Telepathy.Error.NotImplemented"

/-- Modelled from the spec: see `TELEPATHY_ERROR_DISCONNECTED`. -/
def TELEPATHY_ERROR_INVALID_ARGUMENT : String :=
  "org.freedesktop.Telepathy.Error.InvalidArgument"

/-- Modelled from the spec: the interface-name macros of the generated
`constants.h`, which is missing from the sources. -/
def TELEPATHY_INTERFACE_CHANNEL : String := "org.freedesktop.Telepathy.Channel"

/-- Modelled from the spec: see `TELEPATHY_INTERFACE_CHANNEL`. -/
def TELEPATHY_INTERFACE_CONNECTION_INTERFACE_REQUESTS : String :=
  "org.freedesktop.Telepathy.Connection.Interface.Requests"

/-- Modelled from the spec: see `TELEPATHY_INTERFACE_CHANNEL`. -/
def TELEPATHY_INTERFACE_CONNECTION_INTERFACE_CONTACTS : String :=
  "org.freedesktop.Telepathy.Connection.Interface.Contacts"

/-- A `QVariant`, as far as the modelled code looks into one. -/
inductive QVariant where
  | uint (n : Nat)
  | string (s : String)
  | stringList (l : List String)
  | invalid
deriving DecidableEq, Repr

instance : Inhabited QVariant := ⟨QVariant.invalid⟩

/-- `qdbus_cast<uint>`. -/
def QVariant.toUInt : QVariant → Nat
  | QVariant.uint n => n
  | _ => 0

/-- `qdbus_cast<QStringList>`. -/
def QVariant.toStringList : QVariant → List String
  | QVariant.stringList l => l
  | _ => []

/-- `QVariantMap`. -/
abbrev QVariantMap := QMap String QVariant

/-- A finished `QDBusPendingReply<T>`: a value, or an error with its name and
message. -/
inductive Reply (α : Type) where
  | value (v : α)
  | error (name message : String)
deriving DecidableEq, Repr

/-- A `RequestableChannelClass`: fixed properties (values rendered as
strings) and allowed properties. -/
abbrev RequestableChannelClass := List (String × String) × List String

/-- The remote calls of the Core bring-up. -/
inductive RemoteCall where
  | GetAll
  | GetStatus
  | GetInterfaces
  | GetSelfHandle
  | GetRequestableChannelClasses
  | GetContactAttributeInterfaces
deriving DecidableEq, Repr

/-- What the modelled code does to its collaborators: remote calls issued,
calls into the readiness helper (`setIntrospectCompleted` always for
`FeatureCore`), `parent->invalidate` and the `statusChanged` signal. -/
inductive Effect where
  | call (c : RemoteCall)
  | setCurrentStatus (status : Nat)
  | forceCurrentStatus (status : Nat)
  | setInterfaces (interfaces : List String)
  | setIntrospectCompleted (success : Bool) (error : Option (String × String))
  | invalidate (errorName errorMessage : String)
  | statusChanged (status statusReason : Nat)
deriving DecidableEq, Repr

/-- The member functions that are put on `introspectMainQueue`. -/
inductive IntrospectStep where
  | introspectMainFallbackStatus
  | introspectMainFallbackInterfaces
  | introspectMainFallbackSelfHandle
  | introspectCapabilities
  | introspectContactAttributeInterfaces
deriving DecidableEq, Repr

/-- The fields of `Connection::Private` used by the status tracking and the
Core bring-up, the interface list kept by the parent object, and the effects
so far (oldest first). -/
structure Connection.Private where
  introspectMainQueue : List IntrospectStep
  introspectingMain : Bool
  statusChangedWhileIntrospectingMain : Bool
  pendingStatus : Nat
  pendingStatusReason : Nat
  status : Nat
  statusReason : Nat
  selfHandle : Nat
  caps : List RequestableChannelClass
  contactAttributeInterfaces : List String
  interfaces : List String
  effects : List Effect
deriving DecidableEq, Repr

namespace Connection

namespace Private

/-- The state set up by the constructor `Connection::Private::Private`, which
ends by telling the readiness helper the (unknown) status. -/
def new : Private :=
  { introspectMainQueue := []
    introspectingMain := false
    statusChangedWhileIntrospectingMain := false
    pendingStatus := StatusUnknown
    pendingStatusReason := ConnectionStatusReasonNoneSpecified
    status := StatusUnknown
    statusReason := ConnectionStatusReasonNoneSpecified
    selfHandle := 0
    caps := []
    contactAttributeInterfaces := []
    interfaces := []
    effects := [Effect.setCurrentStatus StatusUnknown] }

/-- Appends an effect. -/
def emit (p : Private) (e : Effect) : Private := { p with effects := p.effects ++ [e] }

/-- `Connection::Private::introspectMainProperties`. -/
def introspectMainProperties (p : Private) : Private := p.emit (Effect.call RemoteCall.GetAll)

/-- `Connection::Private::introspectMain`. -/
def introspectMain (p : Private) : Private :=
  introspectMainProperties { p with introspectingMain := true }

/-- Runs a queued member function: each of them issues one remote call. -/
def runStep (p : Private) : IntrospectStep → Private
  | IntrospectStep.introspectMainFallbackStatus => p.emit (Effect.call RemoteCall.GetStatus)
  | IntrospectStep.introspectMainFallbackInterfaces =>
    p.emit (Effect.call RemoteCall.GetInterfaces)
  | IntrospectStep.introspectMainFallbackSelfHandle =>
    p.emit (Effect.call RemoteCall.GetSelfHandle)
  | IntrospectStep.introspectCapabilities =>
    p.emit (Effect.call RemoteCall.GetRequestableChannelClasses)
  | IntrospectStep.introspectContactAttributeInterfaces =>
    p.emit (Effect.call RemoteCall.GetContactAttributeInterfaces)

/-- `Connection::Private::continueMainIntrospection`. -/
def continueMainIntrospection (p : Private) : Private :=
  match p.introspectMainQueue with
  | [] =>
    let p1 := p.emit (Effect.setIntrospectCompleted true none)
    let p2 := { p1 with introspectingMain := false }
    if p2.statusChangedWhileIntrospectingMain then
      ({ p2 with statusChangedWhileIntrospectingMain := false }).emit
        (Effect.setCurrentStatus p2.pendingStatus)
    else p2
  | f :: rest => runStep { p with introspectMainQueue := rest } f

/-- `Connection::Private::setCurrentStatus`. -/
def setCurrentStatus (p : Private) (status : Nat) : Private :=
  if p.introspectingMain then { p with introspectMainQueue := [] }
  else p.emit (Effect.setCurrentStatus status)

/-- `Connection::Private::forceCurrentStatus`. -/
def forceCurrentStatus (p : Private) (status : Nat) : Private :=
  if p.pendingStatus = StatusUnknown then
    ({ p with pendingStatus := status }).emit (Effect.forceCurrentStatus status)
  else p

/-- `Connection::Private::setInterfaces`. -/
def setInterfaces (p : Private) (interfaces : List String) : Private :=
  ({ p with interfaces := interfaces }).emit (Effect.setInterfaces interfaces)

/-- `Connection::Private::invalidateResetCaps`. -/
def invalidateResetCaps (p : Private) (error message : String) : Private :=
  ({ p with caps := [] }).emit (Effect.invalidate error message)

end Private

/-- `ConnectionHelper::statusReasonToErrorName`. -/
def statusReasonToErrorName (reason oldStatus : Nat) : String :=
  if reason = ConnectionStatusReasonNoneSpecified then TELEPATHY_ERROR_DISCONNECTED
  else if reason = ConnectionStatusReasonRequested then TELEPATHY_ERROR_CANCELLED
  else if reason = ConnectionStatusReasonNetworkError then TELEPATHY_ERROR_NETWORK_ERROR
  else if reason = ConnectionStatusReasonAuthenticationFailed then
    TELEPATHY_ERROR_AUTHENTICATION_FAILED
  else if reason = ConnectionStatusReasonEncryptionError then TELEPATHY_ERROR_ENCRYPTION_ERROR
  else if reason = ConnectionStatusReasonNameInUse then
    if oldStatus = ConnectionStatusConnected then TELEPATHY_ERROR_CONNECTION_REPLACED
    else TELEPATHY_ERROR_ALREADY_CONNECTED
  else if reason = ConnectionStatusReasonCertNotProvided then TELEPATHY_ERROR_CERT_NOT_PROVIDED
  else if reason = ConnectionStatusReasonCertUntrusted then TELEPATHY_ERROR_CERT_UNTRUSTED
  else if reason = ConnectionStatusReasonCertExpired then TELEPATHY_ERROR_CERT_EXPIRED
  else if reason = ConnectionStatusReasonCertNotActivated then
    TELEPATHY_ERROR_CERT_NOT_ACTIVATED
  else if reason = ConnectionStatusReasonCertHostnameMismatch then
    TELEPATHY_ERROR_CERT_HOSTNAME_MISMATCH
  else if reason = ConnectionStatusReasonCertFingerprintMismatch then
    TELEPATHY_ERROR_CERT_FINGERPRINT_MISMATCH
  else if reason = ConnectionStatusReasonCertSelfSigned then TELEPATHY_ERROR_CERT_SELF_SIGNED
  else if reason = ConnectionStatusReasonCertOtherError then TELEPATHY_ERROR_CERT_INVALID
  else TELEPATHY_ERROR_DISCONNECTED

/-- The `Q_ASSERT` of `Connection::onStatusReady`. -/
def onStatusReadyAsserts (p : Private) (status : Nat) : Bool := decide (status = p.pendingStatus)

/-- `Connection::onStatusReady`. -/
def onStatusReady (p : Private) (status : Nat) : Private :=
  let p1 := { p with status := status, statusReason := p.pendingStatusReason }
  p1.emit (Effect.statusChanged p1.status p1.statusReason)

/-- `Connection::onStatusChanged`. -/
def onStatusChanged (p : Private) (status reason : Nat) : Private :=
  if p.pendingStatus = status then p
  else
    let p1 :=
      if p.introspectingMain then { p with statusChangedWhileIntrospectingMain := true } else p
    let oldStatus := p1.pendingStatus
    let p2 := { p1 with pendingStatus := status, pendingStatusReason := reason }
    if status = ConnectionStatusConnected then p2.setCurrentStatus status
    else if status = ConnectionStatusConnecting then p2.setCurrentStatus status
    else if status = ConnectionStatusDisconnected then
      let errorName := statusReasonToErrorName reason oldStatus
      (onStatusReady p2 StatusDisconnected).invalidateResetCaps errorName
        ("ConnectionStatusReason = " ++ toString reason)
    else p2

/-- `Connection::hasInterface`, on the interface list kept by the parent. -/
def hasInterface (p : Private) (name : String) : Bool := p.interfaces.contains name

/-- `Connection::gotMainProperties`. -/
def gotMainProperties (p : Private) (reply : Reply QVariantMap) : Private :=
  let props : QVariantMap :=
    match reply with
    | Reply.value v => v
    | Reply.error _ _ => []
  let p1 :=
    if props.contains "Status" then p.forceCurrentStatus (props.value "Status").toUInt
    else if p.pendingStatus = StatusUnknown then
      { p with
        introspectMainQueue :=
          p.introspectMainQueue ++ [IntrospectStep.introspectMainFallbackStatus] }
    else p
  let p2 :=
    if props.contains "Interfaces" then p1.setInterfaces (props.value "Interfaces").toStringList
    else
      { p1 with
        introspectMainQueue :=
          p1.introspectMainQueue ++ [IntrospectStep.introspectMainFallbackInterfaces] }
  let p3 :=
    if props.contains "SelfHandle" then
      { p2 with selfHandle := (props.value "SelfHandle").toUInt }
    else
      { p2 with
        introspectMainQueue :=
          p2.introspectMainQueue ++ [IntrospectStep.introspectMainFallbackSelfHandle] }
  let p4 :=
    if hasInterface p3 TELEPATHY_INTERFACE_CONNECTION_INTERFACE_REQUESTS then
      { p3 with
        introspectMainQueue := p3.introspectMainQueue ++ [IntrospectStep.introspectCapabilities] }
    else p3
  let p5 :=
    if hasInterface p4 TELEPATHY_INTERFACE_CONNECTION_INTERFACE_CONTACTS then
      { p4 with
        introspectMainQueue :=
          p4.introspectMainQueue ++ [IntrospectStep.introspectContactAttributeInterfaces] }
    else p4
  p5.continueMainIntrospection

/-- `Connection::gotStatus`. -/
def gotStatus (p : Private) : Reply Nat → Private
  | Reply.value v => (p.forceCurrentStatus v).continueMainIntrospection
  | Reply.error name message => p.invalidateResetCaps name message

/-- `Connection::gotInterfaces`. -/
def gotInterfaces (p : Private) : Reply (List String) → Private
  | Reply.value v => (p.setInterfaces v).continueMainIntrospection
  | Reply.error _ _ => p.continueMainIntrospection

/-- `Connection::gotSelfHandle`. -/
def gotSelfHandle (p : Private) : Reply Nat → Private
  | Reply.value v => ({ p with selfHandle := v }).continueMainIntrospection
  | Reply.error name message => p.emit (Effect.setIntrospectCompleted false (some (name, message)))

/-- `Connection::gotCapabilities`. -/
def gotCapabilities (p : Private) : Reply (List RequestableChannelClass) → Private
  | Reply.value v => ({ p with caps := v }).continueMainIntrospection
  | Reply.error _ _ => p.continueMainIntrospection

/-- `Connection::gotContactAttributeInterfaces`. -/
def gotContactAttributeInterfaces (p : Private) : Reply (List String) → Private
  | Reply.value v => ({ p with contactAttributeInterfaces := v }).continueMainIntrospection
  | Reply.error _ _ => p.continueMainIntrospection

/-- The outcome of constructing a pending operation: failed at once with an
error name and message, or a remote request issued with the given
arguments. -/
inductive Pending (α : Type) where
  | failed (errorName errorMessage : String)
  | requested (arguments : α)
deriving DecidableEq, Repr

/-- `Connection::createChannel`: the `PendingChannel` it returns, a failed one
or one for the request with `create = true`. -/
def createChannel (p : Private) (request : QVariantMap) : Pending (QVariantMap × Bool) :=
  if p.pendingStatus ≠ StatusConnected then
    Pending.failed TELEPATHY_ERROR_NOT_AVAILABLE "Connection not yet connected"
  else if !p.interfaces.contains TELEPATHY_INTERFACE_CONNECTION_INTERFACE_REQUESTS then
    Pending.failed TELEPATHY_ERROR_NOT_IMPLEMENTED
      "Connection does not support Requests Interface"
  else if !request.contains (TELEPATHY_INTERFACE_CHANNEL ++ ".ChannelType") then
    Pending.failed TELEPATHY_ERROR_INVALID_ARGUMENT "Invalid 'request' argument"
  else Pending.requested (request, true)

/-- `Connection::ensureChannel`: the `PendingChannel` it returns, a failed one
or one for the request with `create = false`. -/
def ensureChannel (p : Private) (request : QVariantMap) : Pending (QVariantMap × Bool) :=
  if p.pendingStatus ≠ StatusConnected then
    Pending.failed TELEPATHY_ERROR_NOT_AVAILABLE "Connection not yet connected"
  else if !p.interfaces.contains TELEPATHY_INTERFACE_CONNECTION_INTERFACE_REQUESTS then
    Pending.failed TELEPATHY_ERROR_NOT_IMPLEMENTED
      "Connection does not support Requests Interface"
  else if !request.contains (TELEPATHY_INTERFACE_CHANNEL ++ ".ChannelType") then
    Pending.failed TELEPATHY_ERROR_INVALID_ARGUMENT "Invalid 'request' argument"
  else Pending.requested (request, false)

/-- `Connection::contactAttributes`, with the value of `isReady()` (kept by
the readiness helper) as an input: the handle context afterwards and the
`PendingContactAttributes`, failed at once or with the
`GetContactAttributes(handles, interfaces, reference)` call issued. -/
def contactAttributes (p : Private) (ctx : HandleContext) (isReady : Bool)
    (handles : List Nat) (interfaces : List String) (reference : Bool) :
    HandleContext × Pending (List Nat × List String × Bool) :=
  if !isReady then
    (ctx, Pending.failed TELEPATHY_ERROR_NOT_AVAILABLE "The connection isn't ready")
  else if p.pendingStatus ≠ StatusConnected then
    (ctx, Pending.failed TELEPATHY_ERROR_NOT_AVAILABLE "The connection isn't Connected")
  else if !p.interfaces.contains TELEPATHY_INTERFACE_CONNECTION_INTERFACE_CONTACTS then
    (ctx, Pending.failed TELEPATHY_ERROR_NOT_IMPLEMENTED
      "The connection doesn't support the Contacts interface")
  else
    let T := ctx.typeAt HandleTypeContact
    (ctx.setType HandleTypeContact { T with requestsInFlight := uintInc T.requestsInFlight },
      Pending.requested (handles, interfaces, reference))

/-- What can happen to the connection object during its life, as far as the
status tracking goes. -/
inductive Event where
  | introspectMain
  | gotMainProperties (reply : Reply QVariantMap)
  | gotStatus (reply : Reply Nat)
  | gotInterfaces (reply : Reply (List String))
  | gotSelfHandle (reply : Reply Nat)
  | gotCapabilities (reply : Reply (List RequestableChannelClass))
  | gotContactAttributeInterfaces (reply : Reply (List String))
  | onStatusChanged (status reason : Nat)
  | onStatusReady (status : Nat)
deriving DecidableEq, Repr

/-- The handler of an event. -/
def handle (p : Private) : Event → Private
  | Event.introspectMain => p.introspectMain
  | Event.gotMainProperties reply => gotMainProperties p reply
  | Event.gotStatus reply => gotStatus p reply
  | Event.gotInterfaces reply => gotInterfaces p reply
  | Event.gotSelfHandle reply => gotSelfHandle p reply
  | Event.gotCapabilities reply => gotCapabilities p reply
  | Event.gotContactAttributeInterfaces reply => gotContactAttributeInterfaces p reply
  | Event.onStatusChanged status reason => onStatusChanged p status reason
  | Event.onStatusReady status => onStatusReady p status

/-- The handlers of a sequence of events, one after the other. -/
def handleAll (p : Private) : List Event → Private
  | [] => p
  | e :: es => handleAll (handle p e) es

end Connection

namespace Connection

/-- From `q` to `r` the two bring-up flags are unchanged and the effects
of `q` have been extended without a call to the readiness helper's
`setCurrentStatus`. -/
def Quiet (q r : Private) : Prop :=
  r.introspectingMain = q.introspectingMain ∧
  r.statusChangedWhileIntrospectingMain = q.statusChangedWhileIntrospectingMain ∧
  ∃ pre, r.effects = q.effects ++ pre ∧ ∀ s, Effect.setCurrentStatus s ∉ pre

end Connection

/-! ## Media streams

`MediaStream` of `Client/streamed-media-channel.cpp`. Pointers to
`StreamedMediaChannel` objects are addresses. -/

/-- Modelled from the spec: `MediaStreamDirectionNone` of the generated
`constants.h`, which is missing from the sources. -/
def MediaStreamDirectionNone : Nat := 0

/-- Modelled from the spec: see `MediaStreamDirectionNone`. -/
def MediaStreamDirectionSend : Nat := 1

/-- Modelled from the spec: see `MediaStreamDirectionNone`. -/
def MediaStreamDirectionReceive : Nat := 2

/-- Modelled from the spec: see `MediaStreamDirectionNone`. -/
def MediaStreamDirectionBidirectional : Nat := 3

/-- `MediaStream::Private`. The contact is kept as the channel whose contact
manager was asked and the handle it was asked for. -/
structure MediaStream.Private where
  channel : Nat
  id : Nat
  contact : Nat × Nat
  type : Nat
  state : Nat
  direction : Nat
  pendingSend : Nat
deriving DecidableEq, Repr

namespace MediaStream

/-- The constructor `MediaStream::Private::Private`. Its initialiser list
names `id`, `type`, `state`, `direction` and `pendingSend`, and its body
assigns `contact`, looked up through the `channel` argument. The member
`channel` is not initialised: it keeps whatever the memory of the new object
holds, which is the first argument here. -/
def Private.new (indeterminate : Nat) (channel id contactHandle type state direction
    pendingSend : Nat) : Private :=
  { channel := indeterminate
    id := id
    contact := (channel, contactHandle)
    type := type
    state := state
    direction := direction
    pendingSend := pendingSend }

/-- `MediaStream::channel`. -/
def channel (mPriv : Private) : Nat := mPriv.channel

/-- `MediaStream::id`. -/
def id (mPriv : Private) : Nat := mPriv.id

/-- `MediaStream::direction`. -/
def direction (mPriv : Private) : Nat := mPriv.direction

/-- `MediaStream::sending`. -/
def sending (mPriv : Private) : Bool :=
  decide (mPriv.direction &&& MediaStreamDirectionSend ≠ 0) ||
    decide (mPriv.direction &&& MediaStreamDirectionBidirectional ≠ 0)

/-- `MediaStream::receiving`. -/
def receiving (mPriv : Private) : Bool :=
  decide (mPriv.direction &&& MediaStreamDirectionReceive ≠ 0) ||
    decide (mPriv.direction &&& MediaStreamDirectionBidirectional ≠ 0)

/-- `MediaStream::remove`: the channel object whose `removeStreams` is called
and the list of stream ids passed to it. -/
def remove (mPriv : Private) : Nat × List Nat := (mPriv.channel, [mPriv.id])

/-- `MediaStream::setDirection` (the signal it emits is not modelled). -/
def setDirection (mPriv : Private) (direction pendingSend : Nat) : Private :=
  { mPriv with direction := direction, pendingSend := pendingSend }

end MediaStream

/-! ## Manager files

`ManagerFile` of `manager-file.cpp`: the search for the `.manager` file and
the conversion of default values. -/

/-- `QString::split(sep)` on the characters of a string, with the default
`KeepEmptyParts`: the fields between the separators, so one field more than
there are separators; the empty string gives one empty field. -/
def splitChars (sep : Char) : List Char → List (List Char)
  | [] => [[]]
  | c :: cs =>
    if c = sep then [] :: splitChars sep cs
    else
      match splitChars sep cs with
      | [] => [[c]]
      | field :: fields => (c :: field) :: fields

/-- `QString::split(sep)`. -/
def QString.split (s : String) (sep : Char) : List String :=
  (splitChars sep s.toList).map String.mk

namespace ManagerFile

/-- What `ManagerFile::Private::init` reads from the process: the two
environment variables as returned by `qgetenv` (empty when unset) and
`QDir::homePath()`. -/
structure Environment where
  xdgDataHome : String
  xdgDataDirs : String
  homePath : String
deriving DecidableEq, Repr

/-- The list `configDirs` built by `ManagerFile::Private::init`. -/
def configDirs (env : Environment) : List String :=
  let configDirs : List String :=
    if env.xdgDataHome.isEmpty then
      [env.homePath ++ "/.local/share/data/telepathy/managers/"]
    else [env.xdgDataHome ++ "/telepathy/managers/"]
  let xdgDataDirs := QString.split env.xdgDataDirs ':'
  if xdgDataDirs.isEmpty then
    configDirs ++ ["/usr/local/share/telepathy/managers/", "/usr/share/telepathy/managers/"]
  else
    configDirs ++ xdgDataDirs.map fun xdgDataDir => xdgDataDir ++ "/telepathy/managers/"

/-- The final loop of `ManagerFile::Private::init` over `configDirs`, with
`QFile::exists` and the success of `parse` as inputs: the file that was
parsed, if any. -/
def initLoop (cmName : String) (fileExists parse : String → Bool) : List String → Option String
  | [] => none
  | configDir :: rest =>
    let fileName := configDir ++ cmName ++ ".manager"
    if fileExists fileName then
      if !parse fileName then initLoop cmName fileExists parse rest
      else some fileName
    else initLoop cmName fileExists parse rest

/-- `ManagerFile::Private::init`: the manager file used, if any. -/
def init (env : Environment) (cmName : String) (fileExists parse : String → Bool) :
    Option String :=
  initLoop cmName fileExists parse (configDirs env)

/-- The `QVariant::Type` values that `variantFromDBusSignature` uses. -/
inductive VariantType where
  | Bool
  | Int
  | UInt
  | LongLong
  | ULongLong
  | Double
  | StringList
  | String
deriving DecidableEq, Repr

/-- The `QVariant` returned by `variantFromDBusSignature`. The numeric
conversions (`QString::toInt` and the like) are not modelled: a numeric
variant keeps its type and the text it is converted from. -/
inductive Variant where
  | invalid
  | null (type : VariantType)
  | bool (b : Bool)
  | number (type : VariantType) (text : String)
  | stringList (l : List String)
  | string (s : String)
deriving DecidableEq, Repr

/-- The `while` loop of the `QVariant::StringList` case: the characters not
yet read, then `result`, `v`, `lastch` and `ch`; it returns `result`, `v` and
`ch` as they are when the loop ends. -/
def splitLoop : List Char → List String → String → Char → Char → List String × String × Char
  | [], result, v, _, ch => (result, v, ch)
  | c :: rest, result, v, lastch, _ =>
    if c = ';' then
      if lastch = '\\' then splitLoop rest result (v.push ';') c c
      else splitLoop rest (result ++ [v]) "" c c
    else if c ≠ '\\' then splitLoop rest result (v.push c) c c
    else splitLoop rest result v c c

/-- The `QVariant::StringList` case of `variantFromDBusSignature`. The two
`QChar`s start out as the null character. -/
def splitStringList (value : String) : List String :=
  let r := splitLoop value.toList [] "" (Char.ofNat 0) (Char.ofNat 0)
  if r.2.2 ≠ ';' then r.1 ++ [r.2.1] else r.1

/-- `ManagerFile::variantFromDBusSignature`. -/
def variantFromDBusSignature (value signature : String) : Variant :=
  let type : Option VariantType :=
    if signature = "b" then some VariantType.Bool
    else if signature = "n" ∨ signature = "i" then some VariantType.Int
    else if signature = "q" ∨ signature = "u" then some VariantType.UInt
    else if signature = "x" then some VariantType.LongLong
    else if signature = "t" then some VariantType.ULongLong
    else if signature = "d" then some VariantType.Double
    else if signature = "as" then some VariantType.StringList
    else if signature = "s" ∨ signature = "o" then some VariantType.String
    else none
  match type with
  | none => Variant.invalid
  | some type =>
    if value.isEmpty then Variant.null type
    else
      match type with
      | VariantType.Bool =>
        if value.toLower = "true" ∨ value = "1" then Variant.bool true else Variant.bool false
      | VariantType.StringList => Variant.stringList (splitStringList value)
      | VariantType.String => Variant.string value
      | numeric => Variant.number numeric value

end ManagerFile

/-- The remote call issued by a queued member function (see
`Connection.Private.runStep`). -/
def IntrospectStep.remoteCall : IntrospectStep → RemoteCall
  | IntrospectStep.introspectMainFallbackStatus => RemoteCall.GetStatus
  | IntrospectStep.introspectMainFallbackInterfaces => RemoteCall.GetInterfaces
  | IntrospectStep.introspectMainFallbackSelfHandle => RemoteCall.GetSelfHandle
  | IntrospectStep.introspectCapabilities => RemoteCall.GetRequestableChannelClasses
  | IntrospectStep.introspectContactAttributeInterfaces =>
    RemoteCall.GetContactAttributeInterfaces

namespace Connection

/-- The properties `Connection::gotMainProperties` works with: those of the
reply, or none when the reply is an error. -/
def mainProperties : Reply QVariantMap → QVariantMap
  | Reply.value v => v
  | Reply.error _ _ => []

/-- The state of `Connection::gotMainProperties` when it reaches its call of
`continueMainIntrospection`: the body of `gotMainProperties` without that
last call. -/
def gotMainPropertiesQueued (p : Private) (reply : Reply QVariantMap) : Private :=
  let props : QVariantMap := mainProperties reply
  let p1 :=
    if props.contains "Status" then p.forceCurrentStatus (props.value "Status").toUInt
    else if p.pendingStatus = StatusUnknown then
      { p with
        introspectMainQueue :=
          p.introspectMainQueue ++ [IntrospectStep.introspectMainFallbackStatus] }
    else p
  let p2 :=
    if props.contains "Interfaces" then p1.setInterfaces (props.value "Interfaces").toStringList
    else
      { p1 with
        introspectMainQueue :=
          p1.introspectMainQueue ++ [IntrospectStep.introspectMainFallbackInterfaces] }
  let p3 :=
    if props.contains "SelfHandle" then
      { p2 with selfHandle := (props.value "SelfHandle").toUInt }
    else
      { p2 with
        introspectMainQueue :=
          p2.introspectMainQueue ++ [IntrospectStep.introspectMainFallbackSelfHandle] }
  let p4 :=
    if hasInterface p3 TELEPATHY_INTERFACE_CONNECTION_INTERFACE_REQUESTS then
      { p3 with
        introspectMainQueue := p3.introspectMainQueue ++ [IntrospectStep.introspectCapabilities] }
    else p3
  if hasInterface p4 TELEPATHY_INTERFACE_CONNECTION_INTERFACE_CONTACTS then
    { p4 with
      introspectMainQueue :=
        p4.introspectMainQueue ++ [IntrospectStep.introspectContactAttributeInterfaces] }
  else p4

end Connection

/-! ## Contact lists

The introspection of `FeatureRoster` in `connection.cpp`. The constant
`ContactManager::ContactListChannel::LastType` is not in the sources at hand
and is a parameter of the definitions. -/

/-- `ContactManager::ContactListChannel`, as far as `connection.cpp` uses it:
the referenced handle (empty until it is known) and the channel (null until it
is known). Its `type` is the key under which it is stored. -/
structure ContactListChannel where
  handle : List Nat
  channel : Option Nat
deriving DecidableEq, Repr

instance : Inhabited ContactListChannel := ⟨⟨[], none⟩⟩

/-- What the roster introspection does to its collaborators:
`requestHandles(HandleTypeList, [identifierForType(type)])`,
`ensureChannel(request)` with the given target handle, `becomeReady()` on a
channel, `contactManager->setContactListChannels` and
`setIntrospectCompleted(FeatureRoster, true)`. -/
inductive RosterEffect where
  | requestHandles (type : Nat)
  | ensureChannel (targetHandle : Nat)
  | becomeReady (channel : Nat)
  | setContactListChannels (channels : QMap Nat ContactListChannel)
  | setIntrospectCompleted
deriving DecidableEq, Repr

/-- The `FeatureRoster` fields of `Connection::Private`, and the effects so
far (oldest first). -/
structure Connection.Roster where
  contactListChannels : QMap Nat ContactListChannel
  contactListChannelsReady : Nat
  effects : List RosterEffect
deriving DecidableEq, Repr

/-- A finished `PendingHandles` as `gotContactListsHandles` reads it: an
error, or the number of invalid names, the handles and the list type of the
name requested. -/
inductive HandlesResult where
  | error
  | finished (invalidNames : Nat) (handles : List Nat) (type : Nat)
deriving DecidableEq, Repr

/-- A finished `PendingChannel` as `gotContactListChannel` reads it: an error,
or the channel and its target handle. -/
inductive ChannelResult where
  | error
  | finished (channel targetHandle : Nat)
deriving DecidableEq, Repr

namespace Connection

namespace Roster

/-- The state set up by the constructor `Connection::Private::Private`. -/
def new : Roster := ⟨[], 0, []⟩

/-- `Connection::Private::introspectRoster`. -/
def introspectRoster (LastType : Nat) (r : Roster) : Roster :=
  (List.range LastType).foldl
    (fun r i =>
      { r with
        contactListChannels := r.contactListChannels.insert i ⟨[], none⟩
        effects := r.effects ++ [RosterEffect.requestHandles i] })
    r

/-- `Connection::contactListChannelReady`. -/
def contactListChannelReady (LastType : Nat) (r : Roster) : Roster :=
  let r1 := { r with contactListChannelsReady := uintInc r.contactListChannelsReady }
  if r1.contactListChannelsReady = LastType then
    { r1 with
      effects := r1.effects ++
        [RosterEffect.setContactListChannels r1.contactListChannels,
          RosterEffect.setIntrospectCompleted] }
  else r1

/-- `Connection::gotContactListsHandles`. -/
def gotContactListsHandles (LastType : Nat) (r : Roster) : HandlesResult → Roster
  | HandlesResult.error => contactListChannelReady LastType r
  | HandlesResult.finished invalidNames handles type =>
    if invalidNames = 1 then contactListChannelReady LastType r
    else
      { r with
        contactListChannels :=
          r.contactListChannels.insert type
            { r.contactListChannels.value type with handle := handles }
        effects := r.effects ++ [RosterEffect.ensureChannel (handles.headD 0)] }

/-- `Connection::gotContactListChannel`. -/
def gotContactListChannel (LastType : Nat) (r : Roster) : ChannelResult → Roster
  | ChannelResult.error => contactListChannelReady LastType r
  | ChannelResult.finished channel handle =>
    (List.range LastType).foldl
      (fun r i =>
        let c := r.contactListChannels.value i
        let r1 := { r with contactListChannels := r.contactListChannels.insert i c }
        if c.handle.length > 0 ∧ c.handle.headD 0 = handle then
          { r1 with
            contactListChannels := r1.contactListChannels.insert i { c with channel := some channel }
            effects := r1.effects ++ [RosterEffect.becomeReady channel] }
        else r1)
      r

end Roster

/-- What can happen to the roster introspection: the readiness helper runs
`introspectRoster`, a handle request or a channel request finishes, or the
`becomeReady()` of a contact-list channel finishes (which is connected to
`contactListChannelReady`). -/
inductive RosterEvent where
  | introspectRoster
  | gotContactListsHandles (op : HandlesResult)
  | gotContactListChannel (op : ChannelResult)
  | channelReady
deriving DecidableEq, Repr

/-- The handler of a roster event. -/
def handleRoster (LastType : Nat) (r : Roster) : RosterEvent → Roster
  | RosterEvent.introspectRoster => Roster.introspectRoster LastType r
  | RosterEvent.gotContactListsHandles op => Roster.gotContactListsHandles LastType r op
  | RosterEvent.gotContactListChannel op => Roster.gotContactListChannel LastType r op
  | RosterEvent.channelReady => Roster.contactListChannelReady LastType r

/-- The handlers of a sequence of roster events, one after the other. -/
def handleRosterAll (LastType : Nat) (r : Roster) : List RosterEvent → Roster
  | [] => r
  | e :: es => handleRosterAll LastType (handleRoster LastType r e) es

end Connection

/-- The remote calls among the effects, in the order in which they were
issued. -/
def issuedCalls (effects : List Effect) : List RemoteCall :=
  effects.filterMap fun e =>
    match e with
    | Effect.call c => some c
    | _ => none

/-- The replies of the service to the calls of the five queued member
functions. -/
structure Replies where
  status : Reply Nat
  interfaces : Reply (List String)
  selfHandle : Reply Nat
  capabilities : Reply (List RequestableChannelClass)
  contactAttributeInterfaces : Reply (List String)
deriving DecidableEq, Repr

namespace Connection

/-- The event in which the reply to the call of a queued member function
arrives: the slot that the function connects to the watcher of its call. -/
def replyEvent (replies : Replies) : IntrospectStep → Event
  | IntrospectStep.introspectMainFallbackStatus => Event.gotStatus replies.status
  | IntrospectStep.introspectMainFallbackInterfaces => Event.gotInterfaces replies.interfaces
  | IntrospectStep.introspectMainFallbackSelfHandle => Event.gotSelfHandle replies.selfHandle
  | IntrospectStep.introspectCapabilities => Event.gotCapabilities replies.capabilities
  | IntrospectStep.introspectContactAttributeInterfaces =>
    Event.gotContactAttributeInterfaces replies.contactAttributeInterfaces

end Connection

/-! ## Continuations after a resurrection -/

/-- After every operation of the sequence, started in `ctx`, handle `handle`
of type `type` is in `refcounts`. -/
def staysInRefcounts (type handle : Nat) : HandleContext → List Op → Bool
  | _, [] => true
  | ctx, op :: ops =>
    ((step ctx op).ctx.typeAt type).refcounts.contains handle &&
      staysInRefcounts type handle (step ctx op).ctx ops

/-- Every `unrefHandle(type, handle)` of the sequence, started in `ctx`, finds
the handle in `refcounts`, as the second `Q_ASSERT` of `unrefHandle` demands. -/
def unrefHandleAsserted (type handle : Nat) : HandleContext → List Op → Bool
  | _, [] => true
  | ctx, op :: ops =>
    (if op = Op.unrefHandle type handle then
      (ctx.typeAt type).refcounts.contains handle else true) &&
      unrefHandleAsserted type handle (step ctx op).ctx ops

/-! ## Sequences that do not wrap the request counter -/

/-- No `requestHandles(type)` of the sequence, started in `ctx`, finds
`requestsInFlight` of the type at `2 ^ 32 - 1`, where the increment wraps
around to 0. -/
def requestsInFlightBelowMax (type : Nat) : HandleContext → List Op → Bool
  | _, [] => true
  | ctx, op :: ops =>
    (match op with
      | Op.requestHandles t _ =>
        if t = type then decide ((ctx.typeAt type).requestsInFlight + 1 < uintMod) else true
      | _ => true) &&
      requestsInFlightBelowMax type (step ctx op).ctx ops

end Tp

/-! ## Facts about the containers -/

namespace Tp

namespace QMap

variable {κ β : Type} [DecidableEq κ]

theorem value?_insert_self [Ord κ] (m : QMap κ β) (k : κ) (v : β) :
    value? (insert m k v) k = some v := by
  induction m with
  | nil => simp [insert, value?]
  | cons e r ih =>
    obtain ⟨k', v'⟩ := e
    by_cases h1 : k = k'
    · simp [insert, value?, h1]
    · by_cases h2 : compare k k' = Ordering.lt
      · simp [insert, value?, h1, h2]
      · have h3 : ¬ k' = k := fun h => h1 h.symm
        simp [insert, value?, h1, h2, h3, ih]

theorem value?_insert_of_ne [Ord κ] (m : QMap κ β) {k j : κ} (h : j ≠ k) (v : β) :
    value? (insert m k v) j = value? m j := by
  have hkj : ¬ k = j := fun e => h e.symm
  induction m with
  | nil => simp [insert, value?, hkj]
  | cons e r ih =>
    obtain ⟨k', v'⟩ := e
    by_cases h1 : k = k'
    · subst h1
      simp [insert, value?, hkj]
    · by_cases h2 : compare k k' = Ordering.lt
      · simp [insert, value?, h1, h2, hkj]
      · simp [insert, value?, h1, h2, ih]

theorem value?_remove_self (m : QMap κ β) (k : κ) : value? (remove m k) k = none := by
  induction m with
  | nil => simp [remove, value?]
  | cons e r ih =>
    obtain ⟨k', v'⟩ := e
    by_cases h1 : k' = k
    · simp [remove, h1, ih]
    · simp [remove, h1, value?, ih]

theorem value?_remove_of_ne (m : QMap κ β) {k j : κ} (h : j ≠ k) :
    value? (remove m k) j = value? m j := by
  induction m with
  | nil => simp [remove, value?]
  | cons e r ih =>
    obtain ⟨k', v'⟩ := e
    by_cases h1 : k' = k
    · have h2 : ¬ k' = j := fun e => h (e.symm.trans h1)
      have h3 : ¬ k = j := fun e => h e.symm
      simp [remove, h1, value?, ih, h3]
    · simp [remove, h1, value?, ih]

theorem contains_insert_self [Ord κ] (m : QMap κ β) (k : κ) (v : β) :
    contains (insert m k v) k = true := by
  simp [contains, value?_insert_self]

theorem contains_insert_of_ne [Ord κ] (m : QMap κ β) {k j : κ} (h : j ≠ k) (v : β) :
    contains (insert m k v) j = contains m j := by
  simp [contains, value?_insert_of_ne m h]

theorem contains_remove_self (m : QMap κ β) (k : κ) : contains (remove m k) k = false := by
  simp [contains, value?_remove_self]

theorem contains_remove_of_ne (m : QMap κ β) {k j : κ} (h : j ≠ k) :
    contains (remove m k) j = contains m j := by
  simp [contains, value?_remove_of_ne m h]

theorem value_insert_self [Ord κ] [Inhabited β] (m : QMap κ β) (k : κ) (v : β) :
    value (insert m k v) k = v := by
  simp [value, value?_insert_self]

theorem value_insert_of_ne [Ord κ] [Inhabited β] (m : QMap κ β) {k j : κ} (h : j ≠ k)
    (v : β) : value (insert m k v) j = value m j := by
  simp [value, value?_insert_of_ne m h]

end QMap

namespace QSet

theorem contains_iff (s : QSet) (x : Nat) : contains s x = true ↔ x ∈ s := by
  simp [contains]

theorem mem_insert (s : QSet) (x y : Nat) : y ∈ insert s x ↔ y = x ∨ y ∈ s := by
  unfold insert
  split
  · constructor
    · intro h; exact Or.inr h
    · rintro (h | h)
      · subst h; assumption
      · exact h
  · simp [List.mem_append, or_comm]

theorem mem_remove (s : QSet) (x y : Nat) : y ∈ remove s x ↔ y ∈ s ∧ y ≠ x := by
  simp [remove, List.mem_filter]

end QSet

namespace HandleContext

theorem typeAt_setType_self (ctx : HandleContext) (type : Nat) (T : HandleContextType) :
    (ctx.setType type T).typeAt type = T := by
  simp [typeAt, setType, QMap.value_insert_self]

theorem typeAt_setType_of_ne (ctx : HandleContext) {type t : Nat} (h : t ≠ type)
    (T : HandleContextType) : (ctx.setType type T).typeAt t = ctx.typeAt t := by
  simp [typeAt, setType, QMap.value_insert_of_ne _ h]

theorem refcount_setType (ctx : HandleContext) (type : Nat) (T : HandleContextType) :
    (ctx.setType type T).refcount = ctx.refcount := rfl

end HandleContext

/-! ## Facts about `uint` arithmetic -/

theorem uintDec_one : uintDec 1 = 0 := by
  simp [uintDec]

theorem uintDec_of_pos {n : Nat} (h : 0 < n) : uintDec n = n - 1 := by
  have h0 : ¬ n = 0 := by omega
  simp [uintDec, h0]

theorem uintInc_zero : uintInc 0 = 1 := by
  simp [uintInc, uintMod]

theorem uintInc_of_lt {n : Nat} (h : n + 1 < uintMod) : uintInc n = n + 1 := by
  unfold uintInc
  exact Nat.mod_eq_of_lt h

/-! ## The refcount invariant -/

theorem HandleContext.disjoint_iff (ctx : HandleContext) :
    ctx.Disjoint ↔ ∀ type, (ctx.typeAt type).Disjoint := by
  simp only [HandleContext.Disjoint, HandleContextType.Disjoint, QSet.contains_iff, not_and]

theorem HandleContext.disjoint_setType {ctx : HandleContext} (h : ctx.Disjoint) (type : Nat)
    {T : HandleContextType} (hT : T.Disjoint) : (ctx.setType type T).Disjoint := by
  rw [HandleContext.disjoint_iff] at h ⊢
  intro t
  by_cases ht : t = type
  · subst ht
    rw [HandleContext.typeAt_setType_self]
    exact hT
  · rw [HandleContext.typeAt_setType_of_ne ctx ht]
    exact h t

theorem disjoint_refHandle {ctx : HandleContext} (h : ctx.Disjoint) (type handle : Nat) :
    (refHandle ctx type handle).Disjoint := by
  have hT := (HandleContext.disjoint_iff ctx).1 h type
  unfold refHandle
  apply HandleContext.disjoint_setType h
  intro x hx hmem
  simp only at hx hmem
  by_cases hxh : x = handle
  · subst hxh
    split at hmem
    · exact ((QSet.mem_remove _ _ _).1 hmem).2 rfl
    · rename_i hc
      exact hc ((QSet.contains_iff _ _).2 hmem)
  · rw [QMap.contains_insert_of_ne _ hxh] at hx
    have hm : x ∈ (ctx.typeAt type).toRelease := by
      split at hmem
      · exact ((QSet.mem_remove _ _ _).1 hmem).1
      · exact hmem
    exact hT x hx hm

theorem disjoint_unrefHandle {ctx : HandleContext} (h : ctx.Disjoint) (type handle : Nat)
    (hp : (ctx.typeAt type).refcounts.contains handle = true) :
    (unrefHandle ctx type handle).1.Disjoint := by
  have hT := (HandleContext.disjoint_iff ctx).1 h type
  have key1 : HandleContextType.Disjoint
      { ctx.typeAt type with
        refcounts := (ctx.typeAt type).refcounts.remove handle
        toRelease := (ctx.typeAt type).toRelease.insert handle } := by
    intro x hx hmem
    simp only at hx hmem
    by_cases hxh : x = handle
    · subst hxh
      rw [QMap.contains_remove_self] at hx
      exact Bool.noConfusion hx
    · rw [QMap.contains_remove_of_ne _ hxh] at hx
      rcases (QSet.mem_insert _ _ _).1 hmem with e | hm
      · exact hxh e
      · exact hT x hx hm
  unfold unrefHandle
  simp only
  split
  · split
    · split
      · apply HandleContext.disjoint_setType h
        intro x hx hmem
        exact key1 x hx hmem
      · exact HandleContext.disjoint_setType h type key1
    · exact HandleContext.disjoint_setType h type key1
  · apply HandleContext.disjoint_setType h
    intro x hx hmem
    simp only at hx hmem
    by_cases hxh : x = handle
    · subst hxh
      exact hT x hp hmem
    · rw [QMap.contains_insert_of_ne _ hxh] at hx
      exact hT x hx hmem

theorem disjoint_requestHandles {ctx : HandleContext} (h : ctx.Disjoint) (type : Nat)
    (names : List String) : (requestHandles ctx type names).Disjoint := by
  have hT := (HandleContext.disjoint_iff ctx).1 h type
  unfold requestHandles
  exact HandleContext.disjoint_setType h type (fun x hx hmem => hT x hx hmem)

theorem disjoint_handleRequestLanded {ctx : HandleContext} (h : ctx.Disjoint) (type : Nat) :
    (handleRequestLanded ctx type).1.Disjoint := by
  have hT := (HandleContext.disjoint_iff ctx).1 h type
  unfold handleRequestLanded
  simp only
  split
  · exact HandleContext.disjoint_setType h type (fun x hx hmem => hT x hx hmem)
  · exact HandleContext.disjoint_setType h type (fun x hx hmem => hT x hx hmem)

theorem disjoint_doReleaseSweep {ctx : HandleContext} (h : ctx.Disjoint) (type : Nat) :
    (doReleaseSweep ctx type).1.Disjoint := by
  have hT := (HandleContext.disjoint_iff ctx).1 h type
  unfold doReleaseSweep
  simp only
  split
  · exact HandleContext.disjoint_setType h type (fun x hx hmem => hT x hx hmem)
  · split
    · exact HandleContext.disjoint_setType h type (fun x hx hmem => hT x hx hmem)
    · apply HandleContext.disjoint_setType h
      intro x _ hmem
      exact absurd hmem (List.not_mem_nil x)

theorem disjoint_new : HandleContext.new.Disjoint := by
  intro type handle h
  simp [HandleContext.new, HandleContext.typeAt, QMap.value, QMap.value?, QMap.contains,
    default] at h

/-- C1: in every handle context reachable from the empty one by `refHandle`,
`unrefHandle` on a handle present in `refcounts`, `requestHandles`,
`handleRequestLanded` and `doReleaseSweep`, no handle of any type is in
`refcounts` and in `toRelease` at the same time. -/
theorem refcounts_toRelease_disjoint (ctx : HandleContext) (h : Reachable ctx)
    (type handle : Nat) :
    ¬ ((ctx.typeAt type).refcounts.contains handle = true ∧
       (ctx.typeAt type).toRelease.contains handle = true) := by
  have key : ctx.Disjoint := by
    induction h with
    | new => exact disjoint_new
    | refHandle type handle _ ih => exact disjoint_refHandle ih type handle
    | unrefHandle type handle _ hp ih => exact disjoint_unrefHandle ih type handle hp
    | requestHandles type names _ ih => exact disjoint_requestHandles ih type names
    | handleRequestLanded type _ ih => exact disjoint_handleRequestLanded ih type
    | doReleaseSweep type _ ih => exact disjoint_doReleaseSweep ih type
  exact key type handle

/-! ## Resurrection of a handle before the sweep runs -/

theorem held_setType_of_ne {ctx : HandleContext} {type handle t : Nat} (h : ctx.Held type handle)
    (ht : type ≠ t) (T : HandleContextType) : (ctx.setType t T).Held type handle := by
  unfold HandleContext.Held at h ⊢
  rw [HandleContext.typeAt_setType_of_ne ctx ht]
  exact h

theorem held_step {ctx : HandleContext} {type handle : Nat} (h : ctx.Held type handle)
    (op : Op) (hop : op ≠ Op.unrefHandle type handle) :
    (step ctx op).ctx.Held type handle ∧
      ∀ c ∈ (step ctx op).released, c.1 = type → handle ∉ c.2 := by
  cases op with
  | refHandle t x =>
    refine ⟨?_, by simp [step]⟩
    by_cases ht : type = t
    · subst ht
      simp only [step, refHandle, HandleContext.Held, HandleContext.typeAt_setType_self]
      by_cases hx : handle = x
      · subst hx
        refine ⟨QMap.contains_insert_self _ _ _, ?_⟩
        intro hmem
        exact h.2 (by
          split at hmem
          · exact ((QSet.mem_remove _ _ _).1 hmem).1
          · exact hmem)
      · refine ⟨by rw [QMap.contains_insert_of_ne _ hx]; exact h.1, ?_⟩
        intro hmem
        exact h.2 (by
          split at hmem
          · exact ((QSet.mem_remove _ _ _).1 hmem).1
          · exact hmem)
    · exact held_setType_of_ne h ht _
  | unrefHandle t x =>
    refine ⟨?_, by simp [step]⟩
    by_cases ht : type = t
    · subst ht
      have hx : handle ≠ x := by
        intro e
        subst e
        exact hop rfl
      have h1 : ((ctx.typeAt type).refcounts.remove x).contains handle = true := by
        rw [QMap.contains_remove_of_ne _ hx]; exact h.1
      have h2 : handle ∉ QSet.insert (ctx.typeAt type).toRelease x := by
        intro hmem
        rcases (QSet.mem_insert _ _ _).1 hmem with e | hm
        · exact hx e
        · exact h.2 hm
      simp only [step, unrefHandle]
      split
      · split
        · split <;>
            simp only [HandleContext.Held, HandleContext.typeAt_setType_self] <;>
            exact ⟨h1, h2⟩
        · simp only [HandleContext.Held, HandleContext.typeAt_setType_self]
          exact ⟨h1, h2⟩
      · simp only [HandleContext.Held, HandleContext.typeAt_setType_self]
        exact ⟨by rw [QMap.contains_insert_of_ne _ hx]; exact h.1, h.2⟩
    · simp only [step, unrefHandle]
      split
      · split
        · split <;> exact held_setType_of_ne h ht _
        · exact held_setType_of_ne h ht _
      · exact held_setType_of_ne h ht _
  | requestHandles t names =>
    refine ⟨?_, by simp [step]⟩
    by_cases ht : type = t
    · subst ht
      simp only [step, requestHandles, HandleContext.Held, HandleContext.typeAt_setType_self]
      exact h
    · exact held_setType_of_ne h ht _
  | handleRequestLanded t =>
    refine ⟨?_, by simp [step]⟩
    by_cases ht : type = t
    · subst ht
      simp only [step, handleRequestLanded]
      split <;>
        simp only [HandleContext.Held, HandleContext.typeAt_setType_self] <;>
        exact h
    · simp only [step, handleRequestLanded]
      split <;> exact held_setType_of_ne h ht _
  | doReleaseSweep t =>
    by_cases ht : type = t
    · subst ht
      simp only [step, doReleaseSweep]
      split
      · simp only [HandleContext.Held, HandleContext.typeAt_setType_self]
        exact ⟨h, by simp⟩
      · split
        · simp only [HandleContext.Held, HandleContext.typeAt_setType_self]
          exact ⟨h, by simp⟩
        · simp only [HandleContext.Held, HandleContext.typeAt_setType_self]
          refine ⟨⟨h.1, List.not_mem_nil _⟩, ?_⟩
          intro c hc _
          rw [List.mem_singleton] at hc
          subst hc
          exact h.2
    · simp only [step, doReleaseSweep]
      split
      · exact ⟨held_setType_of_ne h ht _, by simp⟩
      · split
        · exact ⟨held_setType_of_ne h ht _, by simp⟩
        · refine ⟨held_setType_of_ne h ht _, ?_⟩
          intro c hc hct
          rw [List.mem_singleton] at hc
          subst hc
          exact absurd hct.symm ht

theorem held_run {ctx : HandleContext} {type handle : Nat} (h : ctx.Held type handle)
    (ops : List Op) (hops : Op.unrefHandle type handle ∉ ops) :
    (run ctx ops).ctx.Held type handle ∧
      ∀ c ∈ (run ctx ops).released, c.1 = type → handle ∉ c.2 := by
  induction ops generalizing ctx with
  | nil => exact ⟨h, by simp [run]⟩
  | cons op ops ih =>
    have hne : op ≠ Op.unrefHandle type handle := by
      intro e
      exact hops (by simp [e])
    have hrest : Op.unrefHandle type handle ∉ ops := by
      intro e
      exact hops (List.mem_cons_of_mem _ e)
    obtain ⟨h1, h2⟩ := held_step h op hne
    obtain ⟨h3, h4⟩ := ih h1 hrest
    refine ⟨h3, ?_⟩
    intro c hc
    simp only [run, List.mem_append] at hc
    rcases hc with hc | hc
    · exact h2 c hc
    · exact h4 c hc

/-! ## Effect of the single operations -/

theorem typeAt_refHandle_self (ctx : HandleContext) (type handle : Nat) :
    (refHandle ctx type handle).typeAt type =
      { ctx.typeAt type with
        toRelease :=
          if (ctx.typeAt type).toRelease.contains handle
          then (ctx.typeAt type).toRelease.remove handle else (ctx.typeAt type).toRelease
        refcounts := (ctx.typeAt type).refcounts.insert handle
          (uintInc ((ctx.typeAt type).refcounts.value handle)) } := by
  simp only [refHandle, HandleContext.typeAt_setType_self]

theorem typeAt_refHandle_of_ne (ctx : HandleContext) {type t : Nat} (h : t ≠ type)
    (handle : Nat) : (refHandle ctx type handle).typeAt t = ctx.typeAt t := by
  simp only [refHandle, HandleContext.typeAt_setType_of_ne ctx h]

theorem refcount_refHandle (ctx : HandleContext) (type handle : Nat) :
    (refHandle ctx type handle).refcount = ctx.refcount := rfl

theorem unrefHandle_last (ctx : HandleContext) (type handle : Nat)
    (h1 : (ctx.typeAt type).refcounts.value? handle = some 1) :
    (unrefHandle ctx type handle).1.typeAt type =
      { ctx.typeAt type with
        refcounts := (ctx.typeAt type).refcounts.remove handle
        toRelease := (ctx.typeAt type).toRelease.insert handle
        releaseScheduled := (ctx.typeAt type).releaseScheduled ||
          decide ((ctx.typeAt type).requestsInFlight = 0) } ∧
    (unrefHandle ctx type handle).2 =
      (!(ctx.typeAt type).releaseScheduled &&
        decide ((ctx.typeAt type).requestsInFlight = 0)) := by
  have hv : (ctx.typeAt type).refcounts.value handle = 1 := by
    simp [QMap.value, h1]
  have hn : uintDec ((ctx.typeAt type).refcounts.value handle) = 0 := by
    rw [hv]; exact uintDec_one
  simp only [unrefHandle, hn, if_true]
  cases hrs : (ctx.typeAt type).releaseScheduled <;>
    by_cases hrif : (ctx.typeAt type).requestsInFlight = 0 <;>
    simp [hrs, hrif, HandleContext.typeAt_setType_self]

theorem unrefHandle_more (ctx : HandleContext) (type handle n : Nat)
    (hn : (ctx.typeAt type).refcounts.value? handle = some n) (h1 : 1 < n) :
    (unrefHandle ctx type handle).1.typeAt type =
      { ctx.typeAt type with
        refcounts := (ctx.typeAt type).refcounts.insert handle (n - 1) } ∧
    (unrefHandle ctx type handle).2 = false := by
  have hv : (ctx.typeAt type).refcounts.value handle = n := by
    simp [QMap.value, hn]
  have hd : uintDec ((ctx.typeAt type).refcounts.value handle) = n - 1 := by
    rw [hv]; exact uintDec_of_pos (Nat.lt_trans Nat.zero_lt_one h1)
  have hne : ¬ (n - 1 = 0) := by omega
  simp [unrefHandle, hd, hne, HandleContext.typeAt_setType_self]

theorem typeAt_unrefHandle_of_ne (ctx : HandleContext) {type t : Nat} (h : t ≠ type)
    (handle : Nat) : (unrefHandle ctx type handle).1.typeAt t = ctx.typeAt t := by
  simp only [unrefHandle]
  split
  · split
    · split <;> exact HandleContext.typeAt_setType_of_ne ctx h _
    · exact HandleContext.typeAt_setType_of_ne ctx h _
  · exact HandleContext.typeAt_setType_of_ne ctx h _

theorem refcount_unrefHandle (ctx : HandleContext) (type handle : Nat) :
    (unrefHandle ctx type handle).1.refcount = ctx.refcount := by
  simp only [unrefHandle]
  split
  · split
    · split <;> rfl
    · rfl
  · rfl

/-! ## Sweep batching -/

theorem run_unrefHandle_all (type : Nat) (hs : List Nat) :
    ∀ ctx : HandleContext, hs.Nodup →
      (∀ h ∈ hs, (ctx.typeAt type).refcounts.value? h = some 1) →
      ((run ctx (hs.map (Op.unrefHandle type))).ctx.typeAt type).requestsInFlight =
        (ctx.typeAt type).requestsInFlight ∧
      (∀ x, x ∈ ((run ctx (hs.map (Op.unrefHandle type))).ctx.typeAt type).toRelease ↔
        x ∈ hs ∨ x ∈ (ctx.typeAt type).toRelease) ∧
      ((run ctx (hs.map (Op.unrefHandle type))).ctx.typeAt type).releaseScheduled =
        ((ctx.typeAt type).releaseScheduled ||
          (decide ((ctx.typeAt type).requestsInFlight = 0) && !hs.isEmpty)) ∧
      (run ctx (hs.map (Op.unrefHandle type))).posted =
        (if (!(ctx.typeAt type).releaseScheduled &&
            decide ((ctx.typeAt type).requestsInFlight = 0) && !hs.isEmpty) = true
          then [type] else []) ∧
      (run ctx (hs.map (Op.unrefHandle type))).released = [] := by
  induction hs with
  | nil =>
    intro ctx _ _
    simp [run]
  | cons h rest ih =>
    intro ctx hnd h1
    have hh : (ctx.typeAt type).refcounts.value? h = some 1 := h1 h (List.mem_cons_self _ _)
    obtain ⟨hT, hp⟩ := unrefHandle_last ctx type h hh
    have hnd' : rest.Nodup := (List.nodup_cons.1 hnd).2
    have hnotin : h ∉ rest := (List.nodup_cons.1 hnd).1
    have h1' : ∀ x ∈ rest,
        ((unrefHandle ctx type h).1.typeAt type).refcounts.value? x = some 1 := by
      intro x hx
      have hxh : x ≠ h := fun e => hnotin (e ▸ hx)
      rw [hT]
      simp only
      rw [QMap.value?_remove_of_ne _ hxh]
      exact h1 x (List.mem_cons_of_mem _ hx)
    obtain ⟨i1, i2, i3, i4, i5⟩ := ih (unrefHandle ctx type h).1 hnd' h1'
    simp only [List.map_cons, run, step]
    rw [hT] at i1 i2 i3 i4
    simp only at i1 i2 i3 i4
    refine ⟨i1, ?_, ?_, ?_, ?_⟩
    · intro x
      rw [i2 x, QSet.mem_insert, List.mem_cons]
      constructor
      · rintro (a | b | c)
        · exact Or.inl (Or.inr a)
        · exact Or.inl (Or.inl b)
        · exact Or.inr c
      · rintro ((a | b) | c)
        · exact Or.inr (Or.inl a)
        · exact Or.inl b
        · exact Or.inr (Or.inr c)
    · rw [i3]
      cases (ctx.typeAt type).releaseScheduled <;>
        by_cases hr : (ctx.typeAt type).requestsInFlight = 0 <;>
        simp [hr]
    · rw [i4, hp]
      cases (ctx.typeAt type).releaseScheduled <;>
        by_cases hr : (ctx.typeAt type).requestsInFlight = 0 <;>
        simp [hr]
    · rw [i5]
      rfl

/-- C5: for a handle present in `refcounts` with count `n ≥ 1`,
`unrefHandle` gives: if `n > 1`, count `n - 1`, nothing posted and the rest
of the type unchanged; if `n = 1`, the handle is removed from `refcounts` and
inserted into `toRelease`, and a sweep is posted exactly when beforehand no
request was in flight and no sweep was scheduled, `releaseScheduled` being
true afterwards exactly when it was before or a sweep was posted. The
refcounts of all other handles, all other types and the context's own
`refcount` are unchanged. -/
theorem unrefHandle_spec (ctx : HandleContext) (type handle n : Nat)
    (hn : (ctx.typeAt type).refcounts.value? handle = some n) (h1 : 1 ≤ n) :
    (1 < n →
      ((unrefHandle ctx type handle).1.typeAt type).refcounts.value? handle = some (n - 1) ∧
      ((unrefHandle ctx type handle).1.typeAt type).toRelease = (ctx.typeAt type).toRelease ∧
      ((unrefHandle ctx type handle).1.typeAt type).requestsInFlight =
        (ctx.typeAt type).requestsInFlight ∧
      ((unrefHandle ctx type handle).1.typeAt type).releaseScheduled =
        (ctx.typeAt type).releaseScheduled ∧
      (unrefHandle ctx type handle).2 = false) ∧
    (n = 1 →
      ((unrefHandle ctx type handle).1.typeAt type).refcounts.contains handle = false ∧
      (∀ x, x ∈ ((unrefHandle ctx type handle).1.typeAt type).toRelease ↔
        x = handle ∨ x ∈ (ctx.typeAt type).toRelease) ∧
      ((unrefHandle ctx type handle).1.typeAt type).requestsInFlight =
        (ctx.typeAt type).requestsInFlight ∧
      ((unrefHandle ctx type handle).2 = true ↔
        (ctx.typeAt type).requestsInFlight = 0 ∧
          (ctx.typeAt type).releaseScheduled = false) ∧
      (((unrefHandle ctx type handle).1.typeAt type).releaseScheduled = true ↔
        (ctx.typeAt type).releaseScheduled = true ∨ (unrefHandle ctx type handle).2 = true)) ∧
    (∀ x, x ≠ handle →
      ((unrefHandle ctx type handle).1.typeAt type).refcounts.value? x =
        (ctx.typeAt type).refcounts.value? x) ∧
    (∀ t, t ≠ type → (unrefHandle ctx type handle).1.typeAt t = ctx.typeAt t) ∧
    (unrefHandle ctx type handle).1.refcount = ctx.refcount := by
  refine ⟨?_, ?_, ?_, ?_, refcount_unrefHandle ctx type handle⟩
  · intro hgt
    obtain ⟨hT, hp⟩ := unrefHandle_more ctx type handle n hn hgt
    rw [hT]
    exact ⟨QMap.value?_insert_self _ _ _, rfl, rfl, rfl, hp⟩
  · intro he
    subst he
    obtain ⟨hT, hp⟩ := unrefHandle_last ctx type handle hn
    rw [hT, hp]
    refine ⟨QMap.contains_remove_self _ _, fun x => QSet.mem_insert _ _ _, rfl, ?_, ?_⟩
    · cases (ctx.typeAt type).releaseScheduled <;>
        by_cases hr : (ctx.typeAt type).requestsInFlight = 0 <;> simp [hr]
    · cases (ctx.typeAt type).releaseScheduled <;>
        by_cases hr : (ctx.typeAt type).requestsInFlight = 0 <;> simp [hr]
  · intro x hx
    rcases Nat.lt_or_ge 1 n with hgt | hle
    · rw [(unrefHandle_more ctx type handle n hn hgt).1]
      exact QMap.value?_insert_of_ne _ hx _
    · have he : n = 1 := Nat.le_antisymm hle h1
      subst he
      rw [(unrefHandle_last ctx type handle hn).1]
      exact QMap.value?_remove_of_ne _ hx
  · intro t ht
    exact typeAt_unrefHandle_of_ne ctx ht handle

/-- C5, at a handle held twice and at a handle held once. -/
theorem unrefHandle_spec_witness :
    (((run HandleContext.new [Op.refHandle 0 7, Op.refHandle 0 7]).ctx.typeAt 0).refcounts.value?
      7 = some 2 ∧ 1 ≤ 2) ∧
    (unrefHandle (run HandleContext.new [Op.refHandle 0 7, Op.refHandle 0 7]).ctx 0 7).1.refcount
      = (run HandleContext.new [Op.refHandle 0 7, Op.refHandle 0 7]).ctx.refcount ∧
    (unrefHandle (refHandle HandleContext.new 0 7) 0 7).1.refcount =
      (refHandle HandleContext.new 0 7).refcount :=
  ⟨⟨by decide, by decide⟩,
    (unrefHandle_spec (run HandleContext.new [Op.refHandle 0 7, Op.refHandle 0 7]).ctx 0 7 2
      (by decide) (by decide)).2.2.2.2,
    (unrefHandle_spec (refHandle HandleContext.new 0 7) 0 7 1
      (by decide) (by decide)).2.2.2.2⟩

/-- C6 (as amended): `refHandle` sets the refcount of the handle to 1 if it
was not in `refcounts`, and to the old count plus one, reduced modulo `2 ^ 32`
(so to exactly old count + 1 whenever that is below `2 ^ 32`), if it was; it
removes the handle from `toRelease` and leaves the other elements of
`toRelease`, `requestsInFlight`, `releaseScheduled`, every other handle,
every other type and the context's own `refcount` unchanged. -/
theorem refHandle_spec (ctx : HandleContext) (type handle : Nat) :
    ((ctx.typeAt type).refcounts.value? handle = none →
      ((refHandle ctx type handle).typeAt type).refcounts.value? handle = some 1) ∧
    (∀ n, (ctx.typeAt type).refcounts.value? handle = some n →
      ((refHandle ctx type handle).typeAt type).refcounts.value? handle =
        some ((n + 1) % uintMod) ∧
      (n + 1 < uintMod →
        ((refHandle ctx type handle).typeAt type).refcounts.value? handle = some (n + 1))) ∧
    handle ∉ ((refHandle ctx type handle).typeAt type).toRelease ∧
    (∀ x, x ≠ handle →
      (x ∈ ((refHandle ctx type handle).typeAt type).toRelease ↔
        x ∈ (ctx.typeAt type).toRelease)) ∧
    ((refHandle ctx type handle).typeAt type).requestsInFlight =
      (ctx.typeAt type).requestsInFlight ∧
    ((refHandle ctx type handle).typeAt type).releaseScheduled =
      (ctx.typeAt type).releaseScheduled ∧
    (∀ x, x ≠ handle →
      ((refHandle ctx type handle).typeAt type).refcounts.value? x =
        (ctx.typeAt type).refcounts.value? x) ∧
    (∀ t, t ≠ type → (refHandle ctx type handle).typeAt t = ctx.typeAt t) ∧
    (refHandle ctx type handle).refcount = ctx.refcount := by
  rw [typeAt_refHandle_self]
  refine ⟨?_, ?_, ?_, ?_, rfl, rfl, ?_, ?_, rfl⟩
  · intro hnone
    simp only
    rw [QMap.value?_insert_self]
    simp [QMap.value, hnone, uintInc_zero]
  · intro n hn
    simp only
    rw [QMap.value?_insert_self]
    have hv : (ctx.typeAt type).refcounts.value handle = n := by simp [QMap.value, hn]
    rw [hv]
    exact ⟨rfl, fun hlt => by rw [uintInc_of_lt hlt]⟩
  · intro hmem
    simp only at hmem
    split at hmem
    · exact ((QSet.mem_remove _ _ _).1 hmem).2 rfl
    · rename_i hc
      exact hc ((QSet.contains_iff _ _).2 hmem)
  · intro x hx
    simp only
    split
    · rw [QSet.mem_remove]
      exact ⟨fun h => h.1, fun h => ⟨h, hx⟩⟩
    · exact Iff.rfl
  · intro x hx
    exact QMap.value?_insert_of_ne _ hx _
  · intro t ht
    exact typeAt_refHandle_of_ne ctx ht handle

/-- C6: the claim fails at the largest `uint`: a handle held with refcount
`2 ^ 32 - 1` has refcount 0 after `refHandle`, not `2 ^ 32`. -/
theorem refHandle_wraps_at_uint_max :
    ((HandleContext.mk 1 [(0, ⟨[(42, 4294967295)], [], 0, false⟩)]).typeAt 0).refcounts.value? 42
      = some 4294967295 ∧
    ((refHandle (HandleContext.mk 1 [(0, ⟨[(42, 4294967295)], [], 0, false⟩)]) 0
      42).typeAt 0).refcounts.value? 42 = some 0 ∧
    ((refHandle (HandleContext.mk 1 [(0, ⟨[(42, 4294967295)], [], 0, false⟩)]) 0
      42).typeAt 0).refcounts.value? 42 ≠ some (4294967295 + 1) := by
  decide

theorem typeAt_doReleaseSweep_of_ne (ctx : HandleContext) {type t : Nat} (h : t ≠ type) :
    (doReleaseSweep ctx type).1.typeAt t = ctx.typeAt t := by
  simp only [doReleaseSweep]
  split
  · exact HandleContext.typeAt_setType_of_ne ctx h _
  · split <;> exact HandleContext.typeAt_setType_of_ne ctx h _

theorem refcount_doReleaseSweep (ctx : HandleContext) (type : Nat) :
    (doReleaseSweep ctx type).1.refcount = ctx.refcount := by
  simp only [doReleaseSweep]
  split
  · rfl
  · split <;> rfl

theorem requestsInFlight_doReleaseSweep_self (ctx : HandleContext) (type : Nat) :
    ((doReleaseSweep ctx type).1.typeAt type).requestsInFlight =
      (ctx.typeAt type).requestsInFlight := by
  simp only [doReleaseSweep]
  split
  · simp only [HandleContext.typeAt_setType_self]
  · split <;> simp only [HandleContext.typeAt_setType_self]

/-- C7: `doReleaseSweep` always clears `releaseScheduled`; it issues a release
call exactly when no request is in flight and `toRelease` is non-empty, and
then exactly one `ReleaseHandles` call of that type whose handles are the
contents of `toRelease`, which it leaves empty; with requests in flight it
issues no call and leaves `toRelease` as it is. It never modifies `refcounts`
or `requestsInFlight`, nor any other type, nor the context's own `refcount`. -/
theorem doReleaseSweep_spec (ctx : HandleContext) (type : Nat) :
    ((doReleaseSweep ctx type).1.typeAt type).releaseScheduled = false ∧
    ((doReleaseSweep ctx type).2 ≠ [] ↔
      (ctx.typeAt type).requestsInFlight = 0 ∧ (ctx.typeAt type).toRelease ≠ []) ∧
    ((ctx.typeAt type).requestsInFlight = 0 → (ctx.typeAt type).toRelease ≠ [] →
      (doReleaseSweep ctx type).2 = [(type, (ctx.typeAt type).toRelease)] ∧
      ((doReleaseSweep ctx type).1.typeAt type).toRelease = []) ∧
    ((ctx.typeAt type).requestsInFlight > 0 →
      (doReleaseSweep ctx type).2 = [] ∧
      ((doReleaseSweep ctx type).1.typeAt type).toRelease = (ctx.typeAt type).toRelease) ∧
    ((ctx.typeAt type).toRelease = [] →
      (doReleaseSweep ctx type).2 = [] ∧
      ((doReleaseSweep ctx type).1.typeAt type).toRelease = []) ∧
    ((doReleaseSweep ctx type).1.typeAt type).refcounts = (ctx.typeAt type).refcounts ∧
    ((doReleaseSweep ctx type).1.typeAt type).requestsInFlight =
      (ctx.typeAt type).requestsInFlight ∧
    (∀ t, t ≠ type → (doReleaseSweep ctx type).1.typeAt t = ctx.typeAt t) ∧
    (doReleaseSweep ctx type).1.refcount = ctx.refcount := by
  refine ⟨?_, ?_, ?_, ?_, ?_, ?_, ?_, fun t ht => typeAt_doReleaseSweep_of_ne ctx ht,
      refcount_doReleaseSweep ctx type⟩ <;>
    simp only [doReleaseSweep, QSet.toList] <;>
    by_cases hr : (ctx.typeAt type).requestsInFlight > 0 <;>
    cases ht : (ctx.typeAt type).toRelease <;>
    simp [hr, ht, HandleContext.typeAt_setType_self] <;>
    omega

/-! ## Requests in flight -/

theorem requestsInFlight_unrefHandle (ctx : HandleContext) (type handle t : Nat) :
    ((unrefHandle ctx type handle).1.typeAt t).requestsInFlight =
      (ctx.typeAt t).requestsInFlight := by
  by_cases ht : t = type
  · subst ht
    simp only [unrefHandle]
    split
    · split
      · split <;> simp only [HandleContext.typeAt_setType_self]
      · simp only [HandleContext.typeAt_setType_self]
    · simp only [HandleContext.typeAt_setType_self]
  · rw [typeAt_unrefHandle_of_ne ctx ht]

theorem requestsInFlight_refHandle (ctx : HandleContext) (type handle t : Nat) :
    ((refHandle ctx type handle).typeAt t).requestsInFlight =
      (ctx.typeAt t).requestsInFlight := by
  by_cases ht : t = type
  · subst ht
    rw [typeAt_refHandle_self]
  · rw [typeAt_refHandle_of_ne ctx ht]

theorem requestsInFlight_doReleaseSweep (ctx : HandleContext) (type t : Nat) :
    ((doReleaseSweep ctx type).1.typeAt t).requestsInFlight =
      (ctx.typeAt t).requestsInFlight := by
  by_cases ht : t = type
  · subst ht
    exact requestsInFlight_doReleaseSweep_self ctx t
  · rw [typeAt_doReleaseSweep_of_ne ctx ht]

theorem typeAt_requestHandles_self (ctx : HandleContext) (type : Nat) (names : List String) :
    (requestHandles ctx type names).typeAt type =
      { ctx.typeAt type with
        requestsInFlight := uintInc (ctx.typeAt type).requestsInFlight } := by
  simp only [requestHandles, HandleContext.typeAt_setType_self]

theorem typeAt_requestHandles_of_ne (ctx : HandleContext) {type t : Nat} (h : t ≠ type)
    (names : List String) : (requestHandles ctx type names).typeAt t = ctx.typeAt t := by
  simp only [requestHandles, HandleContext.typeAt_setType_of_ne ctx h]

theorem typeAt_handleRequestLanded_self (ctx : HandleContext) (type : Nat) :
    (handleRequestLanded ctx type).1.typeAt type =
      { ctx.typeAt type with
        requestsInFlight := uintDec (ctx.typeAt type).requestsInFlight
        releaseScheduled := (ctx.typeAt type).releaseScheduled ||
          (decide (uintDec (ctx.typeAt type).requestsInFlight = 0) &&
            !(ctx.typeAt type).toRelease.isEmpty) } ∧
    (handleRequestLanded ctx type).2 =
      (decide (uintDec (ctx.typeAt type).requestsInFlight = 0) &&
        !(ctx.typeAt type).toRelease.isEmpty && !(ctx.typeAt type).releaseScheduled) := by
  simp only [handleRequestLanded]
  by_cases hz : uintDec (ctx.typeAt type).requestsInFlight = 0 <;>
    cases he : (ctx.typeAt type).toRelease.isEmpty <;>
    cases hs : (ctx.typeAt type).releaseScheduled <;>
    simp [hz, he, hs, HandleContext.typeAt_setType_self]

theorem typeAt_handleRequestLanded_of_ne (ctx : HandleContext) {type t : Nat} (h : t ≠ type) :
    (handleRequestLanded ctx type).1.typeAt t = ctx.typeAt t := by
  simp only [handleRequestLanded]
  split <;> exact HandleContext.typeAt_setType_of_ne ctx h _

theorem refcount_handleRequestLanded (ctx : HandleContext) (type : Nat) :
    (handleRequestLanded ctx type).1.refcount = ctx.refcount := by
  simp only [handleRequestLanded]
  split <;> rfl

theorem matched_step (type : Nat) (ctx : HandleContext) (c : Nat) (op : Op) (ops : List Op)
    (hc : (ctx.typeAt type).requestsInFlight = c)
    (hm : matched type (op :: ops) c = true) :
    ∃ c1, ((step ctx op).ctx.typeAt type).requestsInFlight = c1 ∧
      matched type ops c1 = true ∧ (op = Op.handleRequestLanded type → 0 < c) := by
  cases op with
  | refHandle t x =>
    exact ⟨c, by rw [← hc]; exact requestsInFlight_refHandle ctx t x type, hm,
      fun e => Op.noConfusion e⟩
  | unrefHandle t x =>
    exact ⟨c, by rw [← hc]; exact requestsInFlight_unrefHandle ctx t x type, hm,
      fun e => Op.noConfusion e⟩
  | doReleaseSweep t =>
    exact ⟨c, by rw [← hc]; exact requestsInFlight_doReleaseSweep ctx t type, hm,
      fun e => Op.noConfusion e⟩
  | requestHandles t names =>
    by_cases ht : t = type
    · subst ht
      simp only [matched, if_true, Bool.and_eq_true, decide_eq_true_eq] at hm
      refine ⟨c + 1, ?_, hm.2, fun e => Op.noConfusion e⟩
      simp only [step, typeAt_requestHandles_self, hc]
      exact uintInc_of_lt hm.1
    · simp only [matched, ht, if_false] at hm
      refine ⟨c, ?_, hm, fun e => Op.noConfusion e⟩
      simp only [step]
      rw [typeAt_requestHandles_of_ne ctx (fun e => ht e.symm)]
      exact hc
  | handleRequestLanded t =>
    by_cases ht : t = type
    · subst ht
      simp only [matched, if_true, Bool.and_eq_true, decide_eq_true_eq] at hm
      refine ⟨c - 1, ?_, hm.2, fun _ => hm.1⟩
      simp only [step, (typeAt_handleRequestLanded_self ctx t).1, hc]
      exact uintDec_of_pos hm.1
    · simp only [matched, ht, if_false] at hm
      refine ⟨c, ?_, hm, ?_⟩
      · simp only [step]
        rw [typeAt_handleRequestLanded_of_ne ctx (fun e => ht e.symm)]
        exact hc
      · intro e
        injection e with e1
        exact absurd e1 ht

theorem matched_run (type : Nat) (ops : List Op) :
    ∀ (ctx : HandleContext) (c : Nat), (ctx.typeAt type).requestsInFlight = c →
      matched type ops c = true →
      ∀ pre post : List Op, ops = pre ++ Op.handleRequestLanded type :: post →
        0 < ((run ctx pre).ctx.typeAt type).requestsInFlight := by
  induction ops with
  | nil =>
    intro ctx c _ _ pre post he
    cases pre <;> simp at he
  | cons op ops ih =>
    intro ctx c hc hm pre post he
    obtain ⟨c1, h1, h3, h4⟩ := matched_step type ctx c op ops hc hm
    cases pre with
    | nil =>
      simp only [List.nil_append, List.cons.injEq] at he
      simp only [run]
      rw [hc]
      exact h4 he.1
    | cons p pre =>
      simp only [List.cons_append, List.cons.injEq] at he
      obtain ⟨e1, e2⟩ := he
      subst e1
      simp only [run]
      exact ih (step ctx op).ctx c1 h1 h3 pre post e2

/-- C8 (as amended): `requestHandles` increments `requestsInFlight` of the
type by one modulo `2 ^ 32` (by exactly one whenever the result is below
`2 ^ 32`) and changes nothing else; `handleRequestLanded`, called with
`requestsInFlight > 0`, decrements it by exactly one and posts a sweep,
setting `releaseScheduled`, exactly when the new count is 0, `toRelease` is
non-empty and `releaseScheduled` was false; and in every sequence of
operations in which each landing is matched by an outstanding request and
fewer than `2 ^ 32` requests are outstanding at a time, every
`handleRequestLanded` finds `requestsInFlight > 0`. -/
theorem requestsInFlight_spec (ctx : HandleContext) (type : Nat) (names : List String) :
    (((requestHandles ctx type names).typeAt type).requestsInFlight =
        ((ctx.typeAt type).requestsInFlight + 1) % uintMod ∧
      ((ctx.typeAt type).requestsInFlight + 1 < uintMod →
        ((requestHandles ctx type names).typeAt type).requestsInFlight =
          (ctx.typeAt type).requestsInFlight + 1) ∧
      ((requestHandles ctx type names).typeAt type).refcounts = (ctx.typeAt type).refcounts ∧
      ((requestHandles ctx type names).typeAt type).toRelease = (ctx.typeAt type).toRelease ∧
      ((requestHandles ctx type names).typeAt type).releaseScheduled =
        (ctx.typeAt type).releaseScheduled ∧
      (∀ t, t ≠ type → (requestHandles ctx type names).typeAt t = ctx.typeAt t) ∧
      (requestHandles ctx type names).refcount = ctx.refcount) ∧
    (0 < (ctx.typeAt type).requestsInFlight →
      ((handleRequestLanded ctx type).1.typeAt type).requestsInFlight =
        (ctx.typeAt type).requestsInFlight - 1 ∧
      ((handleRequestLanded ctx type).2 = true ↔
        (ctx.typeAt type).requestsInFlight - 1 = 0 ∧ (ctx.typeAt type).toRelease ≠ [] ∧
          (ctx.typeAt type).releaseScheduled = false) ∧
      (((handleRequestLanded ctx type).1.typeAt type).releaseScheduled = true ↔
        (ctx.typeAt type).releaseScheduled = true ∨ (handleRequestLanded ctx type).2 = true) ∧
      ((handleRequestLanded ctx type).1.typeAt type).refcounts = (ctx.typeAt type).refcounts ∧
      ((handleRequestLanded ctx type).1.typeAt type).toRelease = (ctx.typeAt type).toRelease ∧
      (∀ t, t ≠ type → (handleRequestLanded ctx type).1.typeAt t = ctx.typeAt t) ∧
      (handleRequestLanded ctx type).1.refcount = ctx.refcount) ∧
    (∀ ops : List Op,
      matched type ops (ctx.typeAt type).requestsInFlight = true →
      ∀ pre post : List Op, ops = pre ++ Op.handleRequestLanded type :: post →
        0 < ((run ctx pre).ctx.typeAt type).requestsInFlight) := by
  refine ⟨?_, ?_, ?_⟩
  · rw [typeAt_requestHandles_self]
    exact ⟨rfl, fun h => uintInc_of_lt h, rfl, rfl, rfl,
      fun t ht => typeAt_requestHandles_of_ne ctx ht names, rfl⟩
  · intro hpos
    obtain ⟨hT, hp⟩ := typeAt_handleRequestLanded_self ctx type
    have hd := uintDec_of_pos hpos
    rw [hT, hp, hd]
    refine ⟨rfl, ?_, ?_, rfl, rfl,
      fun t ht => typeAt_handleRequestLanded_of_ne ctx ht,
      refcount_handleRequestLanded ctx type⟩
    · cases (ctx.typeAt type).toRelease <;> cases (ctx.typeAt type).releaseScheduled <;>
        simp
    · cases (ctx.typeAt type).toRelease <;> cases (ctx.typeAt type).releaseScheduled <;>
        simp
  · intro ops hm pre post he
    exact matched_run type ops ctx _ rfl hm pre post he

/-- C8: the claim fails at the largest `uint`: with `2 ^ 32 - 1` requests in
flight, `requestHandles` leaves `requestsInFlight` at 0, not at `2 ^ 32`. -/
theorem requestHandles_wraps_at_uint_max :
    ((HandleContext.mk 1 [(0, ⟨[], [], 4294967295, false⟩)]).typeAt 0).requestsInFlight
      = 4294967295 ∧
    ((requestHandles (HandleContext.mk 1 [(0, ⟨[], [], 4294967295, false⟩)]) 0
      ["alice"]).typeAt 0).requestsInFlight = 0 ∧
    ((requestHandles (HandleContext.mk 1 [(0, ⟨[], [], 4294967295, false⟩)]) 0
      ["alice"]).typeAt 0).requestsInFlight ≠ 4294967295 + 1 := by
  decide

/-! ## Splitting of referenced handles -/

/-- C1, at the context reached by referencing handle 42 of type 1 once and
releasing it again. -/
theorem refcounts_toRelease_disjoint_witness :
    Reachable (unrefHandle (refHandle HandleContext.new 1 42) 1 42).1 ∧
    ¬ (((unrefHandle (refHandle HandleContext.new 1 42) 1 42).1.typeAt 1).refcounts.contains 42
        = true ∧
      ((unrefHandle (refHandle HandleContext.new 1 42) 1 42).1.typeAt 1).toRelease.contains 42
        = true) :=
  ⟨Reachable.unrefHandle 1 42 (Reachable.refHandle 1 42 Reachable.new) (by decide),
    refcounts_toRelease_disjoint _
      (Reachable.unrefHandle 1 42 (Reachable.refHandle 1 42 Reachable.new) (by decide)) 1 42⟩

/-! ## Counting live objects -/

theorem countP_range_succ (f : Nat → Bool) (n : Nat) :
    (List.range (n + 1)).countP f = (List.range n).countP f + (if f n = true then 1 else 0) := by
  rw [List.range_succ, List.countP_append]
  simp [List.countP_cons]

theorem countP_range_congr {f g : Nat → Bool} {n : Nat} (h : ∀ i, i < n → f i = g i) :
    (List.range n).countP f = (List.range n).countP g := by
  apply List.countP_congr
  intro x hx
  rw [h x (List.mem_range.1 hx)]

theorem countP_range_remove {f g : Nat → Bool} {n i : Nat} (hi : i < n) (hf : f i = true)
    (hg : g i = false) (h : ∀ j, j ≠ i → g j = f j) :
    (List.range n).countP f = (List.range n).countP g + 1 := by
  induction n with
  | zero => omega
  | succ n ih =>
    rw [countP_range_succ, countP_range_succ]
    by_cases hin : i = n
    · subst hin
      have e : (List.range i).countP f = (List.range i).countP g :=
        countP_range_congr (fun j hj => (h j (by omega)).symm)
      simp [hf, hg, e]
    · have hi2 : i < n := by omega
      rw [ih hi2, h n (fun e => hin e.symm)]
      omega

theorem countP_range_pos {f : Nat → Bool} {n i : Nat} (hi : i < n) (hf : f i = true) :
    1 ≤ (List.range n).countP f :=
  List.countP_pos_iff.2 ⟨i, List.mem_range.2 hi, hf⟩

theorem countP_range_two {f : Nat → Bool} {n i j : Nat} (hi : i < n) (hj : j < n)
    (hij : i ≠ j) (hfi : f i = true) (hfj : f j = true) :
    2 ≤ (List.range n).countP f := by
  have h1 := countP_range_remove (g := fun k => if k = i then false else f k) hi hfi
    (by simp) (fun k hk => by simp [hk])
  have h2 : 1 ≤ (List.range n).countP (fun k => if k = i then false else f k) :=
    countP_range_pos hj (by
      have hji : ¬ j = i := fun e => hij e.symm
      simp [hji, hfj])
  omega

namespace World

theorem isProxyFor_insert {w v : World} {pid0 : Nat} {p0 : Proxy}
    (h : v.proxies = w.proxies.insert pid0 p0) (key : String × String) (pid : Nat) :
    v.isProxyFor key pid =
      if pid = pid0 then decide ((p0.busConnectionName, p0.busName) = key)
      else w.isProxyFor key pid := by
  unfold isProxyFor
  rw [h]
  by_cases e : pid = pid0
  · subst e
    simp [QMap.value?_insert_self]
  · simp [QMap.value?_insert_of_ne _ e, e]

theorem isProxyFor_remove {w v : World} {pid0 : Nat}
    (h : v.proxies = w.proxies.remove pid0) (key : String × String) (pid : Nat) :
    v.isProxyFor key pid = if pid = pid0 then false else w.isProxyFor key pid := by
  unfold isProxyFor
  rw [h]
  by_cases e : pid = pid0
  · subst e
    simp [QMap.value?_remove_self]
  · simp [QMap.value?_remove_of_ne _ e, e]

theorem isProxyFor_of_value? {w : World} {pid : Nat} {p : Proxy}
    (h : w.proxies.value? pid = some p) (key : String × String) :
    w.isProxyFor key pid = decide ((p.busConnectionName, p.busName) = key) := by
  simp [isProxyFor, h]

theorem isProxyFor_of_fresh {w : World} (hf : ∀ pid p, w.proxies.value? pid = some p →
    pid < w.nextProxy) (key : String × String) {pid : Nat} (h : w.nextProxy ≤ pid) :
    w.isProxyFor key pid = false := by
  unfold isProxyFor
  cases hv : w.proxies.value? pid with
  | none => rfl
  | some p => exact absurd (hf pid p hv) (by omega)

theorem liveProxies_insert_fresh {w v : World} {p0 : Proxy}
    (h : v.proxies = w.proxies.insert w.nextProxy p0) (hn : v.nextProxy = w.nextProxy + 1)
    (key : String × String) :
    v.liveProxies key =
      w.liveProxies key + (if (p0.busConnectionName, p0.busName) = key then 1 else 0) := by
  unfold liveProxies
  rw [hn, countP_range_succ]
  have e1 : (List.range w.nextProxy).countP (v.isProxyFor key) =
      (List.range w.nextProxy).countP (w.isProxyFor key) := by
    apply countP_range_congr
    intro i hi
    rw [isProxyFor_insert h]
    simp [Nat.ne_of_lt hi]
  rw [e1, isProxyFor_insert h]
  simp

theorem liveProxies_update {w v : World} {pid : Nat} {p p1 : Proxy}
    (hv : w.proxies.value? pid = some p) (h : v.proxies = w.proxies.insert pid p1)
    (hc : p1.busConnectionName = p.busConnectionName) (hs : p1.busName = p.busName)
    (hn : v.nextProxy = w.nextProxy) (key : String × String) :
    v.liveProxies key = w.liveProxies key := by
  unfold liveProxies
  rw [hn]
  apply countP_range_congr
  intro i _
  rw [isProxyFor_insert h]
  by_cases e : i = pid
  · subst e
    simp [isProxyFor_of_value? hv, hc, hs]
  · simp [e]

theorem liveProxies_remove {w v : World} {pid : Nat} {p : Proxy}
    (hf : ∀ pid p, w.proxies.value? pid = some p → pid < w.nextProxy)
    (hv : w.proxies.value? pid = some p) (h : v.proxies = w.proxies.remove pid)
    (hn : v.nextProxy = w.nextProxy) (key : String × String) :
    w.liveProxies key =
      v.liveProxies key + (if (p.busConnectionName, p.busName) = key then 1 else 0) := by
  unfold liveProxies
  rw [hn]
  by_cases hk : (p.busConnectionName, p.busName) = key
  · rw [if_pos hk]
    apply countP_range_remove (hf pid p hv)
    · simp [isProxyFor_of_value? hv, hk]
    · rw [isProxyFor_remove h]; simp
    · intro j hj
      rw [isProxyFor_remove h]; simp [hj]
  · rw [if_neg hk, Nat.add_zero]
    apply countP_range_congr
    intro i _
    rw [isProxyFor_remove h]
    by_cases e : i = pid
    · subst e
      simp [isProxyFor_of_value? hv, hk]
    · simp [e]

end World

/-! ## Consistency of the registry -/

theorem refcount_step (ctx : HandleContext) (op : Op) :
    (step ctx op).ctx.refcount = ctx.refcount := by
  cases op with
  | refHandle t x => exact refcount_refHandle ctx t x
  | unrefHandle t x => exact refcount_unrefHandle ctx t x
  | requestHandles t names => rfl
  | handleRequestLanded t => exact refcount_handleRequestLanded ctx t
  | doReleaseSweep t => exact refcount_doReleaseSweep ctx t

namespace World

theorem init_eq (w : World) (c s : String) :
    w.init c s =
      match w.handleContexts.value? (c, s) with
      | none =>
        some
          { heap := (w.heap.insert w.nextAddress HandleContext.new).insert w.nextAddress ⟨1, []⟩
            nextAddress := w.nextAddress + 1
            handleContexts := w.handleContexts.insert (c, s) w.nextAddress
            proxies := w.proxies.insert w.nextProxy ⟨c, s, w.nextAddress, []⟩
            nextProxy := w.nextProxy + 1
            released := w.released }
      | some a =>
        match w.heap.value? a with
        | none => none
        | some ctx =>
          if ctx.refcount = intMax then none
          else
            some
              { w with
                heap := w.heap.insert a { ctx with refcount := ctx.refcount + 1 }
                proxies := w.proxies.insert w.nextProxy ⟨c, s, a, []⟩
                nextProxy := w.nextProxy + 1 } := by
  cases hk : w.handleContexts.value? (c, s) with
  | none =>
    simp only [init, hk, QMap.value?_insert_self]
    simp [HandleContext.new, intMax]
  | some a =>
    simp only [init, hk]

theorem liveProxies_congr {w w1 : World} (hp : w1.proxies = w.proxies)
    (hn : w1.nextProxy = w.nextProxy) (key : String × String) :
    w1.liveProxies key = w.liveProxies key := by
  unfold liveProxies isProxyFor
  rw [hp, hn]

theorem liveProxies_eq_zero {w : World} (hinv : w.Inv) {key : String × String}
    (hk : w.handleContexts.value? key = none) : w.liveProxies key = 0 := by
  unfold liveProxies
  rw [List.countP_eq_zero]
  intro pid _
  unfold isProxyFor
  cases hv : w.proxies.value? pid with
  | none => simp
  | some p =>
    have h1 := hinv.pointers pid p hv
    have hne : ¬ (p.busConnectionName, p.busName) = key := by
      intro e
      rw [e, hk] at h1
      exact Option.noConfusion h1
    simp [hne]

theorem inv_empty : empty.Inv where
  registered := by intro key a h; simp [empty, QMap.value?] at h
  pointers := by intro pid p h; simp [empty, QMap.value?] at h
  injective := by intro k1 k2 a h; simp [empty, QMap.value?] at h
  owned := by intro a ctx h; simp [empty, QMap.value?] at h
  fresh := by intro pid p h; simp [empty, QMap.value?] at h

theorem inv_init_absent {w : World} (hinv : w.Inv) (c s : String)
    (hk : w.handleContexts.value? (c, s) = none) :
    Inv
      { heap := (w.heap.insert w.nextAddress HandleContext.new).insert w.nextAddress ⟨1, []⟩
        nextAddress := w.nextAddress + 1
        handleContexts := w.handleContexts.insert (c, s) w.nextAddress
        proxies := w.proxies.insert w.nextProxy ⟨c, s, w.nextAddress, []⟩
        nextProxy := w.nextProxy + 1
        released := w.released } where
  registered := by
    intro key a h
    simp only at h ⊢
    by_cases e : key = (c, s)
    · subst e
      rw [QMap.value?_insert_self] at h
      injection h with h
      subst h
      refine ⟨⟨1, []⟩, QMap.value?_insert_self _ _ _, ?_, le_refl _⟩
      rw [liveProxies_insert_fresh (w := w) rfl rfl, liveProxies_eq_zero hinv hk]
      simp
    · rw [QMap.value?_insert_of_ne _ e] at h
      obtain ⟨ctx, h1, h2, h3⟩ := hinv.registered key a h
      have hlt := (hinv.owned a ctx h1).1
      have hne : a ≠ w.nextAddress := Nat.ne_of_lt hlt
      refine ⟨ctx, ?_, ?_, h3⟩
      · rw [QMap.value?_insert_of_ne _ hne, QMap.value?_insert_of_ne _ hne]
        exact h1
      · rw [liveProxies_insert_fresh (w := w) rfl rfl, h2]
        have e2 : ¬ (c, s) = key := fun x => e x.symm
        simp [e2]
  pointers := by
    intro pid p h
    simp only at h ⊢
    by_cases e : pid = w.nextProxy
    · subst e
      rw [QMap.value?_insert_self] at h
      injection h with h
      subst h
      exact QMap.value?_insert_self _ _ _
    · rw [QMap.value?_insert_of_ne _ e] at h
      have h1 := hinv.pointers pid p h
      have hne : (p.busConnectionName, p.busName) ≠ (c, s) := by
        intro x
        rw [x, hk] at h1
        exact Option.noConfusion h1
      rw [QMap.value?_insert_of_ne _ hne]
      exact h1
  injective := by
    intro k1 k2 a h1 h2
    simp only at h1 h2
    have key : ∀ k, k ≠ (c, s) → w.handleContexts.value? k = some a → a ≠ w.nextAddress := by
      intro k _ hv
      obtain ⟨ctx, hc, _, _⟩ := hinv.registered k a hv
      exact Nat.ne_of_lt (hinv.owned a ctx hc).1
    by_cases e1 : k1 = (c, s)
    · by_cases e2 : k2 = (c, s)
      · rw [e1, e2]
      · subst e1
        rw [QMap.value?_insert_self] at h1
        rw [QMap.value?_insert_of_ne _ e2] at h2
        injection h1 with h1
        exact absurd h1.symm (key k2 e2 h2)
    · by_cases e2 : k2 = (c, s)
      · subst e2
        rw [QMap.value?_insert_self] at h2
        rw [QMap.value?_insert_of_ne _ e1] at h1
        injection h2 with h2
        exact absurd h2.symm (key k1 e1 h1)
      · rw [QMap.value?_insert_of_ne _ e1] at h1
        rw [QMap.value?_insert_of_ne _ e2] at h2
        exact hinv.injective k1 k2 a h1 h2
  owned := by
    intro a ctx h
    simp only at h ⊢
    by_cases e : a = w.nextAddress
    · subst e
      exact ⟨Nat.lt_succ_self _, (c, s), QMap.value?_insert_self _ _ _⟩
    · rw [QMap.value?_insert_of_ne _ e, QMap.value?_insert_of_ne _ e] at h
      obtain ⟨h1, k, h2⟩ := hinv.owned a ctx h
      refine ⟨Nat.lt_succ_of_lt h1, k, ?_⟩
      have hne : k ≠ (c, s) := by
        intro x
        rw [x, hk] at h2
        exact Option.noConfusion h2
      rw [QMap.value?_insert_of_ne _ hne]
      exact h2
  fresh := by
    intro pid p h
    simp only at h ⊢
    by_cases e : pid = w.nextProxy
    · subst e
      exact Nat.lt_succ_self _
    · rw [QMap.value?_insert_of_ne _ e] at h
      exact Nat.lt_succ_of_lt (hinv.fresh pid p h)

theorem inv_init_present {w : World} (hinv : w.Inv) (c s : String) {a : Nat}
    {ctx : HandleContext} (hk : w.handleContexts.value? (c, s) = some a)
    (hc : w.heap.value? a = some ctx) :
    Inv
      { w with
        heap := w.heap.insert a { ctx with refcount := ctx.refcount + 1 }
        proxies := w.proxies.insert w.nextProxy ⟨c, s, a, []⟩
        nextProxy := w.nextProxy + 1 } where
  registered := by
    intro key b h
    simp only at h ⊢
    obtain ⟨ctx1, h1, h2, h3⟩ := hinv.registered key b h
    by_cases e : key = (c, s)
    · subst e
      rw [hk] at h
      injection h with h
      subst h
      rw [hc] at h1
      injection h1 with h1
      subst h1
      refine ⟨_, QMap.value?_insert_self _ _ _, ?_, ?_⟩
      · rw [liveProxies_insert_fresh (w := w) rfl rfl]
        simp only [h2, if_true]
        push_cast
        rfl
      · simp only
        omega
    · have hne : b ≠ a := by
        intro x
        subst x
        exact e (hinv.injective key (c, s) b h hk)
      refine ⟨ctx1, ?_, ?_, h3⟩
      · rw [QMap.value?_insert_of_ne _ hne]
        exact h1
      · rw [liveProxies_insert_fresh (w := w) rfl rfl, h2]
        have e2 : ¬ (c, s) = key := fun x => e x.symm
        simp [e2]
  pointers := by
    intro pid p h
    simp only at h ⊢
    by_cases e : pid = w.nextProxy
    · subst e
      rw [QMap.value?_insert_self] at h
      injection h with h
      subst h
      exact hk
    · rw [QMap.value?_insert_of_ne _ e] at h
      exact hinv.pointers pid p h
  injective := hinv.injective
  owned := by
    intro b ctx1 h
    simp only at h ⊢
    by_cases e : b = a
    · subst e
      exact hinv.owned b ctx hc
    · rw [QMap.value?_insert_of_ne _ e] at h
      exact hinv.owned b ctx1 h
  fresh := by
    intro pid p h
    simp only at h ⊢
    by_cases e : pid = w.nextProxy
    · subst e
      exact Nat.lt_succ_self _
    · rw [QMap.value?_insert_of_ne _ e] at h
      exact Nat.lt_succ_of_lt (hinv.fresh pid p h)

theorem inv_init {w w1 : World} (hinv : w.Inv) (c s : String) (h : w.init c s = some w1) :
    w1.Inv := by
  rw [init_eq] at h
  cases hk : w.handleContexts.value? (c, s) with
  | none =>
    rw [hk] at h
    injection h with h
    subst h
    exact inv_init_absent hinv c s hk
  | some a =>
    rw [hk] at h
    simp only at h
    cases hc : w.heap.value? a with
    | none =>
      rw [hc] at h
      exact Option.noConfusion h
    | some ctx =>
      rw [hc] at h
      simp only at h
      split at h
      · exact Option.noConfusion h
      · injection h with h
        subst h
        exact inv_init_present hinv c s hk hc

end World

namespace World

theorem registered_of_proxy {w : World} (hinv : w.Inv) {pid : Nat} {p : Proxy}
    {ctx : HandleContext} (hv : w.proxies.value? pid = some p)
    (hc : w.heap.value? p.handleContext = some ctx) :
    w.handleContexts.value? (p.busConnectionName, p.busName) = some p.handleContext ∧
    ctx.refcount = (w.liveProxies (p.busConnectionName, p.busName) : Int) ∧
    1 ≤ ctx.refcount := by
  have h1 := hinv.pointers pid p hv
  obtain ⟨ctx1, h2, h3, h4⟩ := hinv.registered _ _ h1
  rw [hc] at h2
  injection h2 with h2
  subst h2
  exact ⟨h1, h3, h4⟩

theorem inv_destroy_last {w : World} (hinv : w.Inv) {pid : Nat} {p : Proxy}
    {ctx : HandleContext} (hv : w.proxies.value? pid = some p)
    (hc : w.heap.value? p.handleContext = some ctx) (hz : ctx.refcount - 1 = 0)
    (released : List (Nat × Nat × List Nat)) :
    Inv
      { w with
        released := released
        handleContexts := w.handleContexts.remove (p.busConnectionName, p.busName)
        heap := w.heap.remove p.handleContext
        proxies := w.proxies.remove pid } where
  registered := by
    intro key a h
    simp only at h ⊢
    obtain ⟨hreg, hcount, _⟩ := registered_of_proxy hinv hv hc
    have e : key ≠ (p.busConnectionName, p.busName) := by
      intro x
      rw [x, QMap.value?_remove_self] at h
      exact Option.noConfusion h
    rw [QMap.value?_remove_of_ne _ e] at h
    obtain ⟨ctx1, h1, h2, h3⟩ := hinv.registered key a h
    have hne : a ≠ p.handleContext := by
      intro x
      subst x
      exact e (hinv.injective _ _ _ h hreg)
    refine ⟨ctx1, ?_, ?_, h3⟩
    · rw [QMap.value?_remove_of_ne _ hne]
      exact h1
    · have hlive := liveProxies_remove (w := w)
        (v := { w with
          released := released
          handleContexts := w.handleContexts.remove (p.busConnectionName, p.busName)
          heap := w.heap.remove p.handleContext
          proxies := w.proxies.remove pid }) hinv.fresh hv rfl rfl key
      have e2 : ¬ (p.busConnectionName, p.busName) = key := fun x => e x.symm
      rw [if_neg e2, Nat.add_zero] at hlive
      rw [h2, hlive]
  pointers := by
    intro pid1 p1 h
    simp only at h ⊢
    obtain ⟨_, hcount, _⟩ := registered_of_proxy hinv hv hc
    have e : pid1 ≠ pid := by
      intro x
      rw [x, QMap.value?_remove_self] at h
      exact Option.noConfusion h
    rw [QMap.value?_remove_of_ne _ e] at h
    have h1 := hinv.pointers pid1 p1 h
    have hne : (p1.busConnectionName, p1.busName) ≠ (p.busConnectionName, p.busName) := by
      intro x
      have h2 : 2 ≤ w.liveProxies (p.busConnectionName, p.busName) :=
        countP_range_two (hinv.fresh pid1 p1 h) (hinv.fresh pid p hv) e
          (by simp [isProxyFor_of_value? h, x]) (by simp [isProxyFor_of_value? hv])
      omega
    rw [QMap.value?_remove_of_ne _ hne]
    exact h1
  injective := by
    intro k1 k2 a h1 h2
    simp only at h1 h2
    have e1 : k1 ≠ (p.busConnectionName, p.busName) := by
      intro x
      rw [x, QMap.value?_remove_self] at h1
      exact Option.noConfusion h1
    have e2 : k2 ≠ (p.busConnectionName, p.busName) := by
      intro x
      rw [x, QMap.value?_remove_self] at h2
      exact Option.noConfusion h2
    rw [QMap.value?_remove_of_ne _ e1] at h1
    rw [QMap.value?_remove_of_ne _ e2] at h2
    exact hinv.injective k1 k2 a h1 h2
  owned := by
    intro a ctx1 h
    simp only at h ⊢
    obtain ⟨hreg, _, _⟩ := registered_of_proxy hinv hv hc
    have e : a ≠ p.handleContext := by
      intro x
      rw [x, QMap.value?_remove_self] at h
      exact Option.noConfusion h
    rw [QMap.value?_remove_of_ne _ e] at h
    obtain ⟨h1, k, h2⟩ := hinv.owned a ctx1 h
    refine ⟨h1, k, ?_⟩
    have hne : k ≠ (p.busConnectionName, p.busName) := by
      intro x
      rw [x, hreg] at h2
      injection h2 with h2
      exact e h2.symm
    rw [QMap.value?_remove_of_ne _ hne]
    exact h2
  fresh := by
    intro pid1 p1 h
    simp only at h ⊢
    have e : pid1 ≠ pid := by
      intro x
      rw [x, QMap.value?_remove_self] at h
      exact Option.noConfusion h
    rw [QMap.value?_remove_of_ne _ e] at h
    exact hinv.fresh pid1 p1 h

theorem inv_destroy_more {w : World} (hinv : w.Inv) {pid : Nat} {p : Proxy}
    {ctx : HandleContext} (hv : w.proxies.value? pid = some p)
    (hc : w.heap.value? p.handleContext = some ctx) (hz : ¬ ctx.refcount - 1 = 0) :
    Inv
      { w with
        heap := w.heap.insert p.handleContext { ctx with refcount := ctx.refcount - 1 }
        proxies := w.proxies.remove pid } where
  registered := by
    intro key a h
    simp only at h ⊢
    obtain ⟨hreg, hcount, hpos⟩ := registered_of_proxy hinv hv hc
    obtain ⟨ctx1, h1, h2, h3⟩ := hinv.registered key a h
    have hlive := liveProxies_remove (w := w)
      (v := { w with
        heap := w.heap.insert p.handleContext { ctx with refcount := ctx.refcount - 1 }
        proxies := w.proxies.remove pid }) hinv.fresh hv rfl rfl key
    by_cases e : key = (p.busConnectionName, p.busName)
    · subst e
      rw [hreg] at h
      injection h with h
      subst h
      refine ⟨_, QMap.value?_insert_self _ _ _, ?_, ?_⟩
      · rw [if_pos rfl] at hlive
        simp only
        omega
      · rw [if_pos rfl] at hlive
        simp only
        omega
    · have hne : a ≠ p.handleContext := by
        intro x
        subst x
        exact e (hinv.injective _ _ _ h hreg)
      refine ⟨ctx1, ?_, ?_, h3⟩
      · rw [QMap.value?_insert_of_ne _ hne]
        exact h1
      · have e2 : ¬ (p.busConnectionName, p.busName) = key := fun x => e x.symm
        rw [if_neg e2, Nat.add_zero] at hlive
        rw [h2, hlive]
  pointers := by
    intro pid1 p1 h
    simp only at h ⊢
    have e : pid1 ≠ pid := by
      intro x
      rw [x, QMap.value?_remove_self] at h
      exact Option.noConfusion h
    rw [QMap.value?_remove_of_ne _ e] at h
    exact hinv.pointers pid1 p1 h
  injective := hinv.injective
  owned := by
    intro a ctx1 h
    simp only at h ⊢
    by_cases e : a = p.handleContext
    · subst e
      exact hinv.owned _ ctx hc
    · rw [QMap.value?_insert_of_ne _ e] at h
      exact hinv.owned a ctx1 h
  fresh := by
    intro pid1 p1 h
    simp only at h ⊢
    have e : pid1 ≠ pid := by
      intro x
      rw [x, QMap.value?_remove_self] at h
      exact Option.noConfusion h
    rw [QMap.value?_remove_of_ne _ e] at h
    exact hinv.fresh pid1 p1 h

theorem inv_destroy {w w1 : World} (hinv : w.Inv) (pid : Nat) (h : w.destroy pid = some w1) :
    w1.Inv := by
  unfold destroy at h
  cases hv : w.proxies.value? pid with
  | none =>
    rw [hv] at h
    exact Option.noConfusion h
  | some p =>
    rw [hv] at h
    simp only at h
    cases hc : w.heap.value? p.handleContext with
    | none =>
      rw [hc] at h
      exact Option.noConfusion h
    | some ctx =>
      rw [hc] at h
      simp only at h
      split at h
      · exact Option.noConfusion h
      · split at h
        · rename_i hz
          injection h with h
          subst h
          exact inv_destroy_last hinv hv hc hz _
        · rename_i hz
          injection h with h
          subst h
          exact inv_destroy_more hinv hv hc hz

theorem inv_update {w : World} (hinv : w.Inv) {pid : Nat} {p : Proxy} {ctx ctx1 : HandleContext}
    (hv : w.proxies.value? pid = some p) (hc : w.heap.value? p.handleContext = some ctx)
    (hr : ctx1.refcount = ctx.refcount) (queued : List Nat)
    (released : List (Nat × Nat × List Nat)) :
    Inv
      { w with
        heap := w.heap.insert p.handleContext ctx1
        proxies := w.proxies.insert pid { p with queued := queued }
        released := released } where
  registered := by
    intro key a h
    simp only at h ⊢
    obtain ⟨ctx2, h1, h2, h3⟩ := hinv.registered key a h
    have hlive := liveProxies_update (w := w)
      (v := { w with
        heap := w.heap.insert p.handleContext ctx1
        proxies := w.proxies.insert pid { p with queued := queued }
        released := released }) hv rfl rfl rfl rfl key
    rw [hlive]
    by_cases e : a = p.handleContext
    · subst e
      rw [hc] at h1
      injection h1 with h1
      subst h1
      exact ⟨ctx1, QMap.value?_insert_self _ _ _, by rw [hr]; exact h2, by rw [hr]; exact h3⟩
    · exact ⟨ctx2, by rw [QMap.value?_insert_of_ne _ e]; exact h1, h2, h3⟩
  pointers := by
    intro pid1 p1 h
    simp only at h ⊢
    by_cases e : pid1 = pid
    · subst e
      rw [QMap.value?_insert_self] at h
      injection h with h
      subst h
      exact hinv.pointers pid1 p hv
    · rw [QMap.value?_insert_of_ne _ e] at h
      exact hinv.pointers pid1 p1 h
  injective := hinv.injective
  owned := by
    intro a ctx2 h
    simp only at h ⊢
    by_cases e : a = p.handleContext
    · subst e
      exact hinv.owned _ ctx hc
    · rw [QMap.value?_insert_of_ne _ e] at h
      exact hinv.owned a ctx2 h
  fresh := by
    intro pid1 p1 h
    simp only at h ⊢
    by_cases e : pid1 = pid
    · subst e
      exact hinv.fresh pid1 p hv
    · rw [QMap.value?_insert_of_ne _ e] at h
      exact hinv.fresh pid1 p1 h

theorem inv_call {w w1 : World} (hinv : w.Inv) (pid : Nat) (op : Op)
    (h : w.call pid op = some w1) : w1.Inv := by
  unfold call at h
  cases hv : w.proxies.value? pid with
  | none =>
    rw [hv] at h
    exact Option.noConfusion h
  | some p =>
    rw [hv] at h
    simp only at h
    cases hc : w.heap.value? p.handleContext with
    | none =>
      rw [hc] at h
      exact Option.noConfusion h
    | some ctx =>
      rw [hc] at h
      simp only at h
      injection h with h
      subst h
      exact inv_update hinv hv hc (refcount_step ctx op) _ _

theorem inv_requeue {w : World} (hinv : w.Inv) {pid : Nat} {p : Proxy}
    (hv : w.proxies.value? pid = some p) (queued : List Nat) :
    Inv { w with proxies := w.proxies.insert pid { p with queued := queued } } where
  registered := by
    intro key a h
    simp only at h ⊢
    obtain ⟨ctx2, h1, h2, h3⟩ := hinv.registered key a h
    have hlive := liveProxies_update (w := w)
      (v := { w with proxies := w.proxies.insert pid { p with queued := queued } })
      hv rfl rfl rfl rfl key
    rw [hlive]
    exact ⟨ctx2, h1, h2, h3⟩
  pointers := by
    intro pid1 p1 h
    simp only at h ⊢
    by_cases e : pid1 = pid
    · subst e
      rw [QMap.value?_insert_self] at h
      injection h with h
      subst h
      exact hinv.pointers pid1 p hv
    · rw [QMap.value?_insert_of_ne _ e] at h
      exact hinv.pointers pid1 p1 h
  injective := hinv.injective
  owned := hinv.owned
  fresh := by
    intro pid1 p1 h
    simp only at h ⊢
    by_cases e : pid1 = pid
    · subst e
      exact hinv.fresh pid1 p hv
    · rw [QMap.value?_insert_of_ne _ e] at h
      exact hinv.fresh pid1 p1 h

theorem inv_deliver {w w1 : World} (hinv : w.Inv) (pid : Nat) (h : w.deliver pid = some w1) :
    w1.Inv := by
  unfold deliver at h
  cases hv : w.proxies.value? pid with
  | none =>
    rw [hv] at h
    exact Option.noConfusion h
  | some p =>
    rw [hv] at h
    simp only at h
    cases hq : p.queued with
    | nil =>
      rw [hq] at h
      exact Option.noConfusion h
    | cons type rest =>
      rw [hq] at h
      simp only at h
      exact inv_call (inv_requeue hinv hv rest) pid _ h

theorem inv_step {w w1 : World} (hinv : w.Inv) (op : WorldOp) (h : w.step op = some w1) :
    w1.Inv := by
  cases op with
  | init c s => exact inv_init hinv c s h
  | destroy pid => exact inv_destroy hinv pid h
  | refHandle pid t x => exact inv_call hinv pid _ h
  | unrefHandle pid t x => exact inv_call hinv pid _ h
  | requestHandles pid t names => exact inv_call hinv pid _ h
  | handleRequestLanded pid t => exact inv_call hinv pid _ h
  | deliver pid => exact inv_deliver hinv pid h

theorem inv_run (ops : List WorldOp) :
    ∀ {w w1 : World}, w.Inv → w.run ops = some w1 → w1.Inv := by
  induction ops with
  | nil =>
    intro w w1 hinv h
    simp only [run] at h
    injection h with h
    subst h
    exact hinv
  | cons op ops ih =>
    intro w w1 hinv h
    simp only [run] at h
    cases hs : w.step op with
    | none =>
      rw [hs] at h
      exact Option.noConfusion h
    | some w2 =>
      rw [hs] at h
      exact ih (inv_step hinv op hs) h

theorem inv_of_reachable {w : World} (h : w.Reachable) : w.Inv := by
  obtain ⟨ops, hops⟩ := h
  exact inv_run ops inv_empty hops

end World

/-- C10: in every reachable state of the process, (1) each registered context
has a `refcount` equal to the number of live objects of its pair, and at least
1; (2) every live object points to the context registered for its pair, two
pairs never share a context and no context exists outside the registry;
(3) constructing an object for a pair not in the registry creates a fresh
context with `refcount` 1 and registers it; (4) constructing one for a pair
already registered leaves the registry as it is and increments the `refcount`
of the registered context (as long as the `int` does not overflow);
(5) destroying an object decrements the `refcount` of its context, and the
registry entry and the context are removed exactly when it reaches 0. -/
theorem registry_refcount_spec (w : World) (h : w.Reachable) :
    (∀ key a, w.handleContexts.value? key = some a →
      ∃ ctx, w.heap.value? a = some ctx ∧ ctx.refcount = (w.liveProxies key : Int) ∧
        1 ≤ ctx.refcount) ∧
    ((∀ pid p, w.proxies.value? pid = some p →
        w.handleContexts.value? (p.busConnectionName, p.busName) = some p.handleContext) ∧
      (∀ k1 k2 a, w.handleContexts.value? k1 = some a → w.handleContexts.value? k2 = some a →
        k1 = k2) ∧
      (∀ a ctx, w.heap.value? a = some ctx → ∃ key, w.handleContexts.value? key = some a)) ∧
    (∀ c s, w.handleContexts.value? (c, s) = none →
      ∃ w1 a, w.init c s = some w1 ∧ w.heap.value? a = none ∧
        w1.handleContexts.value? (c, s) = some a ∧
        w1.heap.value? a = some ⟨1, []⟩ ∧
        w1.proxies.value? w.nextProxy = some ⟨c, s, a, []⟩) ∧
    (∀ c s a, w.handleContexts.value? (c, s) = some a →
      ∃ ctx, w.heap.value? a = some ctx ∧
        (ctx.refcount ≠ intMax →
          ∃ w1, w.init c s = some w1 ∧ w1.handleContexts = w.handleContexts ∧
            w1.heap.value? a = some { ctx with refcount := ctx.refcount + 1 } ∧
            w1.proxies.value? w.nextProxy = some ⟨c, s, a, []⟩)) ∧
    (∀ pid p, w.proxies.value? pid = some p →
      ∃ ctx w1, w.heap.value? p.handleContext = some ctx ∧ w.destroy pid = some w1 ∧
        w1.proxies.value? pid = none ∧
        (ctx.refcount - 1 = 0 →
          w1.handleContexts.value? (p.busConnectionName, p.busName) = none ∧
          w1.heap.value? p.handleContext = none) ∧
        (ctx.refcount - 1 ≠ 0 →
          w1.handleContexts.value? (p.busConnectionName, p.busName) = some p.handleContext ∧
          w1.heap.value? p.handleContext =
            some { ctx with refcount := ctx.refcount - 1 })) := by
  have hinv := World.inv_of_reachable h
  refine ⟨hinv.registered, ⟨hinv.pointers, hinv.injective,
    fun a ctx hc => (hinv.owned a ctx hc).2⟩, ?_, ?_, ?_⟩
  · intro c s hk
    have hnone : w.heap.value? w.nextAddress = none := by
      cases hv : w.heap.value? w.nextAddress with
      | none => rfl
      | some ctx => exact absurd (hinv.owned _ ctx hv).1 (Nat.lt_irrefl _)
    have hi := World.init_eq w c s
    rw [hk] at hi
    refine ⟨_, w.nextAddress, hi, hnone, ?_, ?_, ?_⟩
    · exact QMap.value?_insert_self _ _ _
    · exact QMap.value?_insert_self _ _ _
    · exact QMap.value?_insert_self _ _ _
  · intro c s a hk
    obtain ⟨ctx, hc, _, _⟩ := hinv.registered _ _ hk
    refine ⟨ctx, hc, ?_⟩
    intro hmax
    have hi := World.init_eq w c s
    rw [hk] at hi
    simp only [hc, hmax, if_false] at hi
    refine ⟨_, hi, ?_, ?_, ?_⟩
    · rfl
    · exact QMap.value?_insert_self _ _ _
    · exact QMap.value?_insert_self _ _ _
  · intro pid p hv
    obtain ⟨ctx, hc, _, hpos⟩ := hinv.registered _ _ (hinv.pointers pid p hv)
    have hmin : ¬ ctx.refcount = intMin := by
      unfold intMin
      omega
    by_cases hz : ctx.refcount - 1 = 0
    · have hd : w.destroy pid = w.destroy pid := rfl
      conv_rhs at hd =>
        unfold World.destroy
        simp only [hv, hc, hmin, hz, if_true, if_false]
      refine ⟨ctx, _, hc, hd, ?_, ?_, ?_⟩
      · exact QMap.value?_remove_self _ _
      · intro _
        exact ⟨QMap.value?_remove_self _ _, QMap.value?_remove_self _ _⟩
      · intro hnz
        exact absurd hz hnz
    · have hd : w.destroy pid = w.destroy pid := rfl
      conv_rhs at hd =>
        unfold World.destroy
        simp only [hv, hc, hmin, hz, if_false]
      refine ⟨ctx, _, hc, hd, ?_, ?_, ?_⟩
      · exact QMap.value?_remove_self _ _
      · intro hz2
        exact absurd hz2 hz
      · intro _
        exact ⟨hinv.pointers pid p hv, QMap.value?_insert_self _ _ _⟩

/-- C10, at the state reached by constructing two objects for one pair and a
third for another pair, then destroying the first. -/
theorem registry_refcount_spec_witness :
    World.run World.empty
      [WorldOp.init ":1.5" "org.cm", WorldOp.init ":1.5" "org.cm",
        WorldOp.init ":1.5" "org.other", WorldOp.destroy 0] =
      some
        { heap := [(1, ⟨1, []⟩), (2, ⟨1, []⟩)]
          nextAddress := 3
          handleContexts := [((":1.5", "org.cm"), 1), ((":1.5", "org.other"), 2)]
          proxies := [(1, ⟨":1.5", "org.cm", 1, []⟩), (2, ⟨":1.5", "org.other", 2, []⟩)]
          nextProxy := 3
          released := [] } ∧
    ∃ ctx : HandleContext,
      QMap.value? [(1, (⟨1, []⟩ : HandleContext)), (2, ⟨1, []⟩)] 1 = some ctx ∧
      ctx.refcount =
        ((World.mk [(1, ⟨1, []⟩), (2, ⟨1, []⟩)] 3
          [((":1.5", "org.cm"), 1), ((":1.5", "org.other"), 2)]
          [(1, ⟨":1.5", "org.cm", 1, []⟩), (2, ⟨":1.5", "org.other", 2, []⟩)] 3
          []).liveProxies (":1.5", "org.cm") : Int) ∧
      1 ≤ ctx.refcount :=
  ⟨by decide,
    (registry_refcount_spec
      (World.mk [(1, ⟨1, []⟩), (2, ⟨1, []⟩)] 3
        [((":1.5", "org.cm"), 1), ((":1.5", "org.other"), 2)]
        [(1, ⟨":1.5", "org.cm", 1, []⟩), (2, ⟨":1.5", "org.other", 2, []⟩)] 3 [])
      ⟨[WorldOp.init ":1.5" "org.cm", WorldOp.init ":1.5" "org.cm",
        WorldOp.init ":1.5" "org.other", WorldOp.destroy 0], by decide⟩).1
      (":1.5", "org.cm") 1 (by decide)⟩

/-! ## Two objects sharing one context -/

/-- C4: two objects constructed for the same pair in a fresh process share
one handle context (one heap object, `refcount` 2, both pointing to it); after
each has called `refHandle` on handle 42 of a type the shared count is 2; an
`unrefHandle` from either object `p` leaves the count at 1, posts no sweep
and releases nothing; a second `unrefHandle`, from either object `q`, moves
the handle to `toRelease` and posts one sweep on `q`; delivering that sweep
issues exactly one `ReleaseHandles` call, for exactly handle 42, and empties
`toRelease`. -/
theorem shared_context_scenario (c s : String) (type : Nat) (p q : Fin 2) :
    World.run World.empty [WorldOp.init c s, WorldOp.init c s] =
      some ⟨[(1, ⟨2, []⟩)], 2, [((c, s), 1)],
        [(0, ⟨c, s, 1, []⟩), (1, ⟨c, s, 1, []⟩)], 2, []⟩ ∧
    World.run ⟨[(1, ⟨2, []⟩)], 2, [((c, s), 1)],
        [(0, ⟨c, s, 1, []⟩), (1, ⟨c, s, 1, []⟩)], 2, []⟩
        [WorldOp.refHandle 0 type 42, WorldOp.refHandle 1 type 42] =
      some ⟨[(1, ⟨2, [(type, ⟨[(42, 2)], [], 0, false⟩)]⟩)], 2, [((c, s), 1)],
        [(0, ⟨c, s, 1, []⟩), (1, ⟨c, s, 1, []⟩)], 2, []⟩ ∧
    World.step ⟨[(1, ⟨2, [(type, ⟨[(42, 2)], [], 0, false⟩)]⟩)], 2, [((c, s), 1)],
        [(0, ⟨c, s, 1, []⟩), (1, ⟨c, s, 1, []⟩)], 2, []⟩
        (WorldOp.unrefHandle p.val type 42) =
      some ⟨[(1, ⟨2, [(type, ⟨[(42, 1)], [], 0, false⟩)]⟩)], 2, [((c, s), 1)],
        [(0, ⟨c, s, 1, []⟩), (1, ⟨c, s, 1, []⟩)], 2, []⟩ ∧
    World.step ⟨[(1, ⟨2, [(type, ⟨[(42, 1)], [], 0, false⟩)]⟩)], 2, [((c, s), 1)],
        [(0, ⟨c, s, 1, []⟩), (1, ⟨c, s, 1, []⟩)], 2, []⟩
        (WorldOp.unrefHandle q.val type 42) =
      some ⟨[(1, ⟨2, [(type, ⟨[], [42], 0, true⟩)]⟩)], 2, [((c, s), 1)],
        [(0, ⟨c, s, 1, if q.val = 0 then [type] else []⟩),
          (1, ⟨c, s, 1, if q.val = 1 then [type] else []⟩)], 2, []⟩ ∧
    World.step ⟨[(1, ⟨2, [(type, ⟨[], [42], 0, true⟩)]⟩)], 2, [((c, s), 1)],
        [(0, ⟨c, s, 1, if q.val = 0 then [type] else []⟩),
          (1, ⟨c, s, 1, if q.val = 1 then [type] else []⟩)], 2, []⟩
        (WorldOp.deliver q.val) =
      some ⟨[(1, ⟨2, [(type, ⟨[], [], 0, false⟩)]⟩)], 2, [((c, s), 1)],
        [(0, ⟨c, s, 1, []⟩), (1, ⟨c, s, 1, []⟩)], 2, [(q.val, type, [42])]⟩ := by
  have hcmp : ¬ compare (1 : Nat) 0 = Ordering.lt := by decide
  fin_cases p <;> fin_cases q <;>
    simp [hcmp, World.run, World.step, World.init, World.empty, World.call, World.deliver, step,
      refHandle, unrefHandle, doReleaseSweep, QMap.value?, QMap.value, QMap.insert,
      QMap.contains, QMap.remove, QSet.contains, QSet.insert, QSet.remove, QSet.toList,
      HandleContext.new, HandleContext.typeAt, HandleContext.setType, uintInc, uintDec,
      uintMod, intMax, default]

/-! ## The final release at teardown -/

theorem QMap.mem_keys_iff {κ β : Type} [DecidableEq κ] (m : QMap κ β) (k : κ) :
    k ∈ QMap.keys m ↔ QMap.contains m k = true := by
  induction m with
  | nil => simp [QMap.keys, QMap.contains, QMap.value?]
  | cons e r ih =>
    obtain ⟨k1, v1⟩ := e
    by_cases h : k1 = k
    · simp [QMap.keys, QMap.contains, QMap.value?, h]
    · have h2 : ¬ k = k1 := fun x => h x.symm
      have ih2 : k ∈ List.map Prod.fst r ↔ (QMap.value? r k).isSome = true := ih
      simp [QMap.keys, QMap.contains, QMap.value?, h, h2, ih2]

theorem typeAt_of_not_contains {ctx : HandleContext} {type : Nat}
    (h : ctx.types.contains type = false) : ctx.typeAt type = default := by
  unfold HandleContext.typeAt QMap.value
  unfold QMap.contains at h
  cases hv : QMap.value? ctx.types type with
  | none => rfl
  | some T =>
    rw [hv] at h
    exact Bool.noConfusion h

theorem mem_finalReleases (ctx : HandleContext) (c : Nat × List Nat) :
    c ∈ World.finalReleases ctx ↔
      ctx.types.contains c.1 = true ∧
        ((c.2 = (ctx.typeAt c.1).refcounts.keys ∧ (ctx.typeAt c.1).refcounts ≠ []) ∨
          (c.2 = (ctx.typeAt c.1).toRelease ∧ (ctx.typeAt c.1).toRelease ≠ [])) := by
  obtain ⟨t, hs⟩ := c
  unfold World.finalReleases
  simp only [List.mem_flatMap, QMap.mem_keys_iff, List.mem_append, QSet.toList]
  constructor
  · rintro ⟨a, ha, h1 | h1⟩
    · split at h1
      · rename_i hne
        simp only [List.mem_singleton, Prod.mk.injEq] at h1
        obtain ⟨e1, e2⟩ := h1
        subst e1
        refine ⟨ha, Or.inl ⟨e2, ?_⟩⟩
        intro x
        simp [x] at hne
      · exact absurd h1 (List.not_mem_nil _)
    · split at h1
      · rename_i hne
        simp only [List.mem_singleton, Prod.mk.injEq] at h1
        obtain ⟨e1, e2⟩ := h1
        subst e1
        refine ⟨ha, Or.inr ⟨e2, ?_⟩⟩
        intro x
        simp [x] at hne
      · exact absurd h1 (List.not_mem_nil _)
  · rintro ⟨ha, h1 | h1⟩
    · refine ⟨t, ha, Or.inl ?_⟩
      obtain ⟨e, hne⟩ := h1
      have hne2 : (ctx.typeAt t).refcounts.isEmpty = false := by
        cases hr : (ctx.typeAt t).refcounts with
        | nil => exact absurd hr hne
        | cons a l => rfl
      subst e
      simp [hne2]
    · refine ⟨t, ha, Or.inr ?_⟩
      obtain ⟨e, hne⟩ := h1
      have hne2 : (ctx.typeAt t).toRelease.isEmpty = false := by
        cases hr : (ctx.typeAt t).toRelease with
        | nil => exact absurd hr hne
        | cons a l => rfl
      subst e
      simp [hne2]

theorem finalReleases_covers_refcounts (ctx : HandleContext) (type handle : Nat)
    (h : (ctx.typeAt type).refcounts.contains handle = true) :
    ∃ c ∈ World.finalReleases ctx, c.1 = type ∧ handle ∈ c.2 := by
  have hc : ctx.types.contains type = true := by
    cases hx : ctx.types.contains type with
    | true => rfl
    | false =>
      rw [typeAt_of_not_contains hx] at h
      simp [default, QMap.contains, QMap.value?] at h
  refine ⟨(type, (ctx.typeAt type).refcounts.keys), ?_, rfl, (QMap.mem_keys_iff _ _).2 h⟩
  rw [mem_finalReleases]
  refine ⟨hc, Or.inl ⟨rfl, ?_⟩⟩
  intro x
  simp only at x
  rw [x] at h
  simp [QMap.contains, QMap.value?] at h

theorem finalReleases_covers_toRelease (ctx : HandleContext) (type handle : Nat)
    (h : handle ∈ (ctx.typeAt type).toRelease) :
    ∃ c ∈ World.finalReleases ctx, c.1 = type ∧ handle ∈ c.2 := by
  have hc : ctx.types.contains type = true := by
    cases hx : ctx.types.contains type with
    | true => rfl
    | false =>
      rw [typeAt_of_not_contains hx] at h
      simp [default] at h
  refine ⟨(type, (ctx.typeAt type).toRelease), ?_, rfl, h⟩
  rw [mem_finalReleases]
  refine ⟨hc, Or.inr ⟨rfl, ?_⟩⟩
  intro x
  simp only at x
  rw [x] at h
  exact absurd h (List.not_mem_nil _)

/-- C11: the claim fails where a context dies holding a referenced handle and
a handle waiting for release: the teardown issues two `ReleaseHandles` calls,
not one. -/
theorem teardown_issues_two_calls :
    World.run World.empty
      [WorldOp.init ":1.5" "org.cm", WorldOp.refHandle 0 1 7, WorldOp.refHandle 0 1 8,
        WorldOp.unrefHandle 0 1 8, WorldOp.destroy 0] =
      some ⟨[], 2, [], [], 1, [(0, 1, [7]), (0, 1, [8])]⟩ ∧
    [(0, 1, [7]), (0, 1, [8])].length ≠ 1 := by
  decide

/-! ## Status notifications and the Core bring-up -/

namespace Connection

theorem continueMainIntrospection_nil (p : Private) (h : p.introspectMainQueue = []) :
    p.continueMainIntrospection =
      if p.statusChangedWhileIntrospectingMain then
        { p with
          introspectingMain := false
          statusChangedWhileIntrospectingMain := false
          effects := p.effects ++
            [Effect.setIntrospectCompleted true none, Effect.setCurrentStatus p.pendingStatus] }
      else
        { p with
          introspectingMain := false
          effects := p.effects ++ [Effect.setIntrospectCompleted true none] } := by
  unfold Private.continueMainIntrospection
  rw [h]
  cases hf : p.statusChangedWhileIntrospectingMain <;>
    simp [Private.emit, hf, h]

theorem continueMainIntrospection_cons (p : Private) (f : IntrospectStep)
    (rest : List IntrospectStep) (h : p.introspectMainQueue = f :: rest) :
    p.continueMainIntrospection = Private.runStep { p with introspectMainQueue := rest } f := by
  unfold Private.continueMainIntrospection
  rw [h]

theorem runStep_eq (p : Private) (f : IntrospectStep) :
    ∃ c, Private.runStep p f = { p with effects := p.effects ++ [Effect.call c] } := by
  cases f <;> exact ⟨_, rfl⟩

theorem status_distinct :
    ConnectionStatusConnected ≠ ConnectionStatusConnecting ∧
    ConnectionStatusConnected ≠ ConnectionStatusDisconnected ∧
    ConnectionStatusConnecting ≠ ConnectionStatusDisconnected ∧
    StatusUnknown ≠ ConnectionStatusConnected ∧
    StatusUnknown ≠ ConnectionStatusConnecting ∧
    StatusUnknown ≠ ConnectionStatusDisconnected := by
  decide

theorem onStatusChanged_same (p : Private) (status reason : Nat)
    (h : p.pendingStatus = status) : onStatusChanged p status reason = p := by
  simp [onStatusChanged, h]

theorem onStatusChanged_running (p : Private) (status reason : Nat)
    (hs : status = ConnectionStatusConnected ∨ status = ConnectionStatusConnecting)
    (hne : p.pendingStatus ≠ status) (hi : p.introspectingMain = true) :
    onStatusChanged p status reason =
      { p with
        introspectMainQueue := []
        statusChangedWhileIntrospectingMain := true
        pendingStatus := status
        pendingStatusReason := reason } := by
  have h01 := status_distinct.1
  rcases hs with hs | hs <;> subst hs <;>
    simp [onStatusChanged, hne, hi, Private.setCurrentStatus, h01.symm]

theorem onStatusChanged_idle (p : Private) (status reason : Nat)
    (hs : status = ConnectionStatusConnected ∨ status = ConnectionStatusConnecting)
    (hne : p.pendingStatus ≠ status) (hi : p.introspectingMain = false) :
    onStatusChanged p status reason =
      { p with
        pendingStatus := status
        pendingStatusReason := reason
        effects := p.effects ++ [Effect.setCurrentStatus status] } := by
  have h01 := status_distinct.1
  rcases hs with hs | hs <;> subst hs <;>
    simp [onStatusChanged, hne, hi, Private.setCurrentStatus, Private.emit, h01.symm]

theorem onStatusChanged_disconnected (p : Private) (reason : Nat)
    (hne : p.pendingStatus ≠ ConnectionStatusDisconnected) :
    onStatusChanged p ConnectionStatusDisconnected reason =
      { p with
        statusChangedWhileIntrospectingMain :=
          p.statusChangedWhileIntrospectingMain || p.introspectingMain
        pendingStatus := ConnectionStatusDisconnected
        pendingStatusReason := reason
        status := StatusDisconnected
        statusReason := reason
        caps := []
        effects := p.effects ++
          [Effect.statusChanged StatusDisconnected reason,
            Effect.invalidate (statusReasonToErrorName reason p.pendingStatus)
              ("ConnectionStatusReason = " ++ toString reason)] } := by
  have h02 := status_distinct.2.1
  have h12 := status_distinct.2.2.1
  cases hi : p.introspectingMain <;>
    simp [onStatusChanged, hne, hi, h02.symm, h12.symm, onStatusReady,
      Private.invalidateResetCaps, Private.emit]

theorem onStatusChanged_other (p : Private) (status reason : Nat)
    (h0 : status ≠ ConnectionStatusConnected) (h1 : status ≠ ConnectionStatusConnecting)
    (h2 : status ≠ ConnectionStatusDisconnected) (hne : p.pendingStatus ≠ status) :
    onStatusChanged p status reason =
      { p with
        statusChangedWhileIntrospectingMain :=
          p.statusChangedWhileIntrospectingMain || p.introspectingMain
        pendingStatus := status
        pendingStatusReason := reason } := by
  cases hi : p.introspectingMain <;>
    simp [onStatusChanged, hne, hi, h0, h1, h2]

theorem quiet_refl (q : Private) : Quiet q q := ⟨rfl, rfl, [], by simp, by simp⟩

theorem quiet_emit {q r : Private} (h : Quiet q r) (e : Effect)
    (he : ∀ s, e ≠ Effect.setCurrentStatus s) : Quiet q (r.emit e) := by
  obtain ⟨h1, h2, pre, h3, h4⟩ := h
  refine ⟨h1, h2, pre ++ [e], ?_, ?_⟩
  · simp [Private.emit, h3]
  · intro s hs
    simp only [List.mem_append, List.mem_singleton] at hs
    rcases hs with hs | hs
    · exact h4 s hs
    · exact he s hs.symm

theorem quiet_ite {q a b : Private} (c : Prop) [Decidable c] (ha : Quiet q a) (hb : Quiet q b) :
    Quiet q (if c then a else b) := by
  split <;> assumption

theorem quiet_forceCurrentStatus {q r : Private} (h : Quiet q r) (v : Nat) :
    Quiet q (r.forceCurrentStatus v) := by
  unfold Private.forceCurrentStatus
  refine quiet_ite _ ?_ h
  exact quiet_emit (r := { r with pendingStatus := v }) h _ (by simp)

theorem quiet_setInterfaces {q r : Private} (h : Quiet q r) (v : List String) :
    Quiet q (r.setInterfaces v) := by
  unfold Private.setInterfaces
  exact quiet_emit (r := { r with interfaces := v }) h _ (by simp)

theorem quiet_setQueue {q r : Private} (h : Quiet q r) (x : List IntrospectStep) :
    Quiet q { r with introspectMainQueue := x } := h

theorem quiet_setSelfHandle {q r : Private} (h : Quiet q r) (x : Nat) :
    Quiet q { r with selfHandle := x } := h

theorem quiet_gotMainProperties (q : Private) (reply : Reply QVariantMap) :
    ∃ r, gotMainProperties q reply = r.continueMainIntrospection ∧ Quiet q r := by
  unfold gotMainProperties
  refine ⟨_, rfl, ?_⟩
  refine quiet_ite _ (quiet_setQueue ?_ _) ?_ <;>
  refine quiet_ite _ (quiet_setQueue ?_ _) ?_ <;>
  refine quiet_ite _ (quiet_setSelfHandle ?_ _) (quiet_setQueue ?_ _) <;>
  refine quiet_ite _ (quiet_setInterfaces ?_ _) (quiet_setQueue ?_ _) <;>
  refine quiet_ite _ (quiet_forceCurrentStatus ?_ _) (quiet_ite _ (quiet_setQueue ?_ _) ?_) <;>
  exact quiet_refl q

theorem quiet_continue {q r : Private} (h : Quiet q r) (hi : q.introspectingMain = true)
    (hf : q.statusChangedWhileIntrospectingMain = true) :
    (r.continueMainIntrospection.introspectingMain = true ∧
      r.continueMainIntrospection.statusChangedWhileIntrospectingMain = true ∧
      ∀ s, Effect.setCurrentStatus s ∈ r.continueMainIntrospection.effects →
        Effect.setCurrentStatus s ∈ q.effects) ∨
    (r.continueMainIntrospection.introspectingMain = false ∧
      r.continueMainIntrospection.statusChangedWhileIntrospectingMain = false ∧
      ∃ pre, r.continueMainIntrospection.effects =
        q.effects ++ pre ++
          [Effect.setIntrospectCompleted true none,
            Effect.setCurrentStatus r.continueMainIntrospection.pendingStatus]) := by
  obtain ⟨h1, h2, pre, h3, h4⟩ := h
  rw [hi] at h1
  rw [hf] at h2
  cases hq : r.introspectMainQueue with
  | nil =>
    right
    rw [continueMainIntrospection_nil r hq]
    simp only [h2, if_true]
    exact ⟨trivial, trivial, pre, by simp [h3]⟩
  | cons f rest =>
    left
    rw [continueMainIntrospection_cons r f rest hq]
    obtain ⟨c, hc⟩ := runStep_eq { r with introspectMainQueue := rest } f
    rw [hc]
    refine ⟨h1, h2, ?_⟩
    intro s hs
    simp only [h3, List.mem_append, List.mem_singleton] at hs
    rcases hs with (hs | hs) | hs
    · exact hs
    · exact absurd hs (h4 s)
    · simp at hs

theorem quiet_stay {q r : Private} (h : Quiet q r) (hi : q.introspectingMain = true)
    (hf : q.statusChangedWhileIntrospectingMain = true) :
    r.introspectingMain = true ∧ r.statusChangedWhileIntrospectingMain = true ∧
      ∀ s, Effect.setCurrentStatus s ∈ r.effects → Effect.setCurrentStatus s ∈ q.effects := by
  obtain ⟨h1, h2, pre, h3, h4⟩ := h
  refine ⟨h1.trans hi, h2.trans hf, ?_⟩
  intro s hs
  simp only [h3, List.mem_append] at hs
  rcases hs with hs | hs
  · exact hs
  · exact absurd hs (h4 s)

theorem quiet_onStatusChanged (q : Private) (status reason : Nat)
    (hi : q.introspectingMain = true) (hf : q.statusChangedWhileIntrospectingMain = true) :
    Quiet q (onStatusChanged q status reason) := by
  by_cases h0 : q.pendingStatus = status
  · rw [onStatusChanged_same q status reason h0]
    exact quiet_refl q
  · by_cases h1 : status = ConnectionStatusConnected ∨ status = ConnectionStatusConnecting
    · rw [onStatusChanged_running q status reason h1 h0 hi]
      exact ⟨rfl, hf.symm, [], by simp, by simp⟩
    · by_cases h2 : status = ConnectionStatusDisconnected
      · subst h2
        rw [onStatusChanged_disconnected q reason h0]
        refine ⟨rfl, ?_, _, rfl, ?_⟩
        · simp [hi, hf]
        · simp
      · rw [onStatusChanged_other q status reason (fun h => h1 (Or.inl h))
          (fun h => h1 (Or.inr h)) h2 h0]
        refine ⟨rfl, ?_, [], by simp, by simp⟩
        simp [hi, hf]

theorem handle_while_deferred (q : Private) (e : Event) (hi : q.introspectingMain = true)
    (hf : q.statusChangedWhileIntrospectingMain = true) :
    ((handle q e).introspectingMain = true ∧
      (handle q e).statusChangedWhileIntrospectingMain = true ∧
      ∀ s, Effect.setCurrentStatus s ∈ (handle q e).effects →
        Effect.setCurrentStatus s ∈ q.effects) ∨
    ((handle q e).introspectingMain = false ∧
      (handle q e).statusChangedWhileIntrospectingMain = false ∧
      ∃ pre, (handle q e).effects =
        q.effects ++ pre ++
          [Effect.setIntrospectCompleted true none,
            Effect.setCurrentStatus (handle q e).pendingStatus]) := by
  cases e with
  | introspectMain =>
    left
    exact quiet_stay (quiet_emit (r := { q with introspectingMain := true })
      ⟨hi.symm, rfl, [], by simp, by simp⟩ _ (by simp)) hi hf
  | gotMainProperties reply =>
    obtain ⟨r, hr, hq⟩ := quiet_gotMainProperties q reply
    simp only [handle, hr]
    exact quiet_continue hq hi hf
  | gotStatus reply =>
    cases reply with
    | value v => exact quiet_continue (quiet_forceCurrentStatus (quiet_refl q) v) hi hf
    | error name message =>
      left
      exact quiet_stay (quiet_emit (r := { q with caps := [] }) (quiet_refl q) _ (by simp)) hi hf
  | gotInterfaces reply =>
    cases reply with
    | value v => exact quiet_continue (quiet_setInterfaces (quiet_refl q) v) hi hf
    | error name message => exact quiet_continue (quiet_refl q) hi hf
  | gotSelfHandle reply =>
    cases reply with
    | value v => exact quiet_continue (r := { q with selfHandle := v }) (quiet_refl q) hi hf
    | error name message =>
      left
      exact quiet_stay (quiet_emit (quiet_refl q) _ (by simp)) hi hf
  | gotCapabilities reply =>
    cases reply with
    | value v => exact quiet_continue (r := { q with caps := v }) (quiet_refl q) hi hf
    | error name message => exact quiet_continue (quiet_refl q) hi hf
  | gotContactAttributeInterfaces reply =>
    cases reply with
    | value v =>
      exact quiet_continue (r := { q with contactAttributeInterfaces := v }) (quiet_refl q) hi hf
    | error name message => exact quiet_continue (quiet_refl q) hi hf
  | onStatusChanged status reason =>
    left
    exact quiet_stay (quiet_onStatusChanged q status reason hi hf) hi hf
  | onStatusReady status =>
    left
    exact quiet_stay (quiet_emit
      (r := { q with status := status, statusReason := q.pendingStatusReason })
      (quiet_refl q) _ (by simp)) hi hf

theorem gotMainProperties_without_status (interfaces : List String) (selfHandle : Nat) :
    gotMainProperties (Private.introspectMain Private.new)
        (Reply.value
          [("Interfaces", QVariant.stringList interfaces),
            ("SelfHandle", QVariant.uint selfHandle)]) =
      { introspectMainQueue :=
          (if TELEPATHY_INTERFACE_CONNECTION_INTERFACE_REQUESTS ∈ interfaces then
            [IntrospectStep.introspectCapabilities] else []) ++
          (if TELEPATHY_INTERFACE_CONNECTION_INTERFACE_CONTACTS ∈ interfaces then
            [IntrospectStep.introspectContactAttributeInterfaces] else [])
        introspectingMain := true
        statusChangedWhileIntrospectingMain := false
        pendingStatus := StatusUnknown
        pendingStatusReason := ConnectionStatusReasonNoneSpecified
        status := StatusUnknown
        statusReason := ConnectionStatusReasonNoneSpecified
        selfHandle := selfHandle
        caps := []
        contactAttributeInterfaces := []
        interfaces := interfaces
        effects :=
          [Effect.setCurrentStatus StatusUnknown, Effect.call RemoteCall.GetAll,
            Effect.setInterfaces interfaces, Effect.call RemoteCall.GetStatus] } := by
  have k1 : QMap.contains ([("Interfaces", QVariant.stringList interfaces),
      ("SelfHandle", QVariant.uint selfHandle)] : QVariantMap) "Status" = false := by
    simp [QMap.contains, QMap.value?]
  have k2 : QMap.contains ([("Interfaces", QVariant.stringList interfaces),
      ("SelfHandle", QVariant.uint selfHandle)] : QVariantMap) "Interfaces" = true := by
    simp [QMap.contains, QMap.value?]
  have k3 : QMap.contains ([("Interfaces", QVariant.stringList interfaces),
      ("SelfHandle", QVariant.uint selfHandle)] : QVariantMap) "SelfHandle" = true := by
    simp [QMap.contains, QMap.value?]
  have k4 : QMap.value ([("Interfaces", QVariant.stringList interfaces),
      ("SelfHandle", QVariant.uint selfHandle)] : QVariantMap) "Interfaces" =
      QVariant.stringList interfaces := by
    simp [QMap.value, QMap.value?]
  have k5 : QMap.value ([("Interfaces", QVariant.stringList interfaces),
      ("SelfHandle", QVariant.uint selfHandle)] : QVariantMap) "SelfHandle" =
      QVariant.uint selfHandle := by
    simp [QMap.value, QMap.value?]
  simp only [gotMainProperties, k1, k2, k3, k4, k5]
  by_cases h1 : TELEPATHY_INTERFACE_CONNECTION_INTERFACE_REQUESTS ∈ interfaces <;>
  by_cases h2 : TELEPATHY_INTERFACE_CONNECTION_INTERFACE_CONTACTS ∈ interfaces <;>
  simp [Private.new, Private.introspectMain, Private.introspectMainProperties, Private.emit,
    Private.setInterfaces, Private.continueMainIntrospection, Private.runStep, hasInterface,
    QVariant.toStringList, QVariant.toUInt, h1, h2]

theorem forceCurrentStatus_of_known (p : Private) (status : Nat)
    (h : p.pendingStatus ≠ StatusUnknown) : p.forceCurrentStatus status = p := by
  simp [Private.forceCurrentStatus, h]

/-- C12: `forceCurrentStatus` sets the pending status and informs the
readiness helper only while the pending status is still unknown, and changes
nothing otherwise. In the scenario (fresh object, bulk fetch without
`Status`, `StatusChanged(Connected)` during the bring-up, fallback fetch
returning Connecting) nothing is told to the helper when the notification
arrives; at the end the pending status is Connected, Core has been marked
complete and the helper has then been told Connected. -/
theorem forceCurrentStatus_spec (p : Private) (status reason selfHandle : Nat)
    (interfaces : List String) :
    (p.pendingStatus = StatusUnknown →
      p.forceCurrentStatus status =
        { p with
          pendingStatus := status
          effects := p.effects ++ [Effect.forceCurrentStatus status] }) ∧
    (p.pendingStatus ≠ StatusUnknown → p.forceCurrentStatus status = p) ∧
    (handleAll Private.new
        [Event.introspectMain,
          Event.gotMainProperties (Reply.value
            [("Interfaces", QVariant.stringList interfaces),
              ("SelfHandle", QVariant.uint selfHandle)])]).effects =
      [Effect.setCurrentStatus StatusUnknown, Effect.call RemoteCall.GetAll,
        Effect.setInterfaces interfaces, Effect.call RemoteCall.GetStatus] ∧
    (handleAll Private.new
        [Event.introspectMain,
          Event.gotMainProperties (Reply.value
            [("Interfaces", QVariant.stringList interfaces),
              ("SelfHandle", QVariant.uint selfHandle)]),
          Event.onStatusChanged StatusConnected reason]).effects =
      [Effect.setCurrentStatus StatusUnknown, Effect.call RemoteCall.GetAll,
        Effect.setInterfaces interfaces, Effect.call RemoteCall.GetStatus] ∧
    (handleAll Private.new
        [Event.introspectMain,
          Event.gotMainProperties (Reply.value
            [("Interfaces", QVariant.stringList interfaces),
              ("SelfHandle", QVariant.uint selfHandle)]),
          Event.onStatusChanged StatusConnected reason,
          Event.gotStatus (Reply.value StatusConnecting)]).effects =
      [Effect.setCurrentStatus StatusUnknown, Effect.call RemoteCall.GetAll,
        Effect.setInterfaces interfaces, Effect.call RemoteCall.GetStatus,
        Effect.setIntrospectCompleted true none, Effect.setCurrentStatus StatusConnected] ∧
    (handleAll Private.new
        [Event.introspectMain,
          Event.gotMainProperties (Reply.value
            [("Interfaces", QVariant.stringList interfaces),
              ("SelfHandle", QVariant.uint selfHandle)]),
          Event.onStatusChanged StatusConnected reason,
          Event.gotStatus (Reply.value StatusConnecting)]).pendingStatus = StatusConnected := by
  have s1 := gotMainProperties_without_status interfaces selfHandle
  have hu : StatusUnknown ≠ ConnectionStatusConnected := status_distinct.2.2.2.1
  refine ⟨?_, forceCurrentStatus_of_known p status, ?_, ?_, ?_, ?_⟩
  · intro h
    simp [Private.forceCurrentStatus, Private.emit, h]
  · simp only [handleAll, handle]
    rw [s1]
  · simp only [handleAll, handle]
    rw [s1, onStatusChanged_running _ StatusConnected _ (Or.inl rfl) hu rfl]
  · simp only [handleAll, handle]
    rw [s1, onStatusChanged_running _ StatusConnected _ (Or.inl rfl) hu rfl]
    simp only [gotStatus]
    rw [forceCurrentStatus_of_known _ _ (fun e => hu e.symm),
      continueMainIntrospection_nil _ rfl]
    simp
  · simp only [handleAll, handle]
    rw [s1, onStatusChanged_running _ StatusConnected _ (Or.inl rfl) hu rfl]
    simp only [gotStatus]
    rw [forceCurrentStatus_of_known _ _ (fun e => hu e.symm),
      continueMainIntrospection_nil _ rfl]
    simp

/-- C13: for a `StatusChanged` notification with status Connecting or
Connected that differs from the pending status. While the bring-up is running
the notification empties the introspection queue, records the new pending
status and sets the deferral flag without any effect on the readiness helper;
from then on every event either keeps the bring-up running with the flag set,
or is the one whose `continueMainIntrospection` ends the bring-up, and that
call marks Core complete and then, as its last effect, calls `setCurrentStatus`
with the pending status. While the bring-up is idle the notification calls
`setCurrentStatus` with the new status at once. -/
theorem statusChanged_deferred_while_introspecting (p : Private) (status reason : Nat)
    (hs : status = ConnectionStatusConnecting ∨ status = ConnectionStatusConnected)
    (hne : p.pendingStatus ≠ status) :
    (p.introspectingMain = true →
      (onStatusChanged p status reason).introspectMainQueue = [] ∧
      (onStatusChanged p status reason).effects = p.effects ∧
      (onStatusChanged p status reason).pendingStatus = status ∧
      (onStatusChanged p status reason).introspectingMain = true ∧
      (onStatusChanged p status reason).statusChangedWhileIntrospectingMain = true) ∧
    (∀ q : Private, q.introspectMainQueue = [] →
      q.statusChangedWhileIntrospectingMain = true →
      q.continueMainIntrospection.effects =
        q.effects ++
          [Effect.setIntrospectCompleted true none, Effect.setCurrentStatus q.pendingStatus] ∧
      q.continueMainIntrospection.introspectingMain = false ∧
      q.continueMainIntrospection.statusChangedWhileIntrospectingMain = false) ∧
    (∀ (q : Private) (e : Event), q.introspectingMain = true →
      q.statusChangedWhileIntrospectingMain = true →
      ((handle q e).introspectingMain = true ∧
        (handle q e).statusChangedWhileIntrospectingMain = true ∧
        ∀ s, Effect.setCurrentStatus s ∈ (handle q e).effects →
          Effect.setCurrentStatus s ∈ q.effects) ∨
      ((handle q e).introspectingMain = false ∧
        (handle q e).statusChangedWhileIntrospectingMain = false ∧
        ∃ pre, (handle q e).effects =
          q.effects ++ pre ++
            [Effect.setIntrospectCompleted true none,
              Effect.setCurrentStatus (handle q e).pendingStatus])) ∧
    (p.introspectingMain = false →
      (onStatusChanged p status reason).effects =
        p.effects ++ [Effect.setCurrentStatus status] ∧
      (onStatusChanged p status reason).pendingStatus = status) := by
  refine ⟨?_, ?_, handle_while_deferred, ?_⟩
  · intro hi
    rw [onStatusChanged_running p status reason hs.symm hne hi]
    exact ⟨rfl, rfl, rfl, hi, rfl⟩
  · intro q hq hf
    rw [continueMainIntrospection_nil q hq]
    simp [hf]
  · intro hi
    rw [onStatusChanged_idle p status reason hs.symm hne hi]
    exact ⟨rfl, rfl⟩

/-- C13, for a Connected notification right after `introspectMain` on a
fresh object. -/
theorem statusChanged_deferred_while_introspecting_witness :
    (Private.introspectMain Private.new).introspectingMain = true ∧
    (Private.introspectMain Private.new).pendingStatus ≠ ConnectionStatusConnected ∧
    (onStatusChanged (Private.introspectMain Private.new) ConnectionStatusConnected
      ConnectionStatusReasonRequested).introspectMainQueue = [] ∧
    (onStatusChanged (Private.introspectMain Private.new) ConnectionStatusConnected
      ConnectionStatusReasonRequested).effects = (Private.introspectMain Private.new).effects ∧
    (onStatusChanged (Private.introspectMain Private.new) ConnectionStatusConnected
      ConnectionStatusReasonRequested).pendingStatus = ConnectionStatusConnected ∧
    (onStatusChanged (Private.introspectMain Private.new) ConnectionStatusConnected
      ConnectionStatusReasonRequested).introspectingMain = true ∧
    (onStatusChanged (Private.introspectMain Private.new) ConnectionStatusConnected
      ConnectionStatusReasonRequested).statusChangedWhileIntrospectingMain = true :=
  ⟨rfl, by decide,
    (statusChanged_deferred_while_introspecting (Private.introspectMain Private.new)
      ConnectionStatusConnected ConnectionStatusReasonRequested (Or.inr rfl) (by decide)).1 rfl⟩

end Connection

namespace Connection

theorem gotMainProperties_without_selfHandle (status : Nat) :
    gotMainProperties (Private.introspectMain Private.new)
        (Reply.value
          [("Interfaces", QVariant.stringList []), ("Status", QVariant.uint status)]) =
      { introspectMainQueue := []
        introspectingMain := true
        statusChangedWhileIntrospectingMain := false
        pendingStatus := status
        pendingStatusReason := ConnectionStatusReasonNoneSpecified
        status := StatusUnknown
        statusReason := ConnectionStatusReasonNoneSpecified
        selfHandle := 0
        caps := []
        contactAttributeInterfaces := []
        interfaces := []
        effects :=
          [Effect.setCurrentStatus StatusUnknown, Effect.call RemoteCall.GetAll,
            Effect.forceCurrentStatus status, Effect.setInterfaces [],
            Effect.call RemoteCall.GetSelfHandle] } := by
  have k1 : QMap.contains ([("Interfaces", QVariant.stringList []),
      ("Status", QVariant.uint status)] : QVariantMap) "Status" = true := by
    simp [QMap.contains, QMap.value?]
  have k2 : QMap.contains ([("Interfaces", QVariant.stringList []),
      ("Status", QVariant.uint status)] : QVariantMap) "Interfaces" = true := by
    simp [QMap.contains, QMap.value?]
  have k3 : QMap.contains ([("Interfaces", QVariant.stringList []),
      ("Status", QVariant.uint status)] : QVariantMap) "SelfHandle" = false := by
    simp [QMap.contains, QMap.value?]
  have k4 : QMap.value ([("Interfaces", QVariant.stringList []),
      ("Status", QVariant.uint status)] : QVariantMap) "Interfaces" =
      QVariant.stringList [] := by
    simp [QMap.value, QMap.value?]
  have k5 : QMap.value ([("Interfaces", QVariant.stringList []),
      ("Status", QVariant.uint status)] : QVariantMap) "Status" = QVariant.uint status := by
    simp [QMap.value, QMap.value?]
  simp only [gotMainProperties, k1, k2, k3, k4, k5]
  simp [Private.new, Private.introspectMain, Private.introspectMainProperties, Private.emit,
    Private.setInterfaces, Private.continueMainIntrospection, Private.runStep, hasInterface,
    QVariant.toStringList, QVariant.toUInt, Private.forceCurrentStatus]

/-- C14: a trace on which a deferred status change is dropped. The bulk fetch
gives the status Connecting and the interface list but no self handle, so
`GetSelfHandle` is called; `StatusChanged(Connected)` arrives meanwhile and is
deferred; the `GetSelfHandle` reply is an error. No call is outstanding then,
but the bring-up is still marked as running, the readiness helper has not been
told Connected, and a later notification is again only recorded. -/
theorem deferred_status_dropped_on_selfHandle_error (name message : String)
    (reason reason1 : Nat) :
    (handleAll Private.new
        [Event.introspectMain,
          Event.gotMainProperties (Reply.value
            [("Interfaces", QVariant.stringList []),
              ("Status", QVariant.uint ConnectionStatusConnecting)]),
          Event.onStatusChanged ConnectionStatusConnected reason,
          Event.gotSelfHandle (Reply.error name message)]) =
      { introspectMainQueue := []
        introspectingMain := true
        statusChangedWhileIntrospectingMain := true
        pendingStatus := ConnectionStatusConnected
        pendingStatusReason := reason
        status := StatusUnknown
        statusReason := ConnectionStatusReasonNoneSpecified
        selfHandle := 0
        caps := []
        contactAttributeInterfaces := []
        interfaces := []
        effects :=
          [Effect.setCurrentStatus StatusUnknown, Effect.call RemoteCall.GetAll,
            Effect.forceCurrentStatus ConnectionStatusConnecting, Effect.setInterfaces [],
            Effect.call RemoteCall.GetSelfHandle,
            Effect.setIntrospectCompleted false (some (name, message))] } ∧
    (handleAll Private.new
        [Event.introspectMain,
          Event.gotMainProperties (Reply.value
            [("Interfaces", QVariant.stringList []),
              ("Status", QVariant.uint ConnectionStatusConnecting)]),
          Event.onStatusChanged ConnectionStatusConnected reason,
          Event.gotSelfHandle (Reply.error name message),
          Event.onStatusChanged ConnectionStatusConnecting reason1]).effects =
      [Effect.setCurrentStatus StatusUnknown, Effect.call RemoteCall.GetAll,
        Effect.forceCurrentStatus ConnectionStatusConnecting, Effect.setInterfaces [],
        Effect.call RemoteCall.GetSelfHandle,
        Effect.setIntrospectCompleted false (some (name, message))] := by
  have s1 := gotMainProperties_without_selfHandle ConnectionStatusConnecting
  have h01 := status_distinct.1
  constructor
  · simp only [handleAll, handle]
    rw [s1, onStatusChanged_running _ ConnectionStatusConnected _ (Or.inl rfl) h01.symm rfl]
    rfl
  · simp only [handleAll, handle]
    rw [s1, onStatusChanged_running _ ConnectionStatusConnected _ (Or.inl rfl) h01.symm rfl]
    simp only [gotSelfHandle, Private.emit]
    rw [onStatusChanged_running _ ConnectionStatusConnecting _ (Or.inr rfl) h01 rfl]
    rfl

end Connection

namespace Connection

/-- C16: a `StatusChanged(Disconnected, reason)` received while the pending
status is not Disconnected makes `status()` Disconnected and `statusReason()`
the reason, empties the capability cache, emits `statusChanged` and then
invalidates the connection with the error name
`statusReasonToErrorName(reason, previous pending status)`; that name is
ConnectionReplaced for NameInUse exactly when the previous status was
Connected, AlreadyConnected for NameInUse otherwise, and Disconnected for a
reason that is none of the fourteen known ones. -/
theorem statusChanged_disconnected_invalidates (p : Private) (reason : Nat)
    (hne : p.pendingStatus ≠ ConnectionStatusDisconnected) :
    (onStatusChanged p StatusDisconnected reason).status = StatusDisconnected ∧
    (onStatusChanged p StatusDisconnected reason).statusReason = reason ∧
    (onStatusChanged p StatusDisconnected reason).caps = [] ∧
    (onStatusChanged p StatusDisconnected reason).effects =
      p.effects ++
        [Effect.statusChanged StatusDisconnected reason,
          Effect.invalidate (statusReasonToErrorName reason p.pendingStatus)
            ("ConnectionStatusReason = " ++ toString reason)] ∧
    (statusReasonToErrorName ConnectionStatusReasonNameInUse p.pendingStatus =
        TELEPATHY_ERROR_CONNECTION_REPLACED ↔
      p.pendingStatus = ConnectionStatusConnected) ∧
    (p.pendingStatus ≠ ConnectionStatusConnected →
      statusReasonToErrorName ConnectionStatusReasonNameInUse p.pendingStatus =
        TELEPATHY_ERROR_ALREADY_CONNECTED) ∧
    (reason ∉
        [ConnectionStatusReasonNoneSpecified, ConnectionStatusReasonRequested,
          ConnectionStatusReasonNetworkError, ConnectionStatusReasonAuthenticationFailed,
          ConnectionStatusReasonEncryptionError, ConnectionStatusReasonNameInUse,
          ConnectionStatusReasonCertNotProvided, ConnectionStatusReasonCertUntrusted,
          ConnectionStatusReasonCertExpired, ConnectionStatusReasonCertNotActivated,
          ConnectionStatusReasonCertHostnameMismatch,
          ConnectionStatusReasonCertFingerprintMismatch, ConnectionStatusReasonCertSelfSigned,
          ConnectionStatusReasonCertOtherError] →
      statusReasonToErrorName reason p.pendingStatus = TELEPATHY_ERROR_DISCONNECTED) := by
  have e := onStatusChanged_disconnected p reason hne
  have hrepl : TELEPATHY_ERROR_ALREADY_CONNECTED ≠ TELEPATHY_ERROR_CONNECTION_REPLACED := by
    decide
  have hname : ∀ old, statusReasonToErrorName ConnectionStatusReasonNameInUse old =
      if old = ConnectionStatusConnected then TELEPATHY_ERROR_CONNECTION_REPLACED
      else TELEPATHY_ERROR_ALREADY_CONNECTED := by
    intro old
    unfold statusReasonToErrorName
    rw [if_neg (by decide), if_neg (by decide), if_neg (by decide), if_neg (by decide),
      if_neg (by decide), if_pos rfl]
  refine ⟨?_, ?_, ?_, ?_, ?_, ?_, ?_⟩
  · show (onStatusChanged p ConnectionStatusDisconnected reason).status = _
    rw [e]
  · show (onStatusChanged p ConnectionStatusDisconnected reason).statusReason = _
    rw [e]
  · show (onStatusChanged p ConnectionStatusDisconnected reason).caps = _
    rw [e]
  · show (onStatusChanged p ConnectionStatusDisconnected reason).effects = _
    rw [e]
  · rw [hname]
    by_cases h : p.pendingStatus = ConnectionStatusConnected
    · simp [h]
    · simp [h, hrepl]
  · intro h
    rw [hname, if_neg h]
  · intro h
    simp only [List.mem_cons, List.mem_singleton, List.not_mem_nil, not_or, or_false] at h
    obtain ⟨h0, h1, h2, h3, h4, h5, h6, h7, h8, h9, h10, h11, h12, h13⟩ := h
    unfold statusReasonToErrorName
    rw [if_neg h0, if_neg h1, if_neg h2, if_neg h3, if_neg h4, if_neg h5, if_neg h6, if_neg h7,
      if_neg h8, if_neg h9, if_neg h10, if_neg h11, if_neg h12, if_neg h13]

/-- C16, for a fresh object and the reason NameInUse. -/
theorem statusChanged_disconnected_invalidates_witness :
    (onStatusChanged Private.new StatusDisconnected ConnectionStatusReasonNameInUse).status =
      StatusDisconnected ∧
    Private.new.pendingStatus ≠ ConnectionStatusDisconnected ∧
    (onStatusChanged Private.new StatusDisconnected
      ConnectionStatusReasonNameInUse).statusReason = ConnectionStatusReasonNameInUse ∧
    (onStatusChanged Private.new StatusDisconnected ConnectionStatusReasonNameInUse).caps = [] ∧
    (onStatusChanged Private.new StatusDisconnected ConnectionStatusReasonNameInUse).effects =
      Private.new.effects ++
        [Effect.statusChanged StatusDisconnected ConnectionStatusReasonNameInUse,
          Effect.invalidate
            (statusReasonToErrorName ConnectionStatusReasonNameInUse Private.new.pendingStatus)
            ("ConnectionStatusReason = " ++ toString ConnectionStatusReasonNameInUse)] ∧
    statusReasonToErrorName ConnectionStatusReasonNameInUse Private.new.pendingStatus =
      TELEPATHY_ERROR_ALREADY_CONNECTED :=
  have h := statusChanged_disconnected_invalidates Private.new ConnectionStatusReasonNameInUse
    status_distinct.2.2.2.2.2
  ⟨h.1, status_distinct.2.2.2.2.2, h.2.1, h.2.2.1, h.2.2.2.1,
    h.2.2.2.2.2.1 status_distinct.2.2.2.1⟩

end Connection

namespace Connection

/-- C17: `createChannel` and `ensureChannel` return a failed result, for every
request map, with NotAvailable when the pending status is not Connected and
with NotImplemented when it is Connected but the interface list lacks the
Requests interface; the two differ only in the `create` flag of the request
they issue when no check fails. -/
theorem channel_request_status_checks (p : Private) (request : QVariantMap) :
    (p.pendingStatus ≠ StatusConnected →
      createChannel p request =
        Pending.failed TELEPATHY_ERROR_NOT_AVAILABLE "Connection not yet connected" ∧
      ensureChannel p request =
        Pending.failed TELEPATHY_ERROR_NOT_AVAILABLE "Connection not yet connected") ∧
    (p.pendingStatus = StatusConnected →
      TELEPATHY_INTERFACE_CONNECTION_INTERFACE_REQUESTS ∉ p.interfaces →
      createChannel p request =
        Pending.failed TELEPATHY_ERROR_NOT_IMPLEMENTED
          "Connection does not support Requests Interface" ∧
      ensureChannel p request =
        Pending.failed TELEPATHY_ERROR_NOT_IMPLEMENTED
          "Connection does not support Requests Interface") ∧
    ensureChannel p request =
      (match createChannel p request with
      | Pending.failed errorName errorMessage => Pending.failed errorName errorMessage
      | Pending.requested arguments => Pending.requested (arguments.1, false)) := by
  refine ⟨?_, ?_, ?_⟩
  · intro h
    simp [createChannel, ensureChannel, h]
  · intro h hr
    simp [createChannel, ensureChannel, h, hr]
  · unfold createChannel ensureChannel
    split_ifs <;> rfl

/-- C18: on a Connected connection with the Requests interface the only key
that `createChannel` and `ensureChannel` look for is `ChannelType`: a request
without it fails with InvalidArgument, and every request with it is issued,
whether or not it has `TargetHandleType`. -/
theorem channel_request_checks_only_channelType (p : Private) (request : QVariantMap)
    (hs : p.pendingStatus = StatusConnected)
    (hr : TELEPATHY_INTERFACE_CONNECTION_INTERFACE_REQUESTS ∈ p.interfaces) :
    (request.contains (TELEPATHY_INTERFACE_CHANNEL ++ ".ChannelType") = false →
      createChannel p request =
        Pending.failed TELEPATHY_ERROR_INVALID_ARGUMENT "Invalid 'request' argument" ∧
      ensureChannel p request =
        Pending.failed TELEPATHY_ERROR_INVALID_ARGUMENT "Invalid 'request' argument") ∧
    (request.contains (TELEPATHY_INTERFACE_CHANNEL ++ ".ChannelType") = true →
      createChannel p request = Pending.requested (request, true) ∧
      ensureChannel p request = Pending.requested (request, false)) := by
  constructor
  · intro h
    simp [createChannel, ensureChannel, hs, hr, h]
  · intro h
    simp [createChannel, ensureChannel, hs, hr, h]

/-- C18, for a request with `ChannelType` and without `TargetHandleType` on a
connection whose bulk fetch gave the status Connected and the Requests
interface: both operations issue the request. -/
theorem channel_request_checks_only_channelType_witness :
    (handleAll Private.new
      [Event.introspectMain,
        Event.gotMainProperties (Reply.value
          [("Interfaces", QVariant.stringList
              [TELEPATHY_INTERFACE_CONNECTION_INTERFACE_REQUESTS]),
            ("SelfHandle", QVariant.uint 1),
            ("Status", QVariant.uint ConnectionStatusConnected)]),
        Event.gotCapabilities (Reply.value [])]).pendingStatus = StatusConnected ∧
    TELEPATHY_INTERFACE_CONNECTION_INTERFACE_REQUESTS ∈
      (handleAll Private.new
        [Event.introspectMain,
          Event.gotMainProperties (Reply.value
            [("Interfaces", QVariant.stringList
                [TELEPATHY_INTERFACE_CONNECTION_INTERFACE_REQUESTS]),
              ("SelfHandle", QVariant.uint 1),
              ("Status", QVariant.uint ConnectionStatusConnected)]),
          Event.gotCapabilities (Reply.value [])]).interfaces ∧
    QMap.contains
      ([("org.freedesktop.Telepathy.Channel.ChannelType",
          QVariant.string "org.freedesktop.Telepathy.Channel.Type.Text")] : QVariantMap)
      (TELEPATHY_INTERFACE_CHANNEL ++ ".TargetHandleType") = false ∧
    createChannel
      (handleAll Private.new
        [Event.introspectMain,
          Event.gotMainProperties (Reply.value
            [("Interfaces", QVariant.stringList
                [TELEPATHY_INTERFACE_CONNECTION_INTERFACE_REQUESTS]),
              ("SelfHandle", QVariant.uint 1),
              ("Status", QVariant.uint ConnectionStatusConnected)]),
          Event.gotCapabilities (Reply.value [])])
      [("org.freedesktop.Telepathy.Channel.ChannelType",
        QVariant.string "org.freedesktop.Telepathy.Channel.Type.Text")] =
      Pending.requested
        ([("org.freedesktop.Telepathy.Channel.ChannelType",
          QVariant.string "org.freedesktop.Telepathy.Channel.Type.Text")], true) ∧
    ensureChannel
      (handleAll Private.new
        [Event.introspectMain,
          Event.gotMainProperties (Reply.value
            [("Interfaces", QVariant.stringList
                [TELEPATHY_INTERFACE_CONNECTION_INTERFACE_REQUESTS]),
              ("SelfHandle", QVariant.uint 1),
              ("Status", QVariant.uint ConnectionStatusConnected)]),
          Event.gotCapabilities (Reply.value [])])
      [("org.freedesktop.Telepathy.Channel.ChannelType",
        QVariant.string "org.freedesktop.Telepathy.Channel.Type.Text")] =
      Pending.requested
        ([("org.freedesktop.Telepathy.Channel.ChannelType",
          QVariant.string "org.freedesktop.Telepathy.Channel.Type.Text")], false) :=
  ⟨by decide, by decide, by decide,
    (channel_request_checks_only_channelType _ _ (by decide) (by decide)).2 (by decide)⟩

end Connection

namespace Connection

/-- C19: `contactAttributes` never reads `status()`; what it compares with
`StatusConnected` is the pending status. On a ready connection with the
Contacts interface it therefore issues the call and bumps `requestsInFlight`
of the contact handles whenever the pending status is Connected, whatever
`status()` is, and fails with NotAvailable whenever the pending status is not
Connected, also when `status()` is Connected. -/
theorem contactAttributes_checks_pendingStatus (p : Private) (ctx : HandleContext)
    (handles : List Nat) (interfaces : List String) (reference : Bool)
    (hc : TELEPATHY_INTERFACE_CONNECTION_INTERFACE_CONTACTS ∈ p.interfaces) :
    (∀ (s : Nat) (isReady : Bool),
      contactAttributes { p with status := s } ctx isReady handles interfaces reference =
        contactAttributes p ctx isReady handles interfaces reference) ∧
    (p.pendingStatus = StatusConnected →
      contactAttributes p ctx true handles interfaces reference =
        (ctx.setType HandleTypeContact
            { ctx.typeAt HandleTypeContact with
              requestsInFlight := uintInc (ctx.typeAt HandleTypeContact).requestsInFlight },
          Pending.requested (handles, interfaces, reference))) ∧
    (p.pendingStatus ≠ StatusConnected →
      contactAttributes p ctx true handles interfaces reference =
        (ctx, Pending.failed TELEPATHY_ERROR_NOT_AVAILABLE "The connection isn't Connected")) := by
  refine ⟨fun s isReady => rfl, ?_, ?_⟩
  · intro h
    simp [contactAttributes, h, hc]
  · intro h
    simp [contactAttributes, h]

/-- C19, on a connection that became ready while Connecting and has then
received `StatusChanged(Connected)`, before the readiness helper has answered
with `statusReady`: `status()` is Connecting, and `contactAttributes` issues
the call. -/
theorem contactAttributes_checks_pendingStatus_witness :
    (handleAll Private.new
      [Event.introspectMain,
        Event.gotMainProperties (Reply.value
          [("Interfaces", QVariant.stringList
              [TELEPATHY_INTERFACE_CONNECTION_INTERFACE_CONTACTS]),
            ("SelfHandle", QVariant.uint 7),
            ("Status", QVariant.uint ConnectionStatusConnecting)]),
        Event.gotContactAttributeInterfaces (Reply.value []),
        Event.onStatusReady StatusConnecting,
        Event.onStatusChanged ConnectionStatusConnected
          ConnectionStatusReasonRequested]).status = StatusConnecting ∧
    (handleAll Private.new
      [Event.introspectMain,
        Event.gotMainProperties (Reply.value
          [("Interfaces", QVariant.stringList
              [TELEPATHY_INTERFACE_CONNECTION_INTERFACE_CONTACTS]),
            ("SelfHandle", QVariant.uint 7),
            ("Status", QVariant.uint ConnectionStatusConnecting)]),
        Event.gotContactAttributeInterfaces (Reply.value []),
        Event.onStatusReady StatusConnecting,
        Event.onStatusChanged ConnectionStatusConnected
          ConnectionStatusReasonRequested]).pendingStatus = StatusConnected ∧
    contactAttributes
      (handleAll Private.new
        [Event.introspectMain,
          Event.gotMainProperties (Reply.value
            [("Interfaces", QVariant.stringList
                [TELEPATHY_INTERFACE_CONNECTION_INTERFACE_CONTACTS]),
              ("SelfHandle", QVariant.uint 7),
              ("Status", QVariant.uint ConnectionStatusConnecting)]),
          Event.gotContactAttributeInterfaces (Reply.value []),
          Event.onStatusReady StatusConnecting,
          Event.onStatusChanged ConnectionStatusConnected ConnectionStatusReasonRequested])
      ⟨1, []⟩ true [7] [] false =
      (HandleContext.setType ⟨1, []⟩ HandleTypeContact
          { HandleContext.typeAt ⟨1, []⟩ HandleTypeContact with
            requestsInFlight :=
              uintInc (HandleContext.typeAt ⟨1, []⟩ HandleTypeContact).requestsInFlight },
        Pending.requested ([7], [], false)) :=
  ⟨by decide, by decide,
    (contactAttributes_checks_pendingStatus _ ⟨1, []⟩ [7] [] false (by decide)).2.1
      (by decide)⟩

end Connection

/-! ## Media streams -/

namespace MediaStream

/-- C21: what `sending()` and `receiving()` return for each of the four
stream directions. Both are false for None and true for Bidirectional;
`sending()` is true for Send and `receiving()` for Receive; but `sending()` is
also true for Receive and `receiving()` is also true for Send, because either
test against `MediaStreamDirectionBidirectional` (3) succeeds whenever one of
the two bits is set. -/
theorem sending_receiving_by_direction (mPriv : Private) :
    (mPriv.direction = MediaStreamDirectionNone →
      sending mPriv = false ∧ receiving mPriv = false) ∧
    (mPriv.direction = MediaStreamDirectionSend →
      sending mPriv = true ∧ receiving mPriv = true) ∧
    (mPriv.direction = MediaStreamDirectionReceive →
      sending mPriv = true ∧ receiving mPriv = true) ∧
    (mPriv.direction = MediaStreamDirectionBidirectional →
      sending mPriv = true ∧ receiving mPriv = true) := by
  refine ⟨?_, ?_, ?_, ?_⟩ <;> intro h <;> simp only [sending, receiving, h] <;> decide

/-- C29: the stream object built by the constructor for channel `channel` and
stream id `id` holds, as its channel pointer, the indeterminate content of the
uninitialised member and not `channel`: `channel()` returns that content and
`remove()` calls `removeStreams([id])` on it. The `channel` argument only
reaches the contact lookup. -/
theorem channel_member_uninitialised (indeterminate channel id contactHandle type state
    direction pendingSend : Nat) :
    MediaStream.channel
      (Private.new indeterminate channel id contactHandle type state direction pendingSend) =
      indeterminate ∧
    remove (Private.new indeterminate channel id contactHandle type state direction
      pendingSend) = (indeterminate, [id]) ∧
    (∀ other : Nat,
      MediaStream.channel
        (Private.new indeterminate other id contactHandle type state direction pendingSend) =
      MediaStream.channel
        (Private.new indeterminate channel id contactHandle type state direction
          pendingSend)) ∧
    MediaStream.channel (Private.new 0 5 1 0 0 0 0 0) = 0 ∧
    remove (Private.new 0 5 1 0 0 0 0 0) = (0, [1]) :=
  ⟨rfl, rfl, fun _ => rfl, rfl, rfl⟩

end MediaStream

/-! ## Manager files -/

theorem splitChars_ne_nil (sep : Char) (cs : List Char) : splitChars sep cs ≠ [] := by
  cases cs with
  | nil => simp [splitChars]
  | cons c cs =>
    simp only [splitChars]
    split
    · simp
    · split <;> simp

theorem QString.split_isEmpty (s : String) (sep : Char) :
    (QString.split s sep).isEmpty = false := by
  have h := splitChars_ne_nil sep s.toList
  unfold QString.split
  cases hs : splitChars sep s.toList with
  | nil => exact absurd hs h
  | cons f fs => rfl

namespace ManagerFile

/-- C26: values on which the `as` conversion loses a segment. When the value
ends in an escaped semicolon the segment being built is dropped, because the
test after the loop only looks at the last character: `a\;` gives the empty
list and `x;a\;` gives `x` alone. An escaped semicolon inside the value and
an unescaped final one are treated as the comment of the code says. -/
theorem escaped_final_semicolon_loses_segment :
    variantFromDBusSignature "a\\;" "as" = Variant.stringList [] ∧
    variantFromDBusSignature "x;a\\;" "as" = Variant.stringList ["x"] ∧
    variantFromDBusSignature "a\\;b;c" "as" = Variant.stringList ["a;b", "c"] ∧
    variantFromDBusSignature "a;b" "as" = Variant.stringList ["a", "b"] ∧
    variantFromDBusSignature "a;" "as" = Variant.stringList ["a"] := by
  decide

/-- C30: the directory list built by `init`. After the entry for
`XDG_DATA_HOME` it always holds one entry per field of `XDG_DATA_DIRS` split
at `:`; the split of an empty string is one empty field, so with
`XDG_DATA_DIRS` empty or unset the list ends with `/telepathy/managers/` and
the two system directories are never searched: a manager file that exists
only in `/usr/share/telepathy/managers/` is not found. -/
theorem default_data_dirs_never_searched (env : Environment) :
    configDirs env =
      (if env.xdgDataHome.isEmpty then
        [env.homePath ++ "/.local/share/data/telepathy/managers/"]
      else [env.xdgDataHome ++ "/telepathy/managers/"]) ++
        (QString.split env.xdgDataDirs ':').map
          (fun xdgDataDir => xdgDataDir ++ "/telepathy/managers/") ∧
    configDirs ⟨"", "", "/home/user"⟩ =
      ["/home/user/.local/share/data/telepathy/managers/", "/telepathy/managers/"] ∧
    init ⟨"", "", "/home/user"⟩ "gabble"
      (fun fileName => decide (fileName = "/usr/share/telepathy/managers/gabble.manager"))
      (fun _ => true) = none ∧
    init ⟨"", "/usr/local/share:/usr/share", "/home/user"⟩ "gabble"
      (fun fileName => decide (fileName = "/usr/share/telepathy/managers/gabble.manager"))
      (fun _ => true) = some "/usr/share/telepathy/managers/gabble.manager" := by
  refine ⟨?_, by decide, by decide, by decide⟩
  unfold configDirs
  simp only [QString.split_isEmpty]
  rfl

end ManagerFile

/-! ## The introspection queue -/

namespace Connection

theorem gotMainProperties_eq (p : Private) (reply : Reply QVariantMap) :
    gotMainProperties p reply = (gotMainPropertiesQueued p reply).continueMainIntrospection := by
  cases reply <;> rfl

theorem runStep_remoteCall (p : Private) (f : IntrospectStep) :
    Private.runStep p f = { p with effects := p.effects ++ [Effect.call f.remoteCall] } := by
  cases f <;> rfl

theorem gotMainPropertiesQueued_value (p : Private) (props : QVariantMap) :
    gotMainPropertiesQueued p (Reply.value props) =
      { p with
        introspectMainQueue :=
          p.introspectMainQueue ++
            (if props.contains "Status" = false ∧ p.pendingStatus = StatusUnknown then
              [IntrospectStep.introspectMainFallbackStatus] else []) ++
            (if props.contains "Interfaces" = false then
              [IntrospectStep.introspectMainFallbackInterfaces] else []) ++
            (if props.contains "SelfHandle" = false then
              [IntrospectStep.introspectMainFallbackSelfHandle] else []) ++
            (if TELEPATHY_INTERFACE_CONNECTION_INTERFACE_REQUESTS ∈
                (if props.contains "Interfaces" then (props.value "Interfaces").toStringList
                  else p.interfaces) then
              [IntrospectStep.introspectCapabilities] else []) ++
            (if TELEPATHY_INTERFACE_CONNECTION_INTERFACE_CONTACTS ∈
                (if props.contains "Interfaces" then (props.value "Interfaces").toStringList
                  else p.interfaces) then
              [IntrospectStep.introspectContactAttributeInterfaces] else [])
        pendingStatus :=
          if props.contains "Status" then
            (p.forceCurrentStatus (props.value "Status").toUInt).pendingStatus
          else p.pendingStatus
        interfaces :=
          if props.contains "Interfaces" then (props.value "Interfaces").toStringList
          else p.interfaces
        selfHandle :=
          if props.contains "SelfHandle" then (props.value "SelfHandle").toUInt
          else p.selfHandle
        effects :=
          (if props.contains "Status" then
            (p.forceCurrentStatus (props.value "Status").toUInt).effects
          else p.effects) ++
            (if props.contains "Interfaces" then
              [Effect.setInterfaces (props.value "Interfaces").toStringList] else []) } := by
  cases h2 : QMap.contains props "Interfaces"
  · by_cases h5 : TELEPATHY_INTERFACE_CONNECTION_INTERFACE_REQUESTS ∈ p.interfaces <;>
      by_cases h6 : TELEPATHY_INTERFACE_CONNECTION_INTERFACE_CONTACTS ∈ p.interfaces <;>
      cases h1 : QMap.contains props "Status" <;>
      cases h3 : QMap.contains props "SelfHandle" <;>
      by_cases h4 : p.pendingStatus = StatusUnknown <;>
      simp [gotMainPropertiesQueued, mainProperties, h1, h2, h3, h4, h5, h6, hasInterface,
        Private.setInterfaces, Private.forceCurrentStatus, Private.emit]
  · by_cases h7 : TELEPATHY_INTERFACE_CONNECTION_INTERFACE_REQUESTS ∈
        (props.value "Interfaces").toStringList <;>
      by_cases h8 : TELEPATHY_INTERFACE_CONNECTION_INTERFACE_CONTACTS ∈
        (props.value "Interfaces").toStringList <;>
      cases h1 : QMap.contains props "Status" <;>
      cases h3 : QMap.contains props "SelfHandle" <;>
      by_cases h4 : p.pendingStatus = StatusUnknown <;>
      simp [gotMainPropertiesQueued, mainProperties, h1, h2, h3, h4, h7, h8, hasInterface,
        Private.setInterfaces, Private.forceCurrentStatus, Private.emit]

theorem gotMainPropertiesQueued_error (p : Private) (name message : String) :
    gotMainPropertiesQueued p (Reply.error name message) =
      gotMainPropertiesQueued p (Reply.value []) := rfl

theorem gotMainPropertiesQueued_queue (p : Private) (props : QVariantMap) :
    (gotMainPropertiesQueued p (Reply.value props)).introspectMainQueue =
      p.introspectMainQueue ++
        (if props.contains "Status" = false ∧ p.pendingStatus = StatusUnknown then
          [IntrospectStep.introspectMainFallbackStatus] else []) ++
        (if props.contains "Interfaces" = false then
          [IntrospectStep.introspectMainFallbackInterfaces] else []) ++
        (if props.contains "SelfHandle" = false then
          [IntrospectStep.introspectMainFallbackSelfHandle] else []) ++
        (if TELEPATHY_INTERFACE_CONNECTION_INTERFACE_REQUESTS ∈
            (gotMainPropertiesQueued p (Reply.value props)).interfaces then
          [IntrospectStep.introspectCapabilities] else []) ++
        (if TELEPATHY_INTERFACE_CONNECTION_INTERFACE_CONTACTS ∈
            (gotMainPropertiesQueued p (Reply.value props)).interfaces then
          [IntrospectStep.introspectContactAttributeInterfaces] else []) := by
  rw [gotMainPropertiesQueued_value]

theorem continueMainIntrospection_step (p : Private) (f : IntrospectStep)
    (rest : List IntrospectStep) (h : p.introspectMainQueue = f :: rest) :
    p.continueMainIntrospection =
      { p with
        introspectMainQueue := rest
        effects := p.effects ++ [Effect.call f.remoteCall] } := by
  rw [continueMainIntrospection_cons p f rest h, runStep_remoteCall]

theorem iterate_continueMainIntrospection (k : Nat) :
    ∀ p : Private, k ≤ p.introspectMainQueue.length →
      Nat.iterate Private.continueMainIntrospection k p =
        { p with
          introspectMainQueue := p.introspectMainQueue.drop k
          effects := p.effects ++
            (p.introspectMainQueue.take k).map fun f => Effect.call f.remoteCall } := by
  induction k with
  | zero =>
    intro p _
    simp
  | succ k ih =>
    intro p hk
    cases hq : p.introspectMainQueue with
    | nil => rw [hq] at hk; simp at hk
    | cons f rest =>
      rw [hq] at hk
      simp only [List.length_cons, Nat.add_le_add_iff_right] at hk
      rw [Function.iterate_succ_apply, continueMainIntrospection_step p f rest hq, ih _ hk]
      simp

/-- C24 (as amended): `gotMainProperties` is `continueMainIntrospection` run
on the state in which, in this order, the `GetStatus` fallback has been
enqueued if the reply has no `Status` and the pending status is still
unknown, the `GetInterfaces` fallback if it has no `Interfaces`, and the
`GetSelfHandle` fallback if it has no `SelfHandle` (followed by the capability
and contact-attribute steps the interface list calls for); an error reply
counts as a reply with no property. No fallback is enqueued for a property
that is present: a present status has gone through `forceCurrentStatus`, a
present interface list through `setInterfaces`, and a present self handle is
stored. -/
theorem gotMainProperties_fallbacks (p : Private) (props : QVariantMap)
    (name message : String) :
    (∀ reply, gotMainProperties p reply =
      (gotMainPropertiesQueued p reply).continueMainIntrospection) ∧
    gotMainPropertiesQueued p (Reply.error name message) =
      gotMainPropertiesQueued p (Reply.value []) ∧
    (∀ key, QMap.contains ([] : QVariantMap) key = false) ∧
    gotMainPropertiesQueued p (Reply.value props) =
      { p with
        introspectMainQueue :=
          p.introspectMainQueue ++
            (if props.contains "Status" = false ∧ p.pendingStatus = StatusUnknown then
              [IntrospectStep.introspectMainFallbackStatus] else []) ++
            (if props.contains "Interfaces" = false then
              [IntrospectStep.introspectMainFallbackInterfaces] else []) ++
            (if props.contains "SelfHandle" = false then
              [IntrospectStep.introspectMainFallbackSelfHandle] else []) ++
            (if TELEPATHY_INTERFACE_CONNECTION_INTERFACE_REQUESTS ∈
                (if props.contains "Interfaces" then (props.value "Interfaces").toStringList
                  else p.interfaces) then
              [IntrospectStep.introspectCapabilities] else []) ++
            (if TELEPATHY_INTERFACE_CONNECTION_INTERFACE_CONTACTS ∈
                (if props.contains "Interfaces" then (props.value "Interfaces").toStringList
                  else p.interfaces) then
              [IntrospectStep.introspectContactAttributeInterfaces] else [])
        pendingStatus :=
          if props.contains "Status" then
            (p.forceCurrentStatus (props.value "Status").toUInt).pendingStatus
          else p.pendingStatus
        interfaces :=
          if props.contains "Interfaces" then (props.value "Interfaces").toStringList
          else p.interfaces
        selfHandle :=
          if props.contains "SelfHandle" then (props.value "SelfHandle").toUInt
          else p.selfHandle
        effects :=
          (if props.contains "Status" then
            (p.forceCurrentStatus (props.value "Status").toUInt).effects
          else p.effects) ++
            (if props.contains "Interfaces" then
              [Effect.setInterfaces (props.value "Interfaces").toStringList] else []) } :=
  ⟨gotMainProperties_eq p, rfl, fun _ => rfl, gotMainPropertiesQueued_value p props⟩

/-- C24 as stated fails: when a `StatusChanged(Connected)` has arrived before
the reply to `GetAll`, and that reply is an error, no `GetStatus` fallback is
enqueued although the reply has no status. -/
theorem status_fallback_skipped_when_status_known :
    (handleAll Private.new
      [Event.introspectMain,
        Event.onStatusChanged ConnectionStatusConnected
          ConnectionStatusReasonRequested]).pendingStatus = ConnectionStatusConnected ∧
    (handleAll Private.new
      [Event.introspectMain,
        Event.onStatusChanged ConnectionStatusConnected
          ConnectionStatusReasonRequested]).introspectMainQueue = [] ∧
    (gotMainPropertiesQueued
      (handleAll Private.new
        [Event.introspectMain,
          Event.onStatusChanged ConnectionStatusConnected ConnectionStatusReasonRequested])
      (Reply.error "org.freedesktop.DBus.Error.UnknownMethod" "no such method")).introspectMainQueue =
      [IntrospectStep.introspectMainFallbackInterfaces,
        IntrospectStep.introspectMainFallbackSelfHandle] := by
  decide

end Connection

/-! ## Contact lists -/

namespace Connection

theorem iterate_contactListChannelReady (LastType : Nat) (k : Nat) :
    ∀ r : Roster, r.contactListChannelsReady + k < uintMod →
      Nat.iterate (Roster.contactListChannelReady LastType) k r =
        { r with
          contactListChannelsReady := r.contactListChannelsReady + k
          effects := r.effects ++
            (if r.contactListChannelsReady < LastType ∧
                LastType ≤ r.contactListChannelsReady + k then
              [RosterEffect.setContactListChannels r.contactListChannels,
                RosterEffect.setIntrospectCompleted]
            else []) } := by
  induction k with
  | zero =>
    intro r _
    have : ¬ (r.contactListChannelsReady < LastType ∧ LastType ≤ r.contactListChannelsReady) :=
      by omega
    simp [this]
  | succ k ih =>
    intro r hk
    have hinc : uintInc r.contactListChannelsReady = r.contactListChannelsReady + 1 :=
      uintInc_of_lt (by omega)
    rw [Function.iterate_succ_apply]
    by_cases hL : r.contactListChannelsReady + 1 = LastType
    · have e : Roster.contactListChannelReady LastType r =
          { r with
            contactListChannelsReady := r.contactListChannelsReady + 1
            effects := r.effects ++
              [RosterEffect.setContactListChannels r.contactListChannels,
                RosterEffect.setIntrospectCompleted] } := by
        simp [Roster.contactListChannelReady, hinc, hL]
      rw [e, ih _ (by simp only; omega)]
      have c1 : ¬ (r.contactListChannelsReady + 1 < LastType ∧
          LastType ≤ r.contactListChannelsReady + 1 + k) := by omega
      have c2 : r.contactListChannelsReady < LastType ∧
          LastType ≤ r.contactListChannelsReady + (k + 1) := by omega
      simp [c1, c2, Nat.add_assoc, Nat.add_comm 1 k]
      omega
    · have e : Roster.contactListChannelReady LastType r =
          { r with contactListChannelsReady := r.contactListChannelsReady + 1 } := by
        simp [Roster.contactListChannelReady, hinc, hL]
      rw [e, ih _ (by simp only; omega)]
      by_cases c2 : r.contactListChannelsReady < LastType ∧
          LastType ≤ r.contactListChannelsReady + (k + 1)
      · have c1 : r.contactListChannelsReady + 1 < LastType ∧
            LastType ≤ r.contactListChannelsReady + 1 + k := by omega
        simp [c1, c2, Nat.add_assoc, Nat.add_comm 1 k]
      · have c1 : ¬ (r.contactListChannelsReady + 1 < LastType ∧
            LastType ≤ r.contactListChannelsReady + 1 + k) := by omega
        simp [c1, c2, Nat.add_assoc, Nat.add_comm 1 k]
        omega

theorem contactListChannelsReady_introspectRoster (LastType : Nat) (r : Roster) :
    (Roster.introspectRoster LastType r).contactListChannelsReady =
      r.contactListChannelsReady := by
  unfold Roster.introspectRoster
  generalize List.range LastType = l
  induction l generalizing r with
  | nil => rfl
  | cons i l ih =>
    rw [List.foldl_cons, ih]

/-- C28: `contactListChannelReady` compares the counter
`contactListChannelsReady`, which starts at 0 in the constructor and is never
reset (`introspectRoster` leaves it as it is), with `LastType`. In the first
run the `LastType`-th call marks `FeatureRoster` ready and no earlier call
does. In a run that starts after a completed one the counter is already
`LastType`, and no call marks the feature ready, however the requests finish.
With four list types: a first run whose requests finish by the four paths ends
with one `setIntrospectCompleted`, and a second, identical run adds none. -/
theorem roster_counter_never_reset (LastType : Nat) (r : Roster) :
    (Roster.introspectRoster LastType r).contactListChannelsReady =
      r.contactListChannelsReady ∧
    Roster.contactListChannelReady LastType r =
      { r with
        contactListChannelsReady := uintInc r.contactListChannelsReady
        effects := r.effects ++
          (if uintInc r.contactListChannelsReady = LastType then
            [RosterEffect.setContactListChannels r.contactListChannels,
              RosterEffect.setIntrospectCompleted]
          else []) } ∧
    (r.contactListChannelsReady = 0 → LastType < uintMod →
      ∀ k, k ≤ LastType →
        (Nat.iterate (Roster.contactListChannelReady LastType) k r).effects =
          r.effects ++
            (if 0 < LastType ∧ k = LastType then
              [RosterEffect.setContactListChannels r.contactListChannels,
                RosterEffect.setIntrospectCompleted]
            else [])) ∧
    (r.contactListChannelsReady = LastType →
      ∀ k, LastType + k < uintMod →
        (Nat.iterate (Roster.contactListChannelReady LastType) k r).effects = r.effects ∧
        (Nat.iterate (Roster.contactListChannelReady LastType) k
          r).contactListChannelsReady = LastType + k) ∧
    (handleRosterAll 4 Roster.new
      [RosterEvent.introspectRoster,
        RosterEvent.gotContactListsHandles HandlesResult.error,
        RosterEvent.gotContactListsHandles (HandlesResult.finished 1 [] 1),
        RosterEvent.gotContactListsHandles (HandlesResult.finished 0 [11] 2),
        RosterEvent.gotContactListsHandles (HandlesResult.finished 0 [12] 3),
        RosterEvent.gotContactListChannel ChannelResult.error,
        RosterEvent.gotContactListChannel (ChannelResult.finished 100 12),
        RosterEvent.channelReady]).effects =
      [RosterEffect.requestHandles 0, RosterEffect.requestHandles 1,
        RosterEffect.requestHandles 2, RosterEffect.requestHandles 3,
        RosterEffect.ensureChannel 11, RosterEffect.ensureChannel 12,
        RosterEffect.becomeReady 100,
        RosterEffect.setContactListChannels
          [(0, ⟨[], none⟩), (1, ⟨[], none⟩), (2, ⟨[11], none⟩), (3, ⟨[12], some 100⟩)],
        RosterEffect.setIntrospectCompleted] ∧
    (handleRosterAll 4 Roster.new
      [RosterEvent.introspectRoster,
        RosterEvent.gotContactListsHandles HandlesResult.error,
        RosterEvent.gotContactListsHandles (HandlesResult.finished 1 [] 1),
        RosterEvent.gotContactListsHandles (HandlesResult.finished 0 [11] 2),
        RosterEvent.gotContactListsHandles (HandlesResult.finished 0 [12] 3),
        RosterEvent.gotContactListChannel ChannelResult.error,
        RosterEvent.gotContactListChannel (ChannelResult.finished 100 12),
        RosterEvent.channelReady,
        RosterEvent.introspectRoster,
        RosterEvent.gotContactListsHandles HandlesResult.error,
        RosterEvent.gotContactListsHandles (HandlesResult.finished 1 [] 1),
        RosterEvent.gotContactListsHandles (HandlesResult.finished 0 [11] 2),
        RosterEvent.gotContactListsHandles (HandlesResult.finished 0 [12] 3),
        RosterEvent.gotContactListChannel ChannelResult.error,
        RosterEvent.gotContactListChannel (ChannelResult.finished 100 12),
        RosterEvent.channelReady]).effects =
      [RosterEffect.requestHandles 0, RosterEffect.requestHandles 1,
        RosterEffect.requestHandles 2, RosterEffect.requestHandles 3,
        RosterEffect.ensureChannel 11, RosterEffect.ensureChannel 12,
        RosterEffect.becomeReady 100,
        RosterEffect.setContactListChannels
          [(0, ⟨[], none⟩), (1, ⟨[], none⟩), (2, ⟨[11], none⟩), (3, ⟨[12], some 100⟩)],
        RosterEffect.setIntrospectCompleted,
        RosterEffect.requestHandles 0, RosterEffect.requestHandles 1,
        RosterEffect.requestHandles 2, RosterEffect.requestHandles 3,
        RosterEffect.ensureChannel 11, RosterEffect.ensureChannel 12,
        RosterEffect.becomeReady 100] := by
  refine ⟨contactListChannelsReady_introspectRoster LastType r, ?_, ?_, ?_, by decide,
    by decide⟩
  · unfold Roster.contactListChannelReady
    by_cases h : uintInc r.contactListChannelsReady = LastType <;> simp [h]
  · intro h0 hL k hk
    rw [iterate_contactListChannelReady LastType k r (by omega)]
    simp only [h0, Nat.zero_add]
    by_cases c : 0 < LastType ∧ k = LastType
    · rw [if_pos c, if_pos ⟨c.1, by omega⟩]
    · rw [if_neg c, if_neg (by omega)]
  · intro h0 k hk
    rw [iterate_contactListChannelReady LastType k r (by omega)]
    simp only [h0]
    rw [if_neg (by omega)]
    simp

end Connection

/-! ## Counts of at least one -/

theorem refcounts_refHandle_self (ctx : HandleContext) (type handle : Nat) :
    ((refHandle ctx type handle).typeAt type).refcounts =
      (ctx.typeAt type).refcounts.insert handle
        (uintInc ((ctx.typeAt type).refcounts.value handle)) := by
  rw [typeAt_refHandle_self]

theorem refcounts_unrefHandle_self (ctx : HandleContext) (type handle : Nat) :
    ((unrefHandle ctx type handle).1.typeAt type).refcounts =
      if uintDec ((ctx.typeAt type).refcounts.value handle) = 0 then
        (ctx.typeAt type).refcounts.remove handle
      else
        (ctx.typeAt type).refcounts.insert handle
          (uintDec ((ctx.typeAt type).refcounts.value handle)) := by
  simp only [unrefHandle]
  split
  · split
    · split <;> simp only [HandleContext.typeAt_setType_self]
    · simp only [HandleContext.typeAt_setType_self]
  · simp only [HandleContext.typeAt_setType_self]

theorem refcounts_requestHandles (ctx : HandleContext) (t type : Nat) (names : List String) :
    ((requestHandles ctx t names).typeAt type).refcounts = (ctx.typeAt type).refcounts := by
  by_cases h : type = t
  · subst h
    rw [typeAt_requestHandles_self]
  · rw [typeAt_requestHandles_of_ne ctx h]

theorem refcounts_handleRequestLanded (ctx : HandleContext) (t type : Nat) :
    ((handleRequestLanded ctx t).1.typeAt type).refcounts = (ctx.typeAt type).refcounts := by
  by_cases h : type = t
  · subst h
    rw [(typeAt_handleRequestLanded_self ctx type).1]
  · rw [typeAt_handleRequestLanded_of_ne ctx h]

theorem refcounts_doReleaseSweep (ctx : HandleContext) (t type : Nat) :
    ((doReleaseSweep ctx t).1.typeAt type).refcounts = (ctx.typeAt type).refcounts := by
  by_cases h : type = t
  · subst h
    simp only [doReleaseSweep]
    split
    · simp only [HandleContext.typeAt_setType_self]
    · split <;> simp only [HandleContext.typeAt_setType_self]
  · rw [typeAt_doReleaseSweep_of_ne ctx h]

theorem count_refHandle_of_ne (ctx : HandleContext) {t h type handle : Nat}
    (hne : ¬ (t = type ∧ h = handle)) :
    ((refHandle ctx t h).typeAt type).refcounts.value? handle =
      (ctx.typeAt type).refcounts.value? handle := by
  by_cases ht : type = t
  · subst ht
    have hh : handle ≠ h := fun e => hne ⟨rfl, e.symm⟩
    rw [refcounts_refHandle_self, QMap.value?_insert_of_ne _ hh]
  · rw [typeAt_refHandle_of_ne ctx ht]

theorem count_unrefHandle_of_ne (ctx : HandleContext) {t h type handle : Nat}
    (hne : ¬ (t = type ∧ h = handle)) :
    ((unrefHandle ctx t h).1.typeAt type).refcounts.value? handle =
      (ctx.typeAt type).refcounts.value? handle := by
  by_cases ht : type = t
  · subst ht
    have hh : handle ≠ h := fun e => hne ⟨rfl, e.symm⟩
    rw [refcounts_unrefHandle_self]
    split
    · rw [QMap.value?_remove_of_ne _ hh]
    · rw [QMap.value?_insert_of_ne _ hh]
  · rw [typeAt_unrefHandle_of_ne ctx ht]

theorem value_of_count {m : QMap Nat Nat} {handle c : Nat}
    (h : m.value? handle = if c = 0 then none else some c) : m.value handle = c := by
  unfold QMap.value
  rw [h]
  by_cases hc : c = 0
  · simp [hc]
  · simp [hc]

theorem matchedRefs_step (type handle : Nat) (ctx : HandleContext) (c : Nat) (op : Op)
    (ops : List Op)
    (hc : (ctx.typeAt type).refcounts.value? handle = if c = 0 then none else some c)
    (hm : matchedRefs type handle (op :: ops) c = true) :
    ∃ c1, ((step ctx op).ctx.typeAt type).refcounts.value? handle =
        (if c1 = 0 then none else some c1) ∧
      matchedRefs type handle ops c1 = true ∧ (op = Op.unrefHandle type handle → 0 < c) := by
  have hv := value_of_count hc
  cases op with
  | refHandle t h =>
    by_cases e : t = type ∧ h = handle
    · obtain ⟨e1, e2⟩ := e
      subst e1 e2
      simp only [matchedRefs, and_self, if_true, Bool.and_eq_true, decide_eq_true_eq] at hm
      refine ⟨c + 1, ?_, hm.2, fun e => Op.noConfusion e⟩
      simp only [step]
      rw [refcounts_refHandle_self, QMap.value?_insert_self, hv, uintInc_of_lt hm.1]
      simp
    · simp only [matchedRefs, e, if_false] at hm
      refine ⟨c, ?_, hm, fun e => Op.noConfusion e⟩
      simp only [step]
      rw [count_refHandle_of_ne ctx e]
      exact hc
  | unrefHandle t h =>
    by_cases e : t = type ∧ h = handle
    · obtain ⟨e1, e2⟩ := e
      subst e1 e2
      simp only [matchedRefs, and_self, if_true, Bool.and_eq_true, decide_eq_true_eq] at hm
      refine ⟨c - 1, ?_, hm.2, fun _ => hm.1⟩
      simp only [step]
      rw [refcounts_unrefHandle_self, hv, uintDec_of_pos hm.1]
      by_cases hz : c - 1 = 0
      · rw [if_pos hz, if_pos hz, QMap.value?_remove_self]
      · rw [if_neg hz, if_neg hz, QMap.value?_insert_self]
    · simp only [matchedRefs, e, if_false] at hm
      refine ⟨c, ?_, hm, ?_⟩
      · simp only [step]
        rw [count_unrefHandle_of_ne ctx e]
        exact hc
      · intro e1
        injection e1 with e2 e3
        exact absurd ⟨e2, e3⟩ e
  | requestHandles t names =>
    refine ⟨c, ?_, hm, fun e => Op.noConfusion e⟩
    simp only [step]
    rw [refcounts_requestHandles]
    exact hc
  | handleRequestLanded t =>
    refine ⟨c, ?_, hm, fun e => Op.noConfusion e⟩
    simp only [step]
    rw [refcounts_handleRequestLanded]
    exact hc
  | doReleaseSweep t =>
    refine ⟨c, ?_, hm, fun e => Op.noConfusion e⟩
    simp only [step]
    rw [refcounts_doReleaseSweep]
    exact hc

theorem matchedRefs_run (type handle : Nat) (ops : List Op) :
    ∀ (ctx : HandleContext) (c : Nat),
      ((ctx.typeAt type).refcounts.value? handle = if c = 0 then none else some c) →
      matchedRefs type handle ops c = true →
      (∃ c1, ((run ctx ops).ctx.typeAt type).refcounts.value? handle =
        if c1 = 0 then none else some c1) ∧
      ∀ pre post : List Op, ops = pre ++ Op.unrefHandle type handle :: post →
        ∃ n, 0 < n ∧ ((run ctx pre).ctx.typeAt type).refcounts.value? handle = some n := by
  induction ops with
  | nil =>
    intro ctx c hc _
    refine ⟨⟨c, hc⟩, ?_⟩
    intro pre post he
    cases pre <;> simp at he
  | cons op ops ih =>
    intro ctx c hc hm
    obtain ⟨c1, h1, h3, h4⟩ := matchedRefs_step type handle ctx c op ops hc hm
    obtain ⟨i1, i2⟩ := ih (step ctx op).ctx c1 h1 h3
    refine ⟨i1, ?_⟩
    intro pre post he
    cases pre with
    | nil =>
      simp only [List.nil_append, List.cons.injEq] at he
      have hpos := h4 he.1
      refine ⟨c, hpos, ?_⟩
      simp only [run]
      rw [hc, if_neg (by omega)]
    | cons p pre =>
      simp only [List.cons_append, List.cons.injEq] at he
      obtain ⟨e1, e2⟩ := he
      subst e1
      simp only [run]
      exact i2 pre post e2

theorem types_contains_of_count {ctx : HandleContext} {type handle n : Nat}
    (h : (ctx.typeAt type).refcounts.value? handle = some n) :
    ctx.types.contains type = true := by
  cases hc : ctx.types.contains type with
  | true => rfl
  | false =>
    rw [typeAt_of_not_contains hc] at h
    exact Option.noConfusion h

theorem reachable_count (n : Nat) :
    n + 1 < uintMod → Reachable ⟨0, [(1, ⟨[(7, n + 1)], [], 0, false⟩)]⟩ := by
  induction n with
  | zero =>
    intro _
    exact Reachable.refHandle 1 7 Reachable.new
  | succ n ih =>
    intro hn
    have hr := Reachable.refHandle 1 7 (ih (by omega))
    have e : refHandle ⟨0, [(1, ⟨[(7, n + 1)], [], 0, false⟩)]⟩ 1 7 =
        ⟨0, [(1, ⟨[(7, n + 1 + 1)], [], 0, false⟩)]⟩ := by
      have hi : uintInc (n + 1) = n + 1 + 1 := uintInc_of_lt hn
      simp [refHandle, HandleContext.typeAt, HandleContext.setType, QMap.value, QMap.value?,
        QMap.insert, QSet.contains, hi]
    rw [e] at hr
    exact hr

/-- C27 (as amended): `refHandle` stores the old count plus one modulo
`2 ^ 32`, which is at least 1 unless the old count is `2 ^ 32 - 1`;
`unrefHandle` removes the entry exactly when the decremented count is 0 and
stores the decremented count otherwise. In every state reached from the empty
context by operations in which each `unrefHandle` of a handle is matched by an
earlier `refHandle` of it that is still outstanding, and fewer than `2 ^ 32`
references to the handle are outstanding at a time, the entry of the handle,
if there is one, has a count of at least 1; and at every `unrefHandle` of the
handle its two assertions hold and the count is positive, so that the
decrement does not underflow. -/
theorem refcounts_at_least_one (ctx : HandleContext) (type handle : Nat) :
    ((refHandle ctx type handle).typeAt type).refcounts.value? handle =
      some (((ctx.typeAt type).refcounts.value handle + 1) % uintMod) ∧
    ((ctx.typeAt type).refcounts.value handle + 1 < uintMod →
      ((refHandle ctx type handle).typeAt type).refcounts.value? handle =
        some ((ctx.typeAt type).refcounts.value handle + 1)) ∧
    ((unrefHandle ctx type handle).1.typeAt type).refcounts.value? handle =
      (if uintDec ((ctx.typeAt type).refcounts.value handle) = 0 then none
      else some (uintDec ((ctx.typeAt type).refcounts.value handle))) ∧
    (∀ ops : List Op, matchedRefs type handle ops 0 = true →
      (∀ n, ((run HandleContext.new ops).ctx.typeAt type).refcounts.value? handle = some n →
        1 ≤ n) ∧
      ∀ pre post : List Op, ops = pre ++ Op.unrefHandle type handle :: post →
        unrefHandleAsserts (run HandleContext.new pre).ctx type handle = true ∧
        0 < ((run HandleContext.new pre).ctx.typeAt type).refcounts.value handle ∧
        uintDec (((run HandleContext.new pre).ctx.typeAt type).refcounts.value handle) =
          ((run HandleContext.new pre).ctx.typeAt type).refcounts.value handle - 1) := by
  refine ⟨?_, ?_, ?_, ?_⟩
  · rw [refcounts_refHandle_self, QMap.value?_insert_self]
    rfl
  · intro h
    rw [refcounts_refHandle_self, QMap.value?_insert_self, uintInc_of_lt h]
  · rw [refcounts_unrefHandle_self]
    split
    · rw [QMap.value?_remove_self]
    · rw [QMap.value?_insert_self]
  · intro ops hm
    have h0 : (HandleContext.new.typeAt type).refcounts.value? handle =
        if (0 : Nat) = 0 then none else some 0 := rfl
    obtain ⟨⟨c1, h1⟩, h2⟩ := matchedRefs_run type handle ops HandleContext.new 0 h0 hm
    refine ⟨?_, ?_⟩
    · intro n hn
      rw [h1] at hn
      by_cases hc : c1 = 0
      · rw [if_pos hc] at hn
        exact Option.noConfusion hn
      · rw [if_neg hc] at hn
        injection hn with hn
        omega
    · intro pre post he
      obtain ⟨n, hpos, hn⟩ := h2 pre post he
      have hv : ((run HandleContext.new pre).ctx.typeAt type).refcounts.value handle = n := by
        simp [QMap.value, hn]
      refine ⟨?_, ?_, ?_⟩
      · have hc : ((run HandleContext.new pre).ctx.typeAt type).refcounts.contains handle =
            true := by
          unfold QMap.contains
          rw [hn]
          rfl
        unfold unrefHandleAsserts
        rw [types_contains_of_count hn, hc]
        rfl
      · rw [hv]
        exact hpos
      · rw [hv]
        exact uintDec_of_pos hpos

/-- C27, for a handle referenced twice and released twice. -/
theorem refcounts_at_least_one_witness :
    matchedRefs 1 7 [Op.refHandle 1 7, Op.refHandle 1 7, Op.unrefHandle 1 7,
      Op.unrefHandle 1 7] 0 = true ∧
    unrefHandleAsserts
      (run HandleContext.new [Op.refHandle 1 7, Op.refHandle 1 7, Op.unrefHandle 1 7]).ctx
      1 7 = true ∧
    0 < ((run HandleContext.new
      [Op.refHandle 1 7, Op.refHandle 1 7, Op.unrefHandle 1 7]).ctx.typeAt 1).refcounts.value
        7 :=
  have h := ((refcounts_at_least_one HandleContext.new 1 7).2.2.2
    [Op.refHandle 1 7, Op.refHandle 1 7, Op.unrefHandle 1 7, Op.unrefHandle 1 7]
    (by decide)).2 [Op.refHandle 1 7, Op.refHandle 1 7, Op.unrefHandle 1 7] [] rfl
  ⟨by decide, h.1, h.2.1⟩

/-- C27 as stated fails: after `2 ^ 32` calls of `refHandle` for one handle,
a reachable state, the entry of the handle has the count 0. -/
theorem refcount_zero_is_reachable :
    Reachable ⟨0, [(1, ⟨[(7, 0)], [], 0, false⟩)]⟩ ∧
    ((HandleContext.mk 0 [(1, ⟨[(7, 0)], [], 0, false⟩)]).typeAt 1).refcounts.contains 7 =
      true ∧
    ((HandleContext.mk 0 [(1, ⟨[(7, 0)], [], 0, false⟩)]).typeAt 1).refcounts.value 7 = 0 := by
  refine ⟨?_, by decide, by decide⟩
  have hr := Reachable.refHandle 1 7 (reachable_count 4294967294 (by decide))
  have e : refHandle ⟨0, [(1, ⟨[(7, 4294967294 + 1)], [], 0, false⟩)]⟩ 1 7 =
      ⟨0, [(1, ⟨[(7, 0)], [], 0, false⟩)]⟩ := by decide
  rw [e] at hr
  exact hr


/-! ## A sweep posted to an object that is destroyed -/

/-- C23: a trace on which `releaseScheduled` is set while no sweep is queued.
Two objects share one context. The first one releases the last reference to
handle 7: a sweep for the type is posted to that object and `releaseScheduled`
is set. The object is destroyed before the sweep is delivered; it is not the
last one, so the context stays as it is, and the posted invocation is gone
with the object. From then on `releaseScheduled` is true with no sweep queued
on any object, and a later `unrefHandle` on the other object (handle 8) posts
no sweep either: both handles stay in `toRelease`. -/
theorem releaseScheduled_without_queued_sweep :
    World.run World.empty
      [WorldOp.init ":1.5" "org.cm", WorldOp.init ":1.5" "org.cm", WorldOp.refHandle 0 1 7,
        WorldOp.unrefHandle 0 1 7] =
      some ⟨[(1, ⟨2, [(1, ⟨[], [7], 0, true⟩)]⟩)], 2, [((":1.5", "org.cm"), 1)],
        [(0, ⟨":1.5", "org.cm", 1, [1]⟩), (1, ⟨":1.5", "org.cm", 1, []⟩)], 2, []⟩ ∧
    World.run World.empty
      [WorldOp.init ":1.5" "org.cm", WorldOp.init ":1.5" "org.cm", WorldOp.refHandle 0 1 7,
        WorldOp.unrefHandle 0 1 7, WorldOp.destroy 0] =
      some ⟨[(1, ⟨1, [(1, ⟨[], [7], 0, true⟩)]⟩)], 2, [((":1.5", "org.cm"), 1)],
        [(1, ⟨":1.5", "org.cm", 1, []⟩)], 2, []⟩ ∧
    World.run World.empty
      [WorldOp.init ":1.5" "org.cm", WorldOp.init ":1.5" "org.cm", WorldOp.refHandle 0 1 7,
        WorldOp.unrefHandle 0 1 7, WorldOp.destroy 0, WorldOp.refHandle 1 1 8,
        WorldOp.unrefHandle 1 1 8] =
      some ⟨[(1, ⟨1, [(1, ⟨[], [7, 8], 0, true⟩)]⟩)], 2, [((":1.5", "org.cm"), 1)],
        [(1, ⟨":1.5", "org.cm", 1, []⟩)], 2, []⟩ ∧
    World.run World.empty
      [WorldOp.init ":1.5" "org.cm", WorldOp.init ":1.5" "org.cm", WorldOp.refHandle 0 1 7,
        WorldOp.unrefHandle 0 1 7, WorldOp.destroy 0, WorldOp.deliver 1] = none := by
  decide

/-! ## Sweeps after a resurrection -/

theorem typeAt_unrefHandle_self (ctx : HandleContext) (type handle : Nat) :
    (unrefHandle ctx type handle).1.typeAt type =
      if uintDec ((ctx.typeAt type).refcounts.value handle) = 0 then
        { ctx.typeAt type with
          refcounts := (ctx.typeAt type).refcounts.remove handle
          toRelease := (ctx.typeAt type).toRelease.insert handle
          releaseScheduled := (ctx.typeAt type).releaseScheduled ||
            decide ((ctx.typeAt type).requestsInFlight = 0) }
      else
        { ctx.typeAt type with
          refcounts := (ctx.typeAt type).refcounts.insert handle
            (uintDec ((ctx.typeAt type).refcounts.value handle)) } := by
  by_cases hn : uintDec ((ctx.typeAt type).refcounts.value handle) = 0
  · rw [if_pos hn]
    simp only [unrefHandle, hn, if_true]
    cases hrs : (ctx.typeAt type).releaseScheduled <;>
      by_cases hrif : (ctx.typeAt type).requestsInFlight = 0 <;>
      simp [hrs, hrif, HandleContext.typeAt_setType_self]
  · rw [if_neg hn]
    simp only [unrefHandle, hn, if_false]
    rw [HandleContext.typeAt_setType_self]

theorem contains_step_of_ne (ctx : HandleContext) (type handle : Nat) (op : Op)
    (h1 : op ≠ Op.refHandle type handle) (h2 : op ≠ Op.unrefHandle type handle) :
    ((step ctx op).ctx.typeAt type).refcounts.contains handle =
      (ctx.typeAt type).refcounts.contains handle := by
  unfold QMap.contains
  cases op with
  | refHandle t x =>
    have hne : ¬ (t = type ∧ x = handle) := by
      rintro ⟨rfl, rfl⟩
      exact h1 rfl
    show (((refHandle ctx t x).typeAt type).refcounts.value? handle).isSome = _
    rw [count_refHandle_of_ne ctx hne]
  | unrefHandle t x =>
    have hne : ¬ (t = type ∧ x = handle) := by
      rintro ⟨rfl, rfl⟩
      exact h2 rfl
    show (((unrefHandle ctx t x).1.typeAt type).refcounts.value? handle).isSome = _
    rw [count_unrefHandle_of_ne ctx hne]
  | requestHandles t names =>
    show (((requestHandles ctx t names).typeAt type).refcounts.value? handle).isSome = _
    rw [refcounts_requestHandles]
  | handleRequestLanded t =>
    show (((handleRequestLanded ctx t).1.typeAt type).refcounts.value? handle).isSome = _
    rw [refcounts_handleRequestLanded]
  | doReleaseSweep t =>
    show (((doReleaseSweep ctx t).1.typeAt type).refcounts.value? handle).isSome = _
    rw [refcounts_doReleaseSweep]

theorem apart_step {ctx : HandleContext} {type handle : Nat}
    (hs : (ctx.typeAt type).refcounts.contains handle = true →
      handle ∉ (ctx.typeAt type).toRelease)
    (op : Op)
    (ha : op = Op.unrefHandle type handle →
      (ctx.typeAt type).refcounts.contains handle = true) :
    ((step ctx op).ctx.typeAt type).refcounts.contains handle = true →
      handle ∉ ((step ctx op).ctx.typeAt type).toRelease := by
  by_cases h1 : op = Op.refHandle type handle
  · subst h1
    intro _
    show handle ∉ ((refHandle ctx type handle).typeAt type).toRelease
    rw [typeAt_refHandle_self]
    simp only
    intro hmem
    split at hmem
    · exact ((QSet.mem_remove _ _ _).1 hmem).2 rfl
    · rename_i hc
      exact hc ((QSet.contains_iff _ _).2 hmem)
  · by_cases h2 : op = Op.unrefHandle type handle
    · have hc := ha h2
      subst h2
      show ((unrefHandle ctx type handle).1.typeAt type).refcounts.contains handle = true →
        handle ∉ ((unrefHandle ctx type handle).1.typeAt type).toRelease
      rw [typeAt_unrefHandle_self]
      split
      · simp only
        intro hcon
        rw [QMap.contains_remove_self] at hcon
        exact absurd hcon (by decide)
      · simp only
        intro _
        exact hs hc
    · intro hcon
      rw [contains_step_of_ne ctx type handle op h1 h2] at hcon
      exact (held_step ⟨hcon, hs hcon⟩ op h2).1.2

theorem apart_run (type handle : Nat) (ops : List Op) :
    ∀ ctx : HandleContext,
      ((ctx.typeAt type).refcounts.contains handle = true →
        handle ∉ (ctx.typeAt type).toRelease) →
      unrefHandleAsserted type handle ctx ops = true →
      ((run ctx ops).ctx.typeAt type).refcounts.contains handle = true →
        handle ∉ ((run ctx ops).ctx.typeAt type).toRelease := by
  induction ops with
  | nil =>
    intro ctx hs _
    exact hs
  | cons op ops ih =>
    intro ctx hs ha
    simp only [unrefHandleAsserted, Bool.and_eq_true] at ha
    refine ih (step ctx op).ctx (apart_step hs op ?_) ha.2
    intro e
    have := ha.1
    rw [if_pos e] at this
    exact this

theorem doReleaseSweep_spares {ctx : HandleContext} {type handle : Nat}
    (h : handle ∉ (ctx.typeAt type).toRelease) :
    ∀ c ∈ (doReleaseSweep ctx type).2, handle ∉ c.2 := by
  intro c hc
  simp only [doReleaseSweep] at hc
  split at hc
  · simp at hc
  · split at hc
    · simp at hc
    · rw [List.mem_singleton] at hc
      subst hc
      exact h

theorem stays_run (type handle : Nat) (ops : List Op) :
    ∀ ctx : HandleContext, ctx.Held type handle →
      staysInRefcounts type handle ctx ops = true →
      ∀ c ∈ (run ctx ops).released, c.1 = type → handle ∉ c.2 := by
  induction ops with
  | nil =>
    intro ctx _ _ c hc
    simp [run] at hc
  | cons op ops ih =>
    intro ctx hh hst c hc
    simp only [staysInRefcounts, Bool.and_eq_true] at hst
    have hheld : (step ctx op).ctx.Held type handle :=
      ⟨hst.1, apart_step (fun _ => hh.2) op (fun _ => hh.1) hst.1⟩
    simp only [run, List.mem_append] at hc
    rcases hc with hc | hc
    · by_cases h2 : op = Op.unrefHandle type handle
      · subst h2
        simp [step] at hc
      · exact (held_step hh op h2).2 c hc
    · exact ih (step ctx op).ctx hheld hst.2 c hc

/-- C2 (as amended): if `handle` is held with refcount 1, then `unrefHandle`
followed, with no sweep in between, by `refHandle` leaves it in `refcounts`
with count 1 and out of `toRelease`. In every continuation after each
operation of which `handle` is still in `refcounts`, no `doReleaseSweep`
issues a `ReleaseHandles` call of that type naming it. After every
continuation in which `unrefHandle` is applied to `handle` only while it is
in `refcounts`: if `handle` is in `refcounts` then it is not in `toRelease`
and a `doReleaseSweep` of the type run at that point issues no call naming
it. And in every continuation without a further `unrefHandle` of `handle`,
no `doReleaseSweep` issues a call of that type naming it. -/
theorem resurrection_wins (ctx : HandleContext) (type handle : Nat)
    (h1 : (ctx.typeAt type).refcounts.value? handle = some 1) :
    let ctx2 := refHandle (unrefHandle ctx type handle).1 type handle
    (ctx2.typeAt type).refcounts.value? handle = some 1 ∧
    (ctx2.typeAt type).toRelease.contains handle = false ∧
    (∀ ops : List Op, staysInRefcounts type handle ctx2 ops = true →
      ∀ c ∈ (run ctx2 ops).released, c.1 = type → handle ∉ c.2) ∧
    (∀ ops : List Op, unrefHandleAsserted type handle ctx2 ops = true →
      ((run ctx2 ops).ctx.typeAt type).refcounts.contains handle = true →
      handle ∉ ((run ctx2 ops).ctx.typeAt type).toRelease ∧
      ∀ c ∈ (doReleaseSweep (run ctx2 ops).ctx type).2, handle ∉ c.2) ∧
    (∀ ops : List Op, Op.unrefHandle type handle ∉ ops →
      ∀ c ∈ (run ctx2 ops).released, c.1 = type → handle ∉ c.2) := by
  intro ctx2
  have hv : (ctx.typeAt type).refcounts.value handle = 1 := by
    simp [QMap.value, h1]
  have hn : uintDec ((ctx.typeAt type).refcounts.value handle) = 0 := by
    rw [hv]; exact uintDec_one
  have hrel : ∀ ctx1 : HandleContext,
      (ctx1.typeAt type).refcounts.value? handle = none →
      ((refHandle ctx1 type handle).typeAt type).refcounts.value? handle = some 1 ∧
      handle ∉ ((refHandle ctx1 type handle).typeAt type).toRelease := by
    intro ctx1 hnone
    simp only [refHandle, HandleContext.typeAt_setType_self]
    constructor
    · rw [QMap.value?_insert_self]
      simp [QMap.value, hnone, uintInc_zero]
    · intro hmem
      split at hmem
      · exact ((QSet.mem_remove _ _ _).1 hmem).2 rfl
      · rename_i hc
        exact hc ((QSet.contains_iff _ _).2 hmem)
  have hnone : ((unrefHandle ctx type handle).1.typeAt type).refcounts.value? handle = none := by
    rw [typeAt_unrefHandle_self, if_pos hn]
    exact QMap.value?_remove_self _ _
  obtain ⟨ha, hb⟩ := hrel _ hnone
  have hheld : ctx2.Held type handle := by
    refine ⟨?_, hb⟩
    simp only [QMap.contains]
    rw [show (ctx2.typeAt type).refcounts.value? handle = some 1 from ha]
    rfl
  refine ⟨ha, ?_, ?_, ?_, ?_⟩
  · cases hc : QSet.contains (ctx2.typeAt type).toRelease handle
    · rfl
    · exact absurd ((QSet.contains_iff _ _).1 hc) hb
  · intro ops hst
    exact stays_run type handle ops ctx2 hheld hst
  · intro ops hass hcon
    have hap := apart_run type handle ops ctx2 (fun _ => hheld.2) hass hcon
    exact ⟨hap, doReleaseSweep_spares hap⟩
  · intro ops hops
    exact (held_run hheld ops hops).2

/-- C2, at handle 42 of type 1 referenced once in a fresh context: the handle
is referenced a second time, released once and the sweep runs; it stays in
`refcounts` throughout and the sweep names nothing. -/
theorem resurrection_wins_witness :
    ((refHandle HandleContext.new 1 42).typeAt 1).refcounts.value? 42 = some 1 ∧
    staysInRefcounts 1 42 (refHandle (unrefHandle (refHandle HandleContext.new 1 42) 1 42).1 1 42)
      [Op.refHandle 1 42, Op.unrefHandle 1 42, Op.doReleaseSweep 1] = true ∧
    (Op.unrefHandle 1 42 ∈ [Op.refHandle 1 42, Op.unrefHandle 1 42, Op.doReleaseSweep 1]) ∧
    ∀ c ∈ (run (refHandle (unrefHandle (refHandle HandleContext.new 1 42) 1 42).1 1 42)
        [Op.refHandle 1 42, Op.unrefHandle 1 42, Op.doReleaseSweep 1]).released,
      c.1 = 1 → 42 ∉ c.2 :=
  ⟨by decide, by decide, by decide,
    (resurrection_wins (refHandle HandleContext.new 1 42) 1 42 (by decide)).2.2.1
      [Op.refHandle 1 42, Op.unrefHandle 1 42, Op.doReleaseSweep 1] (by decide)⟩

/-- C2 as stated fails: after the resurrection, a further `unrefHandle` drops
the count of the handle to 0 again, and the sweep that was posted before the
resurrection and runs next issues a release call naming the handle. Where `unrefHandle` is then applied once more,
against its assertion, the count wraps around: the handle is in `refcounts`
and in `toRelease`, and a sweep names it while it is in `refcounts`. -/
theorem resurrected_handle_released_after_unref :
    ((refHandle HandleContext.new 1 42).typeAt 1).refcounts.value? 42 = some 1 ∧
    run (refHandle (unrefHandle (refHandle HandleContext.new 1 42) 1 42).1 1 42)
        [Op.unrefHandle 1 42, Op.doReleaseSweep 1] =
      ⟨⟨0, [(1, ⟨[], [], 0, false⟩)]⟩, [], [(1, [42])]⟩ ∧
    staysInRefcounts 1 42 (refHandle (unrefHandle (refHandle HandleContext.new 1 42) 1 42).1 1 42)
      [Op.unrefHandle 1 42, Op.doReleaseSweep 1] = false ∧
    unrefHandleAsserted 1 42
      (refHandle (unrefHandle (refHandle HandleContext.new 1 42) 1 42).1 1 42)
      [Op.unrefHandle 1 42, Op.unrefHandle 1 42] = false ∧
    run (refHandle (unrefHandle (refHandle HandleContext.new 1 42) 1 42).1 1 42)
        [Op.unrefHandle 1 42, Op.unrefHandle 1 42, Op.doReleaseSweep 1] =
      ⟨⟨0, [(1, ⟨[(42, 4294967295)], [], 0, false⟩)]⟩, [], [(1, [42])]⟩ := by
  decide

/-! ## An idle handle type has nothing waiting for release -/

theorem typeAt_doReleaseSweep_self (ctx : HandleContext) (type : Nat) :
    (doReleaseSweep ctx type).1.typeAt type =
      { ctx.typeAt type with
        releaseScheduled := false
        toRelease :=
          if (ctx.typeAt type).requestsInFlight > 0 then (ctx.typeAt type).toRelease
          else [] } := by
  simp only [doReleaseSweep]
  by_cases hr : (ctx.typeAt type).requestsInFlight > 0
  · simp only [hr, if_true]
    rw [HandleContext.typeAt_setType_self]
  · simp only [hr, if_false]
    cases hl : (ctx.typeAt type).toRelease with
    | nil =>
      simp only [List.isEmpty, if_true]
      rw [HandleContext.typeAt_setType_self]
    | cons a l =>
      simp only [List.isEmpty, Bool.false_eq_true, if_false]
      rw [HandleContext.typeAt_setType_self]

theorem idle_step (type : Nat) (ctx : HandleContext) (op : Op) (ops : List Op)
    (hI : (ctx.typeAt type).requestsInFlight = 0 → (ctx.typeAt type).releaseScheduled = false →
      (ctx.typeAt type).toRelease = [])
    (hm : requestsInFlightBelowMax type ctx (op :: ops) = true) :
    (((step ctx op).ctx.typeAt type).requestsInFlight = 0 →
      ((step ctx op).ctx.typeAt type).releaseScheduled = false →
      ((step ctx op).ctx.typeAt type).toRelease = []) ∧
    requestsInFlightBelowMax type (step ctx op).ctx ops = true := by
  simp only [requestsInFlightBelowMax, Bool.and_eq_true] at hm
  refine ⟨?_, hm.2⟩
  have hm1 := hm.1
  cases op with
  | refHandle t x =>
    by_cases ht : type = t
    · subst ht
      show ((refHandle ctx type x).typeAt type).requestsInFlight = 0 →
        ((refHandle ctx type x).typeAt type).releaseScheduled = false →
        ((refHandle ctx type x).typeAt type).toRelease = []
      rw [typeAt_refHandle_self]
      simp only
      intro a b
      rw [hI a b]
      rfl
    · show ((refHandle ctx t x).typeAt type).requestsInFlight = 0 →
        ((refHandle ctx t x).typeAt type).releaseScheduled = false →
        ((refHandle ctx t x).typeAt type).toRelease = []
      rw [typeAt_refHandle_of_ne ctx ht]
      exact hI
  | unrefHandle t x =>
    by_cases ht : type = t
    · subst ht
      show ((unrefHandle ctx type x).1.typeAt type).requestsInFlight = 0 →
        ((unrefHandle ctx type x).1.typeAt type).releaseScheduled = false →
        ((unrefHandle ctx type x).1.typeAt type).toRelease = []
      rw [typeAt_unrefHandle_self]
      split
      · simp only
        intro a b
        rw [a] at b
        simp at b
      · simp only
        exact hI
    · show ((unrefHandle ctx t x).1.typeAt type).requestsInFlight = 0 →
        ((unrefHandle ctx t x).1.typeAt type).releaseScheduled = false →
        ((unrefHandle ctx t x).1.typeAt type).toRelease = []
      rw [typeAt_unrefHandle_of_ne ctx ht]
      exact hI
  | requestHandles t names =>
    by_cases ht : type = t
    · subst ht
      simp only [if_true, decide_eq_true_eq] at hm1
      show ((requestHandles ctx type names).typeAt type).requestsInFlight = 0 → _
      rw [typeAt_requestHandles_self]
      simp only
      intro a
      rw [uintInc_of_lt hm1] at a
      exact absurd a (Nat.succ_ne_zero _)
    · show ((requestHandles ctx t names).typeAt type).requestsInFlight = 0 →
        ((requestHandles ctx t names).typeAt type).releaseScheduled = false →
        ((requestHandles ctx t names).typeAt type).toRelease = []
      rw [typeAt_requestHandles_of_ne ctx ht]
      exact hI
  | handleRequestLanded t =>
    by_cases ht : type = t
    · subst ht
      show ((handleRequestLanded ctx type).1.typeAt type).requestsInFlight = 0 →
        ((handleRequestLanded ctx type).1.typeAt type).releaseScheduled = false →
        ((handleRequestLanded ctx type).1.typeAt type).toRelease = []
      rw [(typeAt_handleRequestLanded_self ctx type).1]
      simp only
      intro a b
      rw [a] at b
      cases hl : (ctx.typeAt type).toRelease with
      | nil => rfl
      | cons y l =>
        rw [hl] at b
        simp at b
    · show ((handleRequestLanded ctx t).1.typeAt type).requestsInFlight = 0 →
        ((handleRequestLanded ctx t).1.typeAt type).releaseScheduled = false →
        ((handleRequestLanded ctx t).1.typeAt type).toRelease = []
      rw [typeAt_handleRequestLanded_of_ne ctx ht]
      exact hI
  | doReleaseSweep t =>
    by_cases ht : type = t
    · subst ht
      show ((doReleaseSweep ctx type).1.typeAt type).requestsInFlight = 0 →
        ((doReleaseSweep ctx type).1.typeAt type).releaseScheduled = false →
        ((doReleaseSweep ctx type).1.typeAt type).toRelease = []
      rw [typeAt_doReleaseSweep_self]
      simp only
      intro a _
      rw [a]
      rfl
    · show ((doReleaseSweep ctx t).1.typeAt type).requestsInFlight = 0 →
        ((doReleaseSweep ctx t).1.typeAt type).releaseScheduled = false →
        ((doReleaseSweep ctx t).1.typeAt type).toRelease = []
      rw [typeAt_doReleaseSweep_of_ne ctx ht]
      exact hI

theorem idle_run (type : Nat) (ops : List Op) :
    ∀ ctx : HandleContext,
      ((ctx.typeAt type).requestsInFlight = 0 → (ctx.typeAt type).releaseScheduled = false →
        (ctx.typeAt type).toRelease = []) →
      requestsInFlightBelowMax type ctx ops = true →
      ((run ctx ops).ctx.typeAt type).requestsInFlight = 0 →
      ((run ctx ops).ctx.typeAt type).releaseScheduled = false →
      ((run ctx ops).ctx.typeAt type).toRelease = [] := by
  induction ops with
  | nil =>
    intro ctx hI _
    exact hI
  | cons op ops ih =>
    intro ctx hI hm
    obtain ⟨h1, h2⟩ := idle_step type ctx op ops hI hm
    exact ih (step ctx op).ctx h1 h2

theorem toRelease_run_unrefHandle_all (type : Nat) (hs : List Nat) :
    ∀ ctx : HandleContext, hs.Nodup →
      (∀ h ∈ hs, (ctx.typeAt type).refcounts.value? h = some 1) →
      (∀ h ∈ hs, h ∉ (ctx.typeAt type).toRelease) →
      ((run ctx (hs.map (Op.unrefHandle type))).ctx.typeAt type).toRelease =
        (ctx.typeAt type).toRelease ++ hs := by
  induction hs with
  | nil =>
    intro ctx _ _ _
    simp [run]
  | cons h rest ih =>
    intro ctx hnd h1 h2
    have hh : (ctx.typeAt type).refcounts.value? h = some 1 := h1 h (List.mem_cons_self _ _)
    obtain ⟨hT, _⟩ := unrefHandle_last ctx type h hh
    have hnd1 : rest.Nodup := (List.nodup_cons.1 hnd).2
    have hnotin : h ∉ rest := (List.nodup_cons.1 hnd).1
    have hins : QSet.insert (ctx.typeAt type).toRelease h = (ctx.typeAt type).toRelease ++ [h] := by
      unfold QSet.insert
      rw [if_neg (h2 h (List.mem_cons_self _ _))]
    have h1r : ∀ x ∈ rest,
        ((unrefHandle ctx type h).1.typeAt type).refcounts.value? x = some 1 := by
      intro x hx
      have hxh : x ≠ h := fun e => hnotin (e ▸ hx)
      rw [hT]
      simp only
      rw [QMap.value?_remove_of_ne _ hxh]
      exact h1 x (List.mem_cons_of_mem _ hx)
    have h2r : ∀ x ∈ rest, x ∉ ((unrefHandle ctx type h).1.typeAt type).toRelease := by
      intro x hx hmem
      rw [hT] at hmem
      simp only at hmem
      rw [hins, List.mem_append, List.mem_singleton] at hmem
      rcases hmem with hmem | hmem
      · exact h2 x (List.mem_cons_of_mem _ hx) hmem
      · exact hnotin (hmem ▸ hx)
    have hi := ih (unrefHandle ctx type h).1 hnd1 h1r h2r
    simp only [List.map_cons, run, step]
    rw [hi, hT]
    simp only
    rw [hins, List.append_assoc]
    rfl

theorem reachable_requests (n : Nat) :
    n + 1 < uintMod →
      Reachable ⟨0, [(1, ⟨[(1, 1), (2, 1), (3, 1)], [9], n + 1, false⟩)]⟩ := by
  induction n with
  | zero =>
    intro _
    have hr := Reachable.refHandle 1 3 (Reachable.refHandle 1 2 (Reachable.refHandle 1 1
      (Reachable.unrefHandle 1 9
        (Reachable.requestHandles 1 [] (Reachable.refHandle 1 9 Reachable.new)) (by decide))))
    have e : refHandle (refHandle (refHandle
        (unrefHandle (requestHandles (refHandle HandleContext.new 1 9) 1 []) 1 9).1 1 1) 1 2) 1 3 =
        ⟨0, [(1, ⟨[(1, 1), (2, 1), (3, 1)], [9], 0 + 1, false⟩)]⟩ := by decide
    rw [e] at hr
    exact hr
  | succ n ih =>
    intro hn
    have hr := Reachable.requestHandles 1 [] (ih (by omega))
    have e : requestHandles ⟨0, [(1, ⟨[(1, 1), (2, 1), (3, 1)], [9], n + 1, false⟩)]⟩ 1 [] =
        ⟨0, [(1, ⟨[(1, 1), (2, 1), (3, 1)], [9], n + 1 + 1, false⟩)]⟩ := by
      have hi : uintInc (n + 1) = n + 1 + 1 := uintInc_of_lt hn
      simp [requestHandles, HandleContext.typeAt, HandleContext.setType, QMap.value, QMap.value?,
        QMap.insert, hi]
    rw [e] at hr
    exact hr

/-- C3 (as amended): from a context in which every handle of a non-empty
duplicate-free list has refcount 1, with no request in flight and no sweep
scheduled, calling `unrefHandle` on them in the order of the list posts
exactly one `doReleaseSweep` and issues no release call; running the posted
sweep issues exactly one `ReleaseHandles` call, of that type, whose handles
are exactly the handles of the list together with those that were already in
`toRelease`. Where `toRelease` was empty, the handles of the call are exactly
those of the list, in the order of release; and it was empty in every such
context that is reached from one without handle types by operations among
which no `requestHandles` wraps `requestsInFlight` around. -/
theorem sweep_batches_released_handles (ctx : HandleContext) (type : Nat) (hs : List Nat)
    (hne : hs ≠ []) (hnd : hs.Nodup)
    (h1 : ∀ h ∈ hs, (ctx.typeAt type).refcounts.value? h = some 1)
    (hrif : (ctx.typeAt type).requestsInFlight = 0)
    (hrs : (ctx.typeAt type).releaseScheduled = false) :
    (run ctx (hs.map (Op.unrefHandle type))).posted = [type] ∧
    (run ctx (hs.map (Op.unrefHandle type))).released = [] ∧
    (∃ handles : List Nat,
      (run (run ctx (hs.map (Op.unrefHandle type))).ctx
        ((run ctx (hs.map (Op.unrefHandle type))).posted.map Op.doReleaseSweep)).released =
        [(type, handles)] ∧
      ∀ x, x ∈ handles ↔ x ∈ hs ∨ x ∈ (ctx.typeAt type).toRelease) ∧
    ((ctx.typeAt type).toRelease = [] →
      (run (run ctx (hs.map (Op.unrefHandle type))).ctx
        ((run ctx (hs.map (Op.unrefHandle type))).posted.map Op.doReleaseSweep)).released =
        [(type, hs)]) ∧
    (∀ (ctx0 : HandleContext) (ops : List Op), ctx0.types = [] →
      requestsInFlightBelowMax type ctx0 ops = true → ctx = (run ctx0 ops).ctx →
      (ctx.typeAt type).toRelease = [] ∧
      (run (run ctx (hs.map (Op.unrefHandle type))).ctx
        ((run ctx (hs.map (Op.unrefHandle type))).posted.map Op.doReleaseSweep)).released =
        [(type, hs)]) := by
  obtain ⟨i1, i2, _, i4, i5⟩ := run_unrefHandle_all type hs ctx hnd h1
  have hemp : hs.isEmpty = false := by
    cases hs with
    | nil => exact absurd rfl hne
    | cons a l => rfl
  have hposted : (run ctx (hs.map (Op.unrefHandle type))).posted = [type] := by
    rw [i4, hrs, hrif, hemp]
    rfl
  obtain ⟨a, ha⟩ := List.exists_mem_of_ne_nil hs hne
  have hmem : a ∈ ((run ctx (hs.map (Op.unrefHandle type))).ctx.typeAt type).toRelease :=
    (i2 a).2 (Or.inl ha)
  have hnonempty :
      ((run ctx (hs.map (Op.unrefHandle type))).ctx.typeAt type).toRelease.isEmpty = false := by
    cases hl : ((run ctx (hs.map (Op.unrefHandle type))).ctx.typeAt type).toRelease with
    | nil => rw [hl] at hmem; exact absurd hmem (List.not_mem_nil a)
    | cons b l => rfl
  have hzero :
      ¬ ((run ctx (hs.map (Op.unrefHandle type))).ctx.typeAt type).requestsInFlight > 0 := by
    rw [i1, hrif]
    exact Nat.lt_irrefl 0
  have hrel : (run (run ctx (hs.map (Op.unrefHandle type))).ctx
      ((run ctx (hs.map (Op.unrefHandle type))).posted.map Op.doReleaseSweep)).released =
      [(type, ((run ctx (hs.map (Op.unrefHandle type))).ctx.typeAt type).toRelease)] := by
    rw [hposted]
    simp only [List.map_cons, List.map_nil, run, step, doReleaseSweep, hzero, if_false,
      hnonempty, QSet.toList, List.append_nil, Bool.false_eq_true]
  have hexact : (ctx.typeAt type).toRelease = [] →
      (run (run ctx (hs.map (Op.unrefHandle type))).ctx
        ((run ctx (hs.map (Op.unrefHandle type))).posted.map Op.doReleaseSweep)).released =
        [(type, hs)] := by
    intro he
    rw [hrel, toRelease_run_unrefHandle_all type hs ctx hnd h1
      (by intro h _ hm; rw [he] at hm; exact absurd hm (List.not_mem_nil h)), he]
    rfl
  refine ⟨hposted, i5, ⟨_, hrel, i2⟩, hexact, ?_⟩
  intro ctx0 ops h0 hm hctx
  have he : (ctx.typeAt type).toRelease = [] := by
    rw [hctx] at hrif hrs ⊢
    refine idle_run type ops ctx0 (fun _ _ => ?_) hm hrif hrs
    unfold HandleContext.typeAt QMap.value
    rw [h0]
    rfl
  exact ⟨he, hexact he⟩

/-- C3, at handles {1,2,3} of type 0 released in the order 2, 3, 1. -/
theorem sweep_batches_released_handles_witness :
    (run (run HandleContext.new [Op.refHandle 0 1, Op.refHandle 0 2, Op.refHandle 0 3]).ctx
      ([2, 3, 1].map (Op.unrefHandle 0))).posted = [0] ∧
    (run (run HandleContext.new [Op.refHandle 0 1, Op.refHandle 0 2, Op.refHandle 0 3]).ctx
      ([2, 3, 1].map (Op.unrefHandle 0))).released = [] ∧
    (run (run (run HandleContext.new
        [Op.refHandle 0 1, Op.refHandle 0 2, Op.refHandle 0 3]).ctx
        ([2, 3, 1].map (Op.unrefHandle 0))).ctx
      ((run (run HandleContext.new
        [Op.refHandle 0 1, Op.refHandle 0 2, Op.refHandle 0 3]).ctx
        ([2, 3, 1].map (Op.unrefHandle 0))).posted.map Op.doReleaseSweep)).released =
      [(0, [2, 3, 1])] :=
  have h := sweep_batches_released_handles
    (run HandleContext.new [Op.refHandle 0 1, Op.refHandle 0 2, Op.refHandle 0 3]).ctx
    0 [2, 3, 1] (by decide) (by decide) (by decide) (by decide) (by decide)
  ⟨h.1, h.2.1,
    (h.2.2.2.2 HandleContext.new [Op.refHandle 0 1, Op.refHandle 0 2, Op.refHandle 0 3] rfl
      (by decide) rfl).2⟩

/-- C3 as stated fails in two ways. With the empty set of handles in place of
{1,2,3} the hypotheses on the context hold, yet no sweep is posted and no
`ReleaseHandles` call is issued. And the context in which handles 1, 2 and 3
have refcount 1, handle 9 waits in `toRelease`, no request is in flight and
no sweep is scheduled is reachable: handle 9 is released while a request is
in flight, and `2 ^ 32 - 1` further `requestHandles` wrap `requestsInFlight`
around to 0 (the same context is reached in a few steps where a
`handleRequestLanded` without a request in flight wraps the counter the other
way first). From it, releasing 1, 2 and 3 posts one sweep, whose call names
9, 1, 2 and 3. -/
theorem sweep_batches_fails_for_empty_set_and_after_wrap :
    ((HandleContext.new.typeAt 0).requestsInFlight = 0 ∧
      (HandleContext.new.typeAt 0).releaseScheduled = false ∧
      (∀ h ∈ ([] : List Nat), (HandleContext.new.typeAt 0).refcounts.value? h = some 1) ∧
      (run HandleContext.new (([] : List Nat).map (Op.unrefHandle 0))).posted.length ≠ 1 ∧
      (run (run HandleContext.new (([] : List Nat).map (Op.unrefHandle 0))).ctx
        ((run HandleContext.new (([] : List Nat).map (Op.unrefHandle 0))).posted.map
          Op.doReleaseSweep)).released.length ≠ 1) ∧
    (Reachable ⟨0, [(1, ⟨[(1, 1), (2, 1), (3, 1)], [9], 0, false⟩)]⟩ ∧
      (run HandleContext.new
        [Op.refHandle 1 9, Op.handleRequestLanded 1, Op.unrefHandle 1 9,
          Op.requestHandles 1 [], Op.refHandle 1 1, Op.refHandle 1 2, Op.refHandle 1 3]).ctx =
        ⟨0, [(1, ⟨[(1, 1), (2, 1), (3, 1)], [9], 0, false⟩)]⟩ ∧
      (∀ h ∈ [1, 2, 3],
        ((HandleContext.mk 0
          [(1, ⟨[(1, 1), (2, 1), (3, 1)], [9], 0, false⟩)]).typeAt 1).refcounts.value? h =
          some 1) ∧
      run ⟨0, [(1, ⟨[(1, 1), (2, 1), (3, 1)], [9], 0, false⟩)]⟩
          [Op.unrefHandle 1 1, Op.unrefHandle 1 2, Op.unrefHandle 1 3, Op.doReleaseSweep 1] =
        ⟨⟨0, [(1, ⟨[], [], 0, false⟩)]⟩, [1], [(1, [9, 1, 2, 3])]⟩) := by
  refine ⟨⟨rfl, rfl, ?_, by decide, by decide⟩, ?_, by decide, by decide, by decide⟩
  · intro h hh
    exact absurd hh (List.not_mem_nil h)
  · have hr := Reachable.requestHandles 1 [] (reachable_requests 4294967294 (by decide))
    have e : requestHandles
        ⟨0, [(1, ⟨[(1, 1), (2, 1), (3, 1)], [9], 4294967294 + 1, false⟩)]⟩ 1 [] =
        ⟨0, [(1, ⟨[(1, 1), (2, 1), (3, 1)], [9], 0, false⟩)]⟩ := by decide
    rw [e] at hr
    exact hr

/-! ## The handle types of a context are listed once each -/

theorem QMap.mem_keys_insert {β : Type} (m : QMap Nat β) (k : Nat) (v : β) (x : Nat)
    (h : x ∈ QMap.keys (QMap.insert m k v)) : x = k ∨ x ∈ QMap.keys m := by
  induction m with
  | nil =>
    simp [QMap.insert, QMap.keys] at h
    exact Or.inl h
  | cons e r ih =>
    obtain ⟨k1, v1⟩ := e
    by_cases h1 : k = k1
    · subst h1
      simp [QMap.insert, QMap.keys] at h ⊢
      exact h
    · by_cases h2 : compare k k1 = Ordering.lt
      · simp [QMap.insert, QMap.keys, h1, h2] at h ⊢
        exact h
      · simp only [QMap.insert, h1, h2, if_false, QMap.keys, List.map_cons,
          List.mem_cons] at h ⊢
        rcases h with h | h
        · exact Or.inr (Or.inl h)
        · rcases ih h with h3 | h3
          · exact Or.inl h3
          · exact Or.inr (Or.inr h3)

theorem QMap.keys_insert_sorted {β : Type} (m : QMap Nat β) (k : Nat) (v : β)
    (h : (QMap.keys m).Pairwise (fun a b => a < b)) :
    (QMap.keys (QMap.insert m k v)).Pairwise (fun a b => a < b) := by
  induction m with
  | nil => simp [QMap.insert, QMap.keys]
  | cons e r ih =>
    obtain ⟨k1, v1⟩ := e
    have hr : (QMap.keys r).Pairwise (fun a b => a < b) := by
      simp only [QMap.keys, List.map_cons, List.pairwise_cons] at h
      exact h.2
    have hk1 : ∀ x ∈ QMap.keys r, k1 < x := by
      simp only [QMap.keys, List.map_cons, List.pairwise_cons] at h
      exact h.1
    by_cases h1 : k = k1
    · subst h1
      simp only [QMap.insert, if_true]
      exact h
    · by_cases h2 : compare k k1 = Ordering.lt
      · have hlt : k < k1 := Nat.compare_eq_lt.1 h2
        simp only [QMap.insert, h1, h2, if_true, if_false, QMap.keys, List.map_cons,
          List.pairwise_cons]
        refine ⟨?_, ?_, hr⟩
        · intro x hx
          rw [List.mem_cons] at hx
          rcases hx with hx | hx
          · rw [hx]; exact hlt
          · exact Nat.lt_trans hlt (hk1 x hx)
        · exact hk1
      · have hge : k1 < k := by
          have : ¬ k < k1 := fun x => h2 (Nat.compare_eq_lt.2 x)
          omega
        simp only [QMap.insert, h1, h2, if_false]
        show (k1 :: QMap.keys (QMap.insert r k v)).Pairwise (fun a b => a < b)
        rw [List.pairwise_cons]
        refine ⟨?_, ih hr⟩
        intro x hx
        rcases QMap.mem_keys_insert r k v x hx with hx | hx
        · rw [hx]; exact hge
        · exact hk1 x hx

theorem QMap.value?_remove_some {κ β : Type} [DecidableEq κ] (m : QMap κ β) (k j : κ) (v : β)
    (h : QMap.value? (QMap.remove m k) j = some v) : QMap.value? m j = some v := by
  by_cases e : j = k
  · subst e
    rw [QMap.value?_remove_self] at h
    exact Option.noConfusion h
  · rw [QMap.value?_remove_of_ne m e] at h
    exact h

theorem step_eq_setType (ctx : HandleContext) (op : Op) :
    ∃ t T, (step ctx op).ctx = ctx.setType t T := by
  cases op with
  | refHandle t x => exact ⟨t, _, rfl⟩
  | unrefHandle t x =>
    simp only [step, unrefHandle]
    split
    · split
      · split
        · exact ⟨t, _, rfl⟩
        · exact ⟨t, _, rfl⟩
      · exact ⟨t, _, rfl⟩
    · exact ⟨t, _, rfl⟩
  | requestHandles t names => exact ⟨t, _, rfl⟩
  | handleRequestLanded t =>
    simp only [step, handleRequestLanded]
    split
    · exact ⟨t, _, rfl⟩
    · exact ⟨t, _, rfl⟩
  | doReleaseSweep t =>
    simp only [step, doReleaseSweep]
    split
    · exact ⟨t, _, rfl⟩
    · split
      · exact ⟨t, _, rfl⟩
      · exact ⟨t, _, rfl⟩

theorem sortedTypes_step (ctx : HandleContext) (op : Op)
    (h : (QMap.keys ctx.types).Pairwise (fun a b => a < b)) :
    (QMap.keys (step ctx op).ctx.types).Pairwise (fun a b => a < b) := by
  obtain ⟨t, T, e⟩ := step_eq_setType ctx op
  rw [e]
  exact QMap.keys_insert_sorted ctx.types t T h

theorem heapSorted_insert {heap : QMap Nat HandleContext} {a : Nat} {ctx : HandleContext}
    (hh : ∀ b c, heap.value? b = some c → (QMap.keys c.types).Pairwise (fun x y => x < y))
    (hc : (QMap.keys ctx.types).Pairwise (fun x y => x < y)) :
    ∀ b c, (heap.insert a ctx).value? b = some c →
      (QMap.keys c.types).Pairwise (fun x y => x < y) := by
  intro b c hb
  by_cases e : b = a
  · subst e
    rw [QMap.value?_insert_self] at hb
    injection hb with hb
    rw [← hb]
    exact hc
  · rw [QMap.value?_insert_of_ne heap e] at hb
    exact hh b c hb

namespace World

theorem heapSorted_init {w w1 : World}
    (hh : ∀ b c, w.heap.value? b = some c → (QMap.keys c.types).Pairwise (fun x y => x < y))
    (c s : String) (h : w.init c s = some w1) :
    ∀ b c, w1.heap.value? b = some c → (QMap.keys c.types).Pairwise (fun x y => x < y) := by
  rw [init_eq] at h
  cases hk : w.handleContexts.value? (c, s) with
  | none =>
    rw [hk] at h
    injection h with h
    subst h
    exact heapSorted_insert (heapSorted_insert hh List.Pairwise.nil) List.Pairwise.nil
  | some a =>
    rw [hk] at h
    simp only at h
    cases hc : w.heap.value? a with
    | none =>
      rw [hc] at h
      exact Option.noConfusion h
    | some ctx =>
      rw [hc] at h
      simp only at h
      split at h
      · exact Option.noConfusion h
      · injection h with h
        subst h
        exact heapSorted_insert hh (hh a ctx hc)

theorem heapSorted_destroy {w w1 : World}
    (hh : ∀ b c, w.heap.value? b = some c → (QMap.keys c.types).Pairwise (fun x y => x < y))
    (pid : Nat) (h : w.destroy pid = some w1) :
    ∀ b c, w1.heap.value? b = some c → (QMap.keys c.types).Pairwise (fun x y => x < y) := by
  unfold destroy at h
  cases hv : w.proxies.value? pid with
  | none =>
    rw [hv] at h
    exact Option.noConfusion h
  | some p =>
    rw [hv] at h
    simp only at h
    cases hc : w.heap.value? p.handleContext with
    | none =>
      rw [hc] at h
      exact Option.noConfusion h
    | some ctx =>
      rw [hc] at h
      simp only at h
      split at h
      · exact Option.noConfusion h
      · split at h
        · injection h with h
          subst h
          intro b c hb
          exact hh b c (QMap.value?_remove_some _ _ _ _ hb)
        · injection h with h
          subst h
          exact heapSorted_insert hh (hh _ ctx hc)

theorem heapSorted_call {w w1 : World}
    (hh : ∀ b c, w.heap.value? b = some c → (QMap.keys c.types).Pairwise (fun x y => x < y))
    (pid : Nat) (op : Op) (h : w.call pid op = some w1) :
    ∀ b c, w1.heap.value? b = some c → (QMap.keys c.types).Pairwise (fun x y => x < y) := by
  unfold call at h
  cases hv : w.proxies.value? pid with
  | none =>
    rw [hv] at h
    exact Option.noConfusion h
  | some p =>
    rw [hv] at h
    simp only at h
    cases hc : w.heap.value? p.handleContext with
    | none =>
      rw [hc] at h
      exact Option.noConfusion h
    | some ctx =>
      rw [hc] at h
      simp only at h
      injection h with h
      subst h
      exact heapSorted_insert hh (sortedTypes_step ctx op (hh _ ctx hc))

theorem heapSorted_deliver {w w1 : World}
    (hh : ∀ b c, w.heap.value? b = some c → (QMap.keys c.types).Pairwise (fun x y => x < y))
    (pid : Nat) (h : w.deliver pid = some w1) :
    ∀ b c, w1.heap.value? b = some c → (QMap.keys c.types).Pairwise (fun x y => x < y) := by
  unfold deliver at h
  cases hv : w.proxies.value? pid with
  | none =>
    rw [hv] at h
    exact Option.noConfusion h
  | some p =>
    rw [hv] at h
    simp only at h
    cases hq : p.queued with
    | nil =>
      rw [hq] at h
      exact Option.noConfusion h
    | cons type rest =>
      rw [hq] at h
      simp only at h
      exact heapSorted_call (w := { w with proxies := w.proxies.insert pid { p with queued := rest } })
        hh pid _ h

theorem heapSorted_step {w w1 : World}
    (hh : ∀ b c, w.heap.value? b = some c → (QMap.keys c.types).Pairwise (fun x y => x < y))
    (op : WorldOp) (h : w.step op = some w1) :
    ∀ b c, w1.heap.value? b = some c → (QMap.keys c.types).Pairwise (fun x y => x < y) := by
  cases op with
  | init c s => exact heapSorted_init hh c s h
  | destroy pid => exact heapSorted_destroy hh pid h
  | refHandle pid t x => exact heapSorted_call hh pid _ h
  | unrefHandle pid t x => exact heapSorted_call hh pid _ h
  | requestHandles pid t names => exact heapSorted_call hh pid _ h
  | handleRequestLanded pid t => exact heapSorted_call hh pid _ h
  | deliver pid => exact heapSorted_deliver hh pid h

theorem heapSorted_run (ops : List WorldOp) :
    ∀ {w w1 : World},
      (∀ b c, w.heap.value? b = some c → (QMap.keys c.types).Pairwise (fun x y => x < y)) →
      w.run ops = some w1 →
      ∀ b c, w1.heap.value? b = some c → (QMap.keys c.types).Pairwise (fun x y => x < y) := by
  induction ops with
  | nil =>
    intro w w1 hh h
    simp only [run] at h
    injection h with h
    subst h
    exact hh
  | cons op ops ih =>
    intro w w1 hh h
    simp only [run] at h
    cases hs : w.step op with
    | none =>
      rw [hs] at h
      exact Option.noConfusion h
    | some w2 =>
      rw [hs] at h
      exact ih (heapSorted_step hh op hs) h

theorem heapSorted_of_reachable {w : World} (h : w.Reachable) :
    ∀ b c, w.heap.value? b = some c → (QMap.keys c.types).Pairwise (fun x y => x < y) := by
  obtain ⟨ops, hops⟩ := h
  refine heapSorted_run ops ?_ hops
  intro b c hb
  exact Option.noConfusion hb

end World

theorem filter_flatMap_of_sorted (f : Nat → List (Nat × List Nat))
    (hf : ∀ k, ∀ c ∈ f k, c.1 = k) (type : Nat) (ks : List Nat)
    (hs : ks.Pairwise (fun a b => a < b)) :
    (ks.flatMap f).filter (fun c => decide (c.1 = type)) =
      if type ∈ ks then f type else [] := by
  induction ks with
  | nil => simp
  | cons k r ih =>
    rw [List.pairwise_cons] at hs
    rw [List.flatMap_cons, List.filter_append, ih hs.2]
    by_cases e : k = type
    · subst e
      have h1 : (f k).filter (fun c => decide (c.1 = k)) = f k := by
        rw [List.filter_eq_self]
        intro c hc
        simp [hf k c hc]
      have h2 : k ∉ r := fun hm => Nat.lt_irrefl k (hs.1 k hm)
      rw [h1, if_neg h2, if_pos (List.mem_cons_self _ _), List.append_nil]
    · have h1 : (f k).filter (fun c => decide (c.1 = type)) = [] := by
        rw [List.filter_eq_nil_iff]
        intro c hc
        simp [hf k c hc, e]
      rw [h1, List.nil_append]
      have h2 : type ∈ k :: r ↔ type ∈ r := by
        rw [List.mem_cons]
        constructor
        · rintro (h | h)
          · exact absurd h.symm e
          · exact h
        · exact Or.inr
      by_cases h3 : type ∈ r
      · rw [if_pos h3, if_pos (h2.2 h3)]
      · rw [if_neg h3, if_neg (fun x => h3 (h2.1 x))]

theorem finalReleases_of_type (ctx : HandleContext)
    (hs : (QMap.keys ctx.types).Pairwise (fun a b => a < b)) (type : Nat) :
    (World.finalReleases ctx).filter (fun c => decide (c.1 = type)) =
      (if !(ctx.typeAt type).refcounts.isEmpty then
        [(type, (ctx.typeAt type).refcounts.keys)] else []) ++
      (if !(ctx.typeAt type).toRelease.isEmpty then
        [(type, (ctx.typeAt type).toRelease.toList)] else []) := by
  unfold World.finalReleases
  rw [filter_flatMap_of_sorted _ _ type _ hs]
  · by_cases hm : type ∈ QMap.keys ctx.types
    · rw [if_pos hm]
    · rw [if_neg hm]
      have hc : ctx.types.contains type = false := by
        cases hx : ctx.types.contains type with
        | false => rfl
        | true => exact absurd ((QMap.mem_keys_iff _ _).2 hx) hm
      rw [typeAt_of_not_contains hc]
      rfl
  · intro k c hc
    simp only [List.mem_append] at hc
    rcases hc with hc | hc
    · split at hc
      · rw [List.mem_singleton] at hc
        rw [hc]
      · exact absurd hc (List.not_mem_nil _)
    · split at hc
      · rw [List.mem_singleton] at hc
        rw [hc]
      · exact absurd hc (List.not_mem_nil _)

/-- C11 (as amended): destroying a live object in a reachable state always
succeeds. If it is the last one sharing its context (`refcount` 1), the
release calls issued are those of the teardown loop: for every handle type
exactly one `ReleaseHandles` call with the keys of `refcounts`, if there are
any, followed by exactly one with the contents of `toRelease`, if there are
any, and no other call of that type, so at most two calls per handle type;
every handle still in `refcounts` or `toRelease` is named by such a call, no
other handle is, and the context is removed from the registry and freed. If
it is not the last one, no release call is issued, the registry is unchanged
and the context keeps its types (refcounts, toRelease sets and flags), with
its own `refcount` one lower. -/
theorem teardown_final_release (w : World) (h : w.Reachable) (pid : Nat) (p : Proxy)
    (hv : w.proxies.value? pid = some p) :
    ∃ ctx w1, w.heap.value? p.handleContext = some ctx ∧ w.destroy pid = some w1 ∧
      ctx.refcount = (w.liveProxies (p.busConnectionName, p.busName) : Int) ∧
      (ctx.refcount = 1 →
        w1.released = w.released ++ (World.finalReleases ctx).map (fun c => (pid, c.1, c.2)) ∧
        (∀ type handle, (ctx.typeAt type).refcounts.contains handle = true →
          ∃ c ∈ World.finalReleases ctx, c.1 = type ∧ handle ∈ c.2) ∧
        (∀ type handle, handle ∈ (ctx.typeAt type).toRelease →
          ∃ c ∈ World.finalReleases ctx, c.1 = type ∧ handle ∈ c.2) ∧
        (∀ c ∈ World.finalReleases ctx,
          (c.2 = (ctx.typeAt c.1).refcounts.keys ∧ (ctx.typeAt c.1).refcounts ≠ []) ∨
          (c.2 = (ctx.typeAt c.1).toRelease ∧ (ctx.typeAt c.1).toRelease ≠ [])) ∧
        w1.handleContexts.value? (p.busConnectionName, p.busName) = none ∧
        w1.heap.value? p.handleContext = none ∧
        (∀ type,
          (World.finalReleases ctx).filter (fun c => decide (c.1 = type)) =
            (if !(ctx.typeAt type).refcounts.isEmpty then
              [(type, (ctx.typeAt type).refcounts.keys)] else []) ++
            (if !(ctx.typeAt type).toRelease.isEmpty then
              [(type, (ctx.typeAt type).toRelease.toList)] else [])) ∧
        (∀ type,
          ((w1.released.drop w.released.length).filter
            (fun c => decide (c.2.1 = type))).length ≤ 2) ∧
        ((∀ type, (ctx.typeAt type).refcounts = [] ∧ (ctx.typeAt type).toRelease = []) →
          w1.released = w.released)) ∧
      (ctx.refcount ≠ 1 →
        w1.released = w.released ∧
        w1.handleContexts = w.handleContexts ∧
        w1.heap.value? p.handleContext = some { ctx with refcount := ctx.refcount - 1 }) := by
  have hinv := World.inv_of_reachable h
  obtain ⟨ctx, hc, hcount, hpos⟩ := hinv.registered _ _ (hinv.pointers pid p hv)
  have hsorted := World.heapSorted_of_reachable h _ ctx hc
  have hmin : ¬ ctx.refcount = intMin := by
    unfold intMin
    omega
  by_cases hz : ctx.refcount - 1 = 0
  · have hd : w.destroy pid = w.destroy pid := rfl
    conv_rhs at hd =>
      unfold World.destroy
      simp only [hv, hc, hmin, hz, if_true, if_false]
    refine ⟨ctx, _, hc, hd, hcount, ?_, ?_⟩
    · intro _
      refine ⟨rfl, finalReleases_covers_refcounts ctx, finalReleases_covers_toRelease ctx,
        fun c hcm => ((mem_finalReleases ctx c).1 hcm).2,
        QMap.value?_remove_self _ _, QMap.value?_remove_self _ _,
        finalReleases_of_type ctx hsorted, ?_, ?_⟩
      · intro type
        simp only [List.drop_left]
        rw [List.filter_map]
        rw [List.length_map]
        have e : ((fun c : Nat × Nat × List Nat => decide (c.2.1 = type)) ∘
            fun c : Nat × List Nat => (pid, c.1, c.2)) =
            fun c : Nat × List Nat => decide (c.1 = type) := rfl
        rw [e, finalReleases_of_type ctx hsorted type]
        split <;> split <;> simp
      · intro hall
        have hnil : World.finalReleases ctx = [] := by
          cases hl : World.finalReleases ctx with
          | nil => rfl
          | cons c l =>
            have hcm : c ∈ World.finalReleases ctx := by
              rw [hl]
              exact List.mem_cons_self _ _
            rcases ((mem_finalReleases ctx c).1 hcm).2 with hx | hx
            · exact absurd (hall c.1).1 hx.2
            · exact absurd (hall c.1).2 hx.2
        simp only [hnil, List.map_nil, List.append_nil]
    · intro hne
      exact absurd (by omega) hne
  · have hd : w.destroy pid = w.destroy pid := rfl
    conv_rhs at hd =>
      unfold World.destroy
      simp only [hv, hc, hmin, hz, if_false]
    refine ⟨ctx, _, hc, hd, hcount, ?_, ?_⟩
    · intro h1
      exact absurd (by omega) hz
    · intro _
      exact ⟨rfl, rfl, QMap.value?_insert_self _ _ _⟩

/-- C11, at the teardown of the only object of a context that still holds
handle 7 and has handle 8 waiting for release. -/
theorem teardown_final_release_witness :
    World.run World.empty
      [WorldOp.init ":1.5" "org.cm", WorldOp.refHandle 0 1 7, WorldOp.refHandle 0 1 8,
        WorldOp.unrefHandle 0 1 8] =
      some ⟨[(1, ⟨1, [(1, ⟨[(7, 1)], [8], 0, true⟩)]⟩)], 2, [((":1.5", "org.cm"), 1)],
        [(0, ⟨":1.5", "org.cm", 1, [1]⟩)], 1, []⟩ ∧
    ∃ ctx w1,
      QMap.value? [(1, (⟨1, [(1, ⟨[(7, 1)], [8], 0, true⟩)]⟩ : HandleContext))] 1 = some ctx ∧
      World.destroy ⟨[(1, ⟨1, [(1, ⟨[(7, 1)], [8], 0, true⟩)]⟩)], 2, [((":1.5", "org.cm"), 1)],
        [(0, ⟨":1.5", "org.cm", 1, [1]⟩)], 1, []⟩ 0 = some w1 ∧
      w1.released = [] ++ (World.finalReleases ctx).map (fun c => (0, c.1, c.2)) ∧
      (World.finalReleases ctx).filter (fun c => decide (c.1 = 1)) =
        (if !(ctx.typeAt 1).refcounts.isEmpty then
          [(1, (ctx.typeAt 1).refcounts.keys)] else []) ++
        (if !(ctx.typeAt 1).toRelease.isEmpty then
          [(1, (ctx.typeAt 1).toRelease.toList)] else []) :=
  ⟨by decide, by
    obtain ⟨ctx, w1, h1, h2, _, h4, _⟩ := teardown_final_release
      ⟨[(1, ⟨1, [(1, ⟨[(7, 1)], [8], 0, true⟩)]⟩)], 2, [((":1.5", "org.cm"), 1)],
        [(0, ⟨":1.5", "org.cm", 1, [1]⟩)], 1, []⟩
      ⟨[WorldOp.init ":1.5" "org.cm", WorldOp.refHandle 0 1 7, WorldOp.refHandle 0 1 8,
        WorldOp.unrefHandle 0 1 8], by decide⟩ 0 ⟨":1.5", "org.cm", 1, [1]⟩ (by decide)
    have h5 : ctx.refcount = 1 := by
      simp only [QMap.value?, if_true, Option.some.injEq] at h1
      rw [← h1]
    exact ⟨ctx, w1, h1, h2, (h4 h5).1, (h4 h5).2.2.2.2.2.2.1 1⟩⟩

/-! ## Status notifications after a disconnect -/

namespace Connection

end Connection

/-! ## Replies to the bring-up calls -/

namespace Connection

/-- C20: an error reply to `GetInterfaces`, to the capability fetch or to the
contact-attribute-interfaces fetch does nothing but `continueMainIntrospection`,
which leaves the three caches as they are and either removes the oldest queued
step and issues its remote call or, on an empty queue, marks Core complete
with success; a success reply stores the value and continues in the same way.
An error reply to `GetStatus` invalidates the connection with the error's name
and message and empties the capability cache, without running a queued
step. -/
theorem bringup_error_propagation (p : Private) (name message : String) :
    gotInterfaces p (Reply.error name message) = p.continueMainIntrospection ∧
    gotCapabilities p (Reply.error name message) = p.continueMainIntrospection ∧
    gotContactAttributeInterfaces p (Reply.error name message) = p.continueMainIntrospection ∧
    (∀ v, gotInterfaces p (Reply.value v) = (p.setInterfaces v).continueMainIntrospection) ∧
    (∀ v, gotCapabilities p (Reply.value v) = ({ p with caps := v }).continueMainIntrospection) ∧
    (∀ v, gotContactAttributeInterfaces p (Reply.value v) =
      ({ p with contactAttributeInterfaces := v }).continueMainIntrospection) ∧
    p.continueMainIntrospection.interfaces = p.interfaces ∧
    p.continueMainIntrospection.caps = p.caps ∧
    p.continueMainIntrospection.contactAttributeInterfaces = p.contactAttributeInterfaces ∧
    (∀ f rest, p.introspectMainQueue = f :: rest →
      p.continueMainIntrospection = Private.runStep { p with introspectMainQueue := rest } f) ∧
    (p.introspectMainQueue = [] →
      p.continueMainIntrospection.introspectingMain = false ∧
      p.continueMainIntrospection.effects =
        p.effects ++ [Effect.setIntrospectCompleted true none] ++
          (if p.statusChangedWhileIntrospectingMain then
            [Effect.setCurrentStatus p.pendingStatus] else [])) ∧
    gotStatus p (Reply.error name message) =
      { p with caps := [], effects := p.effects ++ [Effect.invalidate name message] } ∧
    (IntrospectStep.introspectMainFallbackStatus.remoteCall = RemoteCall.GetStatus ∧
      IntrospectStep.introspectMainFallbackInterfaces.remoteCall = RemoteCall.GetInterfaces ∧
      IntrospectStep.introspectMainFallbackSelfHandle.remoteCall = RemoteCall.GetSelfHandle ∧
      IntrospectStep.introspectCapabilities.remoteCall =
        RemoteCall.GetRequestableChannelClasses ∧
      IntrospectStep.introspectContactAttributeInterfaces.remoteCall =
        RemoteCall.GetContactAttributeInterfaces) ∧
    (∀ f rest, p.introspectMainQueue = f :: rest →
      gotInterfaces p (Reply.error name message) =
        { p with
          introspectMainQueue := rest
          effects := p.effects ++ [Effect.call f.remoteCall] } ∧
      gotCapabilities p (Reply.error name message) =
        { p with
          introspectMainQueue := rest
          effects := p.effects ++ [Effect.call f.remoteCall] } ∧
      gotContactAttributeInterfaces p (Reply.error name message) =
        { p with
          introspectMainQueue := rest
          effects := p.effects ++ [Effect.call f.remoteCall] } ∧
      (∀ v, gotInterfaces p (Reply.value v) =
        { p with
          introspectMainQueue := rest
          interfaces := v
          effects := p.effects ++ [Effect.setInterfaces v, Effect.call f.remoteCall] }) ∧
      (∀ v, gotCapabilities p (Reply.value v) =
        { p with
          introspectMainQueue := rest
          caps := v
          effects := p.effects ++ [Effect.call f.remoteCall] }) ∧
      (∀ v, gotContactAttributeInterfaces p (Reply.value v) =
        { p with
          introspectMainQueue := rest
          contactAttributeInterfaces := v
          effects := p.effects ++ [Effect.call f.remoteCall] })) ∧
    (p.introspectMainQueue = [] →
      gotInterfaces p (Reply.error name message) =
        { p with
          introspectingMain := false
          statusChangedWhileIntrospectingMain := false
          effects := p.effects ++ [Effect.setIntrospectCompleted true none] ++
            (if p.statusChangedWhileIntrospectingMain then
              [Effect.setCurrentStatus p.pendingStatus] else []) } ∧
      gotCapabilities p (Reply.error name message) =
        gotInterfaces p (Reply.error name message) ∧
      gotContactAttributeInterfaces p (Reply.error name message) =
        gotInterfaces p (Reply.error name message) ∧
      (∀ v, gotInterfaces p (Reply.value v) =
        { p with
          introspectingMain := false
          statusChangedWhileIntrospectingMain := false
          interfaces := v
          effects := p.effects ++
            [Effect.setInterfaces v, Effect.setIntrospectCompleted true none] ++
            (if p.statusChangedWhileIntrospectingMain then
              [Effect.setCurrentStatus p.pendingStatus] else []) }) ∧
      (∀ v, gotCapabilities p (Reply.value v) =
        { p with
          introspectingMain := false
          statusChangedWhileIntrospectingMain := false
          caps := v
          effects := p.effects ++ [Effect.setIntrospectCompleted true none] ++
            (if p.statusChangedWhileIntrospectingMain then
              [Effect.setCurrentStatus p.pendingStatus] else []) }) ∧
      (∀ v, gotContactAttributeInterfaces p (Reply.value v) =
        { p with
          introspectingMain := false
          statusChangedWhileIntrospectingMain := false
          contactAttributeInterfaces := v
          effects := p.effects ++ [Effect.setIntrospectCompleted true none] ++
            (if p.statusChangedWhileIntrospectingMain then
              [Effect.setCurrentStatus p.pendingStatus] else []) })) := by
  have caches : p.continueMainIntrospection.interfaces = p.interfaces ∧
      p.continueMainIntrospection.caps = p.caps ∧
      p.continueMainIntrospection.contactAttributeInterfaces =
        p.contactAttributeInterfaces := by
    cases hq : p.introspectMainQueue with
    | nil =>
      rw [continueMainIntrospection_nil p hq]
      cases p.statusChangedWhileIntrospectingMain <;> exact ⟨rfl, rfl, rfl⟩
    | cons f rest =>
      rw [continueMainIntrospection_cons p f rest hq]
      obtain ⟨c, hc⟩ := runStep_eq { p with introspectMainQueue := rest } f
      rw [hc]
      exact ⟨rfl, rfl, rfl⟩
  have nil : ∀ q : Private, q.introspectMainQueue = [] →
      q.continueMainIntrospection =
        { q with
          introspectingMain := false
          statusChangedWhileIntrospectingMain := false
          effects := q.effects ++ [Effect.setIntrospectCompleted true none] ++
            (if q.statusChangedWhileIntrospectingMain then
              [Effect.setCurrentStatus q.pendingStatus] else []) } := by
    intro q hq
    rw [continueMainIntrospection_nil q hq]
    cases q.statusChangedWhileIntrospectingMain <;> simp
  refine ⟨rfl, rfl, rfl, fun _ => rfl, fun _ => rfl, fun _ => rfl, caches.1, caches.2.1,
    caches.2.2, ?_, ?_, rfl, ⟨rfl, rfl, rfl, rfl, rfl⟩, ?_, ?_⟩
  · intro f rest hq
    exact continueMainIntrospection_cons p f rest hq
  · intro hq
    rw [continueMainIntrospection_nil p hq]
    cases p.statusChangedWhileIntrospectingMain <;> simp
  · intro f rest hq
    have e := continueMainIntrospection_step p f rest hq
    refine ⟨e, e, e, ?_, ?_, ?_⟩
    · intro v
      show (p.setInterfaces v).continueMainIntrospection = _
      rw [continueMainIntrospection_step (p.setInterfaces v) f rest hq]
      simp [Private.setInterfaces, Private.emit]
    · intro v
      show ({ p with caps := v }).continueMainIntrospection = _
      rw [continueMainIntrospection_step { p with caps := v } f rest hq]
    · intro v
      show ({ p with contactAttributeInterfaces := v }).continueMainIntrospection = _
      rw [continueMainIntrospection_step { p with contactAttributeInterfaces := v } f rest hq]
  · intro hq
    refine ⟨nil p hq, rfl, rfl, ?_, ?_, ?_⟩
    · intro v
      show (p.setInterfaces v).continueMainIntrospection = _
      rw [nil (p.setInterfaces v) hq]
      simp [Private.setInterfaces, Private.emit]
    · intro v
      show ({ p with caps := v }).continueMainIntrospection = _
      rw [nil { p with caps := v } hq]
    · intro v
      show ({ p with contactAttributeInterfaces := v }).continueMainIntrospection = _
      rw [nil { p with contactAttributeInterfaces := v } hq]

end Connection

/-! ## A bring-up driven by replies -/

namespace Connection

theorem issuedCalls_append (a b : List Effect) :
    issuedCalls (a ++ b) = issuedCalls a ++ issuedCalls b := by
  unfold issuedCalls
  rw [List.filterMap_append]

theorem quiet_effects_append {a b : List Effect}
    (ha : issuedCalls a = [] ∧ ∀ s e, Effect.setIntrospectCompleted s e ∉ a)
    (hb : issuedCalls b = [] ∧ ∀ s e, Effect.setIntrospectCompleted s e ∉ b) :
    issuedCalls (a ++ b) = [] ∧ ∀ s e, Effect.setIntrospectCompleted s e ∉ a ++ b := by
  refine ⟨by rw [issuedCalls_append, ha.1, hb.1]; rfl, ?_⟩
  intro s e hm
  rcases List.mem_append.1 hm with h | h
  · exact ha.2 s e h
  · exact hb.2 s e h

theorem forceCurrentStatus_effects (p : Private) (v : Nat) :
    (p.forceCurrentStatus v).introspectMainQueue = p.introspectMainQueue ∧
    (p.forceCurrentStatus v).statusChangedWhileIntrospectingMain =
      p.statusChangedWhileIntrospectingMain ∧
    ∃ e0, (p.forceCurrentStatus v).effects = p.effects ++ e0 ∧
      issuedCalls e0 = [] ∧ ∀ s e, Effect.setIntrospectCompleted s e ∉ e0 := by
  unfold Private.forceCurrentStatus
  split
  · exact ⟨rfl, rfl, [Effect.forceCurrentStatus v], rfl, rfl, by simp⟩
  · exact ⟨rfl, rfl, [], by simp, rfl, by simp⟩

theorem handle_replyEvent (replies : Replies) (s : Private) (f : IntrospectStep)
    (hst : ∃ v, replies.status = Reply.value v)
    (hsh : ∃ v, replies.selfHandle = Reply.value v) :
    ∃ u : Private, handle s (replyEvent replies f) = u.continueMainIntrospection ∧
      u.introspectMainQueue = s.introspectMainQueue ∧
      u.statusChangedWhileIntrospectingMain = s.statusChangedWhileIntrospectingMain ∧
      ∃ e0, u.effects = s.effects ++ e0 ∧
        issuedCalls e0 = [] ∧ ∀ b e, Effect.setIntrospectCompleted b e ∉ e0 := by
  obtain ⟨v1, h1⟩ := hst
  obtain ⟨v2, h2⟩ := hsh
  cases f with
  | introspectMainFallbackStatus =>
    obtain ⟨a1, a2, a3⟩ := forceCurrentStatus_effects s v1
    exact ⟨s.forceCurrentStatus v1, by simp [replyEvent, handle, h1, gotStatus], a1, a2, a3⟩
  | introspectMainFallbackInterfaces =>
    cases hr : replies.interfaces with
    | value v =>
      exact ⟨s.setInterfaces v, by simp [replyEvent, handle, hr, gotInterfaces], rfl, rfl,
        [Effect.setInterfaces v], rfl, rfl, by simp⟩
    | error n m =>
      exact ⟨s, by simp [replyEvent, handle, hr, gotInterfaces], rfl, rfl, [], by simp, rfl,
        by simp⟩
  | introspectMainFallbackSelfHandle =>
    exact ⟨{ s with selfHandle := v2 }, by simp [replyEvent, handle, h2, gotSelfHandle], rfl,
      rfl, [], by simp, rfl, by simp⟩
  | introspectCapabilities =>
    cases hr : replies.capabilities with
    | value v =>
      exact ⟨{ s with caps := v }, by simp [replyEvent, handle, hr, gotCapabilities], rfl, rfl,
        [], by simp, rfl, by simp⟩
    | error n m =>
      exact ⟨s, by simp [replyEvent, handle, hr, gotCapabilities], rfl, rfl, [], by simp, rfl,
        by simp⟩
  | introspectContactAttributeInterfaces =>
    cases hr : replies.contactAttributeInterfaces with
    | value v =>
      exact ⟨{ s with contactAttributeInterfaces := v },
        by simp [replyEvent, handle, hr, gotContactAttributeInterfaces], rfl, rfl,
        [], by simp, rfl, by simp⟩
    | error n m =>
      exact ⟨s, by simp [replyEvent, handle, hr, gotContactAttributeInterfaces], rfl, rfl, [],
        by simp, rfl, by simp⟩

theorem drain_by_replies (replies : Replies)
    (hst : ∃ v, replies.status = Reply.value v)
    (hsh : ∃ v, replies.selfHandle = Reply.value v) (queue : List IntrospectStep) :
    ∀ u : Private, u.introspectMainQueue = queue →
      u.statusChangedWhileIntrospectingMain = false →
      ∃ pre,
        (handleAll u.continueMainIntrospection (queue.map (replyEvent replies))).effects =
          u.effects ++ pre ++ [Effect.setIntrospectCompleted true none] ∧
        issuedCalls pre = queue.map IntrospectStep.remoteCall ∧
        (∀ b e, Effect.setIntrospectCompleted b e ∉ pre) ∧
        (handleAll u.continueMainIntrospection
          (queue.map (replyEvent replies))).introspectingMain = false ∧
        (handleAll u.continueMainIntrospection
          (queue.map (replyEvent replies))).introspectMainQueue = [] := by
  induction queue with
  | nil =>
    intro u hq hf
    rw [continueMainIntrospection_nil u hq]
    simp only [hf, List.map_nil, handleAll]
    exact ⟨[], by simp, rfl, by simp, rfl, hq⟩
  | cons f rest ih =>
    intro u hq hf
    rw [continueMainIntrospection_step u f rest hq]
    simp only [List.map_cons, handleAll]
    obtain ⟨u1, e1, q1, f1, e0, he0, c0, n0⟩ := handle_replyEvent replies
      { u with introspectMainQueue := rest
               effects := u.effects ++ [Effect.call f.remoteCall] } f hst hsh
    rw [e1]
    obtain ⟨pre, p1, p2, p3, p4, p5⟩ := ih u1 q1 (f1.trans hf)
    refine ⟨[Effect.call f.remoteCall] ++ e0 ++ pre, ?_, ?_, ?_, p4, p5⟩
    · rw [p1, he0]
      simp
    · rw [issuedCalls_append, issuedCalls_append, c0, p2]
      rfl
    · intro b e hm
      simp only [List.mem_append, List.mem_singleton] at hm
      rcases hm with (hm | hm) | hm
      · exact Effect.noConfusion hm
      · exact n0 b e hm
      · exact p3 b e hm

theorem gotMainPropertiesQueued_effects (p : Private) (reply : Reply QVariantMap) :
    (gotMainPropertiesQueued p reply).statusChangedWhileIntrospectingMain =
      p.statusChangedWhileIntrospectingMain ∧
    ∃ e0, (gotMainPropertiesQueued p reply).effects = p.effects ++ e0 ∧
      issuedCalls e0 = [] ∧ ∀ b e, Effect.setIntrospectCompleted b e ∉ e0 := by
  have key : ∀ props : QVariantMap,
      (gotMainPropertiesQueued p (Reply.value props)).statusChangedWhileIntrospectingMain =
        p.statusChangedWhileIntrospectingMain ∧
      ∃ e0, (gotMainPropertiesQueued p (Reply.value props)).effects = p.effects ++ e0 ∧
        issuedCalls e0 = [] ∧ ∀ b e, Effect.setIntrospectCompleted b e ∉ e0 := by
    intro props
    rw [gotMainPropertiesQueued_value]
    refine ⟨rfl, ?_⟩
    simp only
    have h2 : ∀ l : List String,
        issuedCalls (if props.contains "Interfaces" then [Effect.setInterfaces l] else []) = [] ∧
        ∀ b e, Effect.setIntrospectCompleted b e ∉
          (if props.contains "Interfaces" then [Effect.setInterfaces l] else []) := by
      intro l
      split
      · exact ⟨rfl, by simp⟩
      · exact ⟨rfl, by simp⟩
    split
    · obtain ⟨_, _, e0, he0, c0, n0⟩ :=
        forceCurrentStatus_effects p (props.value "Status").toUInt
      refine ⟨e0 ++ (if props.contains "Interfaces" then
        [Effect.setInterfaces (props.value "Interfaces").toStringList] else []), ?_, ?_⟩
      · rw [he0, List.append_assoc]
      · exact quiet_effects_append ⟨c0, n0⟩ (h2 _)
    · exact ⟨_, rfl, h2 _⟩
  cases reply with
  | value props => exact key props
  | error n m => exact key []

/-- C25 (as amended): `continueMainIntrospection` on a non-empty queue removes
the oldest step and issues its call, and nothing else; on an empty queue it
marks Core complete with success once and clears `introspectingMain` (and
applies a deferred status change, if there is one). So `k` calls on a queue of
at least `k` steps issue the calls of the first `k` steps in order. The steps
are enqueued by `gotMainProperties` in the order status, interfaces, self
handle, capabilities, contact attribute interfaces. In a bring-up without a
status change in which the replies to `GetStatus` and `GetSelfHandle` are not
errors, the reply to `GetAll` followed by the replies to the calls of the
enqueued steps, in enqueue order, issues exactly the calls of the enqueued
steps in that order and then marks Core complete with success, once. An
error reply to `GetStatus` only invalidates the connection and one to
`GetSelfHandle` only marks Core as failed: neither runs a queued step. -/
theorem introspection_queue_fifo (p : Private) :
    (∀ f rest, p.introspectMainQueue = f :: rest →
      p.continueMainIntrospection =
        { p with
          introspectMainQueue := rest
          effects := p.effects ++ [Effect.call f.remoteCall] }) ∧
    (p.introspectMainQueue = [] →
      p.continueMainIntrospection =
        { p with
          introspectingMain := false
          statusChangedWhileIntrospectingMain := false
          effects := p.effects ++ [Effect.setIntrospectCompleted true none] ++
            (if p.statusChangedWhileIntrospectingMain then
              [Effect.setCurrentStatus p.pendingStatus] else []) }) ∧
    (∀ k, k ≤ p.introspectMainQueue.length →
      Nat.iterate Private.continueMainIntrospection k p =
        { p with
          introspectMainQueue := p.introspectMainQueue.drop k
          effects := p.effects ++
            (p.introspectMainQueue.take k).map fun f => Effect.call f.remoteCall }) ∧
    (p.statusChangedWhileIntrospectingMain = false →
      Nat.iterate Private.continueMainIntrospection (p.introspectMainQueue.length + 1) p =
        { p with
          introspectMainQueue := []
          introspectingMain := false
          effects := p.effects ++
            (p.introspectMainQueue.map fun f => Effect.call f.remoteCall) ++
            [Effect.setIntrospectCompleted true none] }) ∧
    (∀ props : QVariantMap,
      (gotMainPropertiesQueued p (Reply.value props)).introspectMainQueue =
        p.introspectMainQueue ++
          (if props.contains "Status" = false ∧ p.pendingStatus = StatusUnknown then
            [IntrospectStep.introspectMainFallbackStatus] else []) ++
          (if props.contains "Interfaces" = false then
            [IntrospectStep.introspectMainFallbackInterfaces] else []) ++
          (if props.contains "SelfHandle" = false then
            [IntrospectStep.introspectMainFallbackSelfHandle] else []) ++
          (if TELEPATHY_INTERFACE_CONNECTION_INTERFACE_REQUESTS ∈
              (gotMainPropertiesQueued p (Reply.value props)).interfaces then
            [IntrospectStep.introspectCapabilities] else []) ++
          (if TELEPATHY_INTERFACE_CONNECTION_INTERFACE_CONTACTS ∈
              (gotMainPropertiesQueued p (Reply.value props)).interfaces then
            [IntrospectStep.introspectContactAttributeInterfaces] else [])) ∧
    (IntrospectStep.introspectMainFallbackStatus.remoteCall = RemoteCall.GetStatus ∧
      IntrospectStep.introspectMainFallbackInterfaces.remoteCall = RemoteCall.GetInterfaces ∧
      IntrospectStep.introspectMainFallbackSelfHandle.remoteCall = RemoteCall.GetSelfHandle ∧
      IntrospectStep.introspectCapabilities.remoteCall =
        RemoteCall.GetRequestableChannelClasses ∧
      IntrospectStep.introspectContactAttributeInterfaces.remoteCall =
        RemoteCall.GetContactAttributeInterfaces) ∧
    (∀ (reply : Reply QVariantMap) (replies : Replies),
      p.statusChangedWhileIntrospectingMain = false →
      (∃ v, replies.status = Reply.value v) → (∃ v, replies.selfHandle = Reply.value v) →
      ∃ pre,
        (handleAll p
          (Event.gotMainProperties reply ::
            (gotMainPropertiesQueued p reply).introspectMainQueue.map
              (replyEvent replies))).effects =
          p.effects ++ pre ++ [Effect.setIntrospectCompleted true none] ∧
        issuedCalls pre =
          (gotMainPropertiesQueued p reply).introspectMainQueue.map
            IntrospectStep.remoteCall ∧
        (∀ b e, Effect.setIntrospectCompleted b e ∉ pre) ∧
        (handleAll p
          (Event.gotMainProperties reply ::
            (gotMainPropertiesQueued p reply).introspectMainQueue.map
              (replyEvent replies))).introspectingMain = false ∧
        (handleAll p
          (Event.gotMainProperties reply ::
            (gotMainPropertiesQueued p reply).introspectMainQueue.map
              (replyEvent replies))).introspectMainQueue = []) ∧
    (∀ name message : String,
      gotStatus p (Reply.error name message) =
        { p with caps := [], effects := p.effects ++ [Effect.invalidate name message] } ∧
      gotSelfHandle p (Reply.error name message) =
        { p with
          effects := p.effects ++
            [Effect.setIntrospectCompleted false (some (name, message))] }) := by
  refine ⟨continueMainIntrospection_step p, ?_, fun k => iterate_continueMainIntrospection k p,
    ?_, gotMainPropertiesQueued_queue p, ⟨rfl, rfl, rfl, rfl, rfl⟩, ?_, fun _ _ => ⟨rfl, rfl⟩⟩
  · intro hq
    rw [continueMainIntrospection_nil p hq]
    cases p.statusChangedWhileIntrospectingMain <;> simp
  · intro hf
    rw [Function.iterate_succ_apply', iterate_continueMainIntrospection _ p (le_refl _),
      continueMainIntrospection_nil _ (by simp)]
    simp [hf]
  · intro reply replies hf hst hsh
    obtain ⟨f0, e0, he0, c0, n0⟩ := gotMainPropertiesQueued_effects p reply
    obtain ⟨pre, p1, p2, p3, p4, p5⟩ := drain_by_replies replies hst hsh
      (gotMainPropertiesQueued p reply).introspectMainQueue (gotMainPropertiesQueued p reply)
      rfl (f0.trans hf)
    simp only [handleAll, handle]
    rw [gotMainProperties_eq]
    refine ⟨e0 ++ pre, ?_, ?_, ?_, p4, p5⟩
    · rw [p1, he0]
      simp
    · rw [issuedCalls_append, c0, p2]
      rfl
    · intro b e hm
      rcases List.mem_append.1 hm with hm | hm
      · exact n0 b e hm
      · exact p3 b e hm

/-- C25, for a fresh object whose `GetAll` fails and whose three fallback
calls succeed. -/
theorem introspection_queue_fifo_witness :
    (gotMainPropertiesQueued (Private.introspectMain Private.new)
      (Reply.error "org.freedesktop.DBus.Error.UnknownMethod" "no such method")).introspectMainQueue =
      [IntrospectStep.introspectMainFallbackStatus,
        IntrospectStep.introspectMainFallbackInterfaces,
        IntrospectStep.introspectMainFallbackSelfHandle] ∧
    (handleAll (Private.introspectMain Private.new)
      [Event.gotMainProperties
          (Reply.error "org.freedesktop.DBus.Error.UnknownMethod" "no such method"),
        Event.gotStatus (Reply.value ConnectionStatusConnecting),
        Event.gotInterfaces (Reply.value []),
        Event.gotSelfHandle (Reply.value 7)]).effects =
      [Effect.setCurrentStatus StatusUnknown, Effect.call RemoteCall.GetAll,
        Effect.call RemoteCall.GetStatus,
        Effect.forceCurrentStatus ConnectionStatusConnecting,
        Effect.call RemoteCall.GetInterfaces, Effect.setInterfaces [],
        Effect.call RemoteCall.GetSelfHandle, Effect.setIntrospectCompleted true none] ∧
    ∃ pre,
      (handleAll (Private.introspectMain Private.new)
        (Event.gotMainProperties
            (Reply.error "org.freedesktop.DBus.Error.UnknownMethod" "no such method") ::
          (gotMainPropertiesQueued (Private.introspectMain Private.new)
            (Reply.error "org.freedesktop.DBus.Error.UnknownMethod"
              "no such method")).introspectMainQueue.map
            (replyEvent ⟨Reply.value ConnectionStatusConnecting, Reply.value [],
              Reply.value 7, Reply.value [], Reply.value []⟩))).effects =
        (Private.introspectMain Private.new).effects ++ pre ++
          [Effect.setIntrospectCompleted true none] ∧
      issuedCalls pre =
        (gotMainPropertiesQueued (Private.introspectMain Private.new)
          (Reply.error "org.freedesktop.DBus.Error.UnknownMethod"
            "no such method")).introspectMainQueue.map IntrospectStep.remoteCall :=
  have h := (introspection_queue_fifo (Private.introspectMain Private.new)).2.2.2.2.2.2.1
    (Reply.error "org.freedesktop.DBus.Error.UnknownMethod" "no such method")
    ⟨Reply.value ConnectionStatusConnecting, Reply.value [], Reply.value 7, Reply.value [],
      Reply.value []⟩ rfl ⟨_, rfl⟩ ⟨_, rfl⟩
  ⟨by decide, by decide, h.elim fun pre hp => ⟨pre, hp.1, hp.2.1⟩⟩

/-- C25 as stated fails: in a bring-up without any status change, an error
reply to `GetStatus` invalidates the connection and ends the drain: the two
steps still enqueued are never run and Core is not marked complete. Likewise
an error reply to `GetSelfHandle` marks Core as failed and leaves the
capability step in the queue. -/
theorem drain_stops_at_error_reply :
    (gotMainPropertiesQueued (Private.introspectMain Private.new)
      (Reply.error "org.freedesktop.DBus.Error.UnknownMethod" "no such method")).introspectMainQueue =
      [IntrospectStep.introspectMainFallbackStatus,
        IntrospectStep.introspectMainFallbackInterfaces,
        IntrospectStep.introspectMainFallbackSelfHandle] ∧
    handleAll Private.new
      [Event.introspectMain,
        Event.gotMainProperties
          (Reply.error "org.freedesktop.DBus.Error.UnknownMethod" "no such method"),
        Event.gotStatus (Reply.error "org.freedesktop.DBus.Error.NoReply" "timeout")] =
      { introspectMainQueue :=
          [IntrospectStep.introspectMainFallbackInterfaces,
            IntrospectStep.introspectMainFallbackSelfHandle]
        introspectingMain := true
        statusChangedWhileIntrospectingMain := false
        pendingStatus := StatusUnknown
        pendingStatusReason := ConnectionStatusReasonNoneSpecified
        status := StatusUnknown
        statusReason := ConnectionStatusReasonNoneSpecified
        selfHandle := 0
        caps := []
        contactAttributeInterfaces := []
        interfaces := []
        effects :=
          [Effect.setCurrentStatus StatusUnknown, Effect.call RemoteCall.GetAll,
            Effect.call RemoteCall.GetStatus,
            Effect.invalidate "org.freedesktop.DBus.Error.NoReply" "timeout"] } ∧
    (gotMainPropertiesQueued (Private.introspectMain Private.new)
      (Reply.value [("Interfaces",
        QVariant.stringList
          [TELEPATHY_INTERFACE_CONNECTION_INTERFACE_REQUESTS])])).introspectMainQueue =
      [IntrospectStep.introspectMainFallbackStatus,
        IntrospectStep.introspectMainFallbackSelfHandle,
        IntrospectStep.introspectCapabilities] ∧
    (handleAll Private.new
      [Event.introspectMain,
        Event.gotMainProperties (Reply.value [("Interfaces",
          QVariant.stringList [TELEPATHY_INTERFACE_CONNECTION_INTERFACE_REQUESTS])]),
        Event.gotStatus (Reply.value ConnectionStatusConnecting),
        Event.gotSelfHandle
          (Reply.error "org.freedesktop.DBus.Error.NoReply" "timeout")]).introspectMainQueue =
      [IntrospectStep.introspectCapabilities] ∧
    (handleAll Private.new
      [Event.introspectMain,
        Event.gotMainProperties (Reply.value [("Interfaces",
          QVariant.stringList [TELEPATHY_INTERFACE_CONNECTION_INTERFACE_REQUESTS])]),
        Event.gotStatus (Reply.value ConnectionStatusConnecting),
        Event.gotSelfHandle
          (Reply.error "org.freedesktop.DBus.Error.NoReply" "timeout")]).effects =
      [Effect.setCurrentStatus StatusUnknown, Effect.call RemoteCall.GetAll,
        Effect.setInterfaces [TELEPATHY_INTERFACE_CONNECTION_INTERFACE_REQUESTS],
        Effect.call RemoteCall.GetStatus,
        Effect.forceCurrentStatus ConnectionStatusConnecting,
        Effect.call RemoteCall.GetSelfHandle,
        Effect.setIntrospectCompleted false
          (some ("org.freedesktop.DBus.Error.NoReply", "timeout"))] := by
  decide

end Connection

end Tp
